import Mathlib

/-!
KingCraft: block meshing and chunk generation.

A shallow embedding of `BlockFactory::make_block` / `BlockFactory::get_uv_coords`
(`src/block_factory.cpp`) and `ChunkFactory::make_chunk` (`src/chunk_factory.cpp`).

Conventions of the embedding

* `float` values are elements of an arbitrary scalar type `F` that carries the
  operations the source uses (literals, `+`, `-`, unary minus, `/`, conversion from
  an unsigned constant).  Nothing about rounding is assumed.
* `ssize_t` loop variables and indices are `Int`; `uint8_t` face masks are `Nat`.
* A chunk location is a `vec3` of `float` holding whole numbers; the world coordinates
  `make_chunk` computes from it are whole numbers too, and each `float` operation is
  the exact operation followed by `float32_round` (round to nearest, ties to even, 24
  significant bits; every operation rounds on its own).
* OpenGL is a log of calls plus counters for the generated object names.
* An out-of-range `operator[]` or a failed `assert` is recorded in the `fault`
  field of the state; the first fault is kept.
* The six face arrays are also described by tables (`face_corner`, `face_uv_far`);
  `make_block_faces_layout` shows the tables and the source arrays agree.  Facts about
  normals and about distinct UV values are stated in exact arithmetic, over `ℚ`.

The file also embeds `isExtensionSupported` (`src/window.cpp`).  A C string is the list
of its characters before the terminating NUL, a pointer into it is an offset, and the
`for (;;)` loop takes a bound on its iterations; `isExtensionSupported_terminates`
shows that `extList.length + 1` iterations always finish it.
-/

namespace KingCraft

/-! ## common.hpp / block.hpp -/

/-- The `BlockType` enumeration of block.hpp. -/
inductive BlockType where
  | AIR | DIRT | GRASS | STONE | SAND | WATER
  deriving DecidableEq

/-- Face bit `RIGHT = (1 << 0)` of `enum BlockFace`. -/
def RIGHT : Nat := 1 <<< 0
/-- Face bit `LEFT = (1 << 1)`. -/
def LEFT : Nat := 1 <<< 1
/-- Face bit `BACK = (1 << 2)`. -/
def BACK : Nat := 1 <<< 2
/-- Face bit `FRONT = (1 << 3)`. -/
def FRONT : Nat := 1 <<< 3
/-- Face bit `BOTTOM = (1 << 4)`. -/
def BOTTOM : Nat := 1 <<< 4
/-- Face bit `TOP = (1 << 5)`. -/
def TOP : Nat := 1 <<< 5
/-- The mask `ALL = (RIGHT | LEFT | BACK | FRONT | BOTTOM | TOP)`. -/
def ALL : Nat := RIGHT ||| LEFT ||| BACK ||| FRONT ||| BOTTOM ||| TOP

/-- The macro `IS_BIT_SET(mask, bit) (((mask) & (bit)) == (bit))`. -/
def IS_BIT_SET (mask bit : Nat) : Bool := (mask &&& bit) == bit

/-- The macro `SET_BIT`, also written `mask |= bit` in the source. -/
def SET_BIT (mask bit : Nat) : Nat := mask ||| bit

/-- Number of set bits among the eight bits of a `uint8_t` mask. -/
def popcount (mask : Nat) : Nat :=
  ((List.range 8).filter (fun i => mask.testBit i)).length

/-- A `vec4` of liblac: four floats, indexed `v 0 .. v 3`. -/
abbrev Vec4 (F : Type) := Fin 4 → F

/-- The `UvCoords` pair of floats, indexed `uv 0`, `uv 1`. -/
abbrev UvCoords (F : Type) := Fin 2 → F

/-- The mesh record used by `make_block` (`block.mesh.vertices`, `.vao`, `.vbo`);
`vertices` is the number of floats of the uploaded array. -/
structure Mesh where
  vertices : Nat
  vao : Nat
  vbo : Nat
  deriving DecidableEq

/-- A `Block`: its type, the `std::vector<float> vertices` member declared in
block.hpp, and the mesh record written by `make_block`. -/
structure Block (F : Type) where
  type : BlockType
  vertices : List F
  mesh : Mesh

/-- Modelled from the spec: the constructor `Block(BlockType)` (block.cpp is not part
of the sources).  The spec's "Air block with empty vertex data" and no GPU handles:
the given type, an empty vertex vector and a zeroed mesh record. -/
def Block.ofType {F : Type} (type : BlockType) : Block F :=
  { type := type, vertices := [], mesh := { vertices := 0, vao := 0, vbo := 0 } }

/-! ## OpenGL as a call log -/

/-- The OpenGL entry points `make_block` calls, with the arguments that vary. -/
inductive GlCall (F : Type) where
  | genVertexArrays (name : Nat)
  | genBuffers (name : Nat)
  | bindVertexArray (vao : Nat)
  | bindBuffer (vbo : Nat)
  | bufferData (bytes : Nat) (data : List F)
  | vertexAttribPointer (index size stride offset : Nat)
  | enableVertexAttribArray (index : Nat)

/-- The GPU side: how many vertex-array and buffer names have been generated, and
the calls made so far (oldest first). -/
structure GlState (F : Type) where
  vaos : Nat
  vbos : Nat
  calls : List (GlCall F)

/-- The call `glGenVertexArrays(1, &vao)`: a fresh non-zero name. -/
def glGenVertexArrays {F : Type} (gl : GlState F) : Nat × GlState F :=
  (gl.vaos + 1,
   { gl with vaos := gl.vaos + 1, calls := gl.calls ++ [GlCall.genVertexArrays (gl.vaos + 1)] })

/-- The call `glGenBuffers(1, &vbo)`: a fresh non-zero name. -/
def glGenBuffers {F : Type} (gl : GlState F) : Nat × GlState F :=
  (gl.vbos + 1,
   { gl with vbos := gl.vbos + 1, calls := gl.calls ++ [GlCall.genBuffers (gl.vbos + 1)] })

/-- Any other OpenGL call: appended to the log. -/
def glCall {F : Type} (gl : GlState F) (c : GlCall F) : GlState F :=
  { gl with calls := gl.calls ++ [c] }

/-! ## block_factory.cpp -/

/-- What `make_block` takes from outside block_factory.cpp: the constant
`KC::ATLAS_TEX_SIZE` and liblac's `lac_multiply_vec4_mat4` (its output parameter is
the returned vector).  `M` is the type of the transform argument `m_block_trns`. -/
structure BlockEnv (F M : Type) where
  ATLAS_TEX_SIZE : Nat
  lac_multiply_vec4_mat4 : Vec4 F → M → Vec4 F

section Scalar

variable {F M : Type} [Add F] [Sub F] [Neg F] [Div F] [OfScientific F] [NatCast F]

/-- The function `BlockFactory::get_uv_coords`: the UV origins (top, sides, bottom)
of a block type, or `none` (`std::nullopt`) in the `default:` case. -/
def get_uv_coords (env : BlockEnv F M) (type : BlockType) :
    Option (UvCoords F × UvCoords F × UvCoords F) :=
  match type with
  | BlockType.DIRT =>
    let ty_offset : F := 0.0
    let tx_offset : F := 2.0
    let u : UvCoords F := ![tx_offset / (env.ATLAS_TEX_SIZE : F), ty_offset]
    some (u, u, u)
  | BlockType.GRASS =>
    let ty_offset : F := 0.0
    -- Top
    let tx_offset : F := 0.0
    let uv_top : UvCoords F := ![tx_offset / (env.ATLAS_TEX_SIZE : F), ty_offset]
    -- Sides
    let tx_offset : F := 1.0
    let uv_sides : UvCoords F := ![tx_offset / (env.ATLAS_TEX_SIZE : F), ty_offset]
    -- Bottom
    let tx_offset : F := 2.0
    let uv_bottom : UvCoords F := ![tx_offset / (env.ATLAS_TEX_SIZE : F), ty_offset]
    some (uv_top, uv_sides, uv_bottom)
  | _ => none

/-- The value-initialised `UvCoords{}`. -/
def UvCoords.zero : UvCoords F := ![0.0, 0.0]

/-- The six `face_t` arrays of `make_block` (30 floats each), in the order
right, left, front, back, bottom, top of their declarations. -/
structure Faces (F : Type) where
  right : List F
  left : List F
  front : List F
  back : List F
  bottom : List F
  top : List F

/-- The part of `make_block` between the early return and the `IS_BIT_SET` tests:
UV constants, the eight cube corners, their transformation and the six face arrays. -/
def make_block_faces (env : BlockEnv F M) (type : BlockType) (m_block_trns : M) : Faces F :=
  -- UV coordinates
  let uv_pad : F := 0.005
  let uw : F := (1.0 / (env.ATLAS_TEX_SIZE : F)) - uv_pad
  let vh : F := (1.0 / (env.ATLAS_TEX_SIZE : F)) - uv_pad
  let uv := (get_uv_coords env type).getD (UvCoords.zero, UvCoords.zero, UvCoords.zero)
  let uv_top : UvCoords F := uv.1
  let uv_sides : UvCoords F := uv.2.1
  let uv_bottom : UvCoords F := uv.2.2
  -- Vertex positions
  let v0 : Vec4 F := ![-0.5, -0.5,  0.5, 1.0]
  let v1 : Vec4 F := ![-0.5,  0.5,  0.5, 1.0]
  let v2 : Vec4 F := ![-0.5, -0.5, -0.5, 1.0]
  let v3 : Vec4 F := ![-0.5,  0.5, -0.5, 1.0]
  let v4 : Vec4 F := ![ 0.5, -0.5,  0.5, 1.0]
  let v5 : Vec4 F := ![ 0.5,  0.5,  0.5, 1.0]
  let v6 : Vec4 F := ![ 0.5, -0.5, -0.5, 1.0]
  let v7 : Vec4 F := ![ 0.5,  0.5, -0.5, 1.0]
  -- Translate cube
  let v0 := env.lac_multiply_vec4_mat4 v0 m_block_trns
  let v1 := env.lac_multiply_vec4_mat4 v1 m_block_trns
  let v2 := env.lac_multiply_vec4_mat4 v2 m_block_trns
  let v3 := env.lac_multiply_vec4_mat4 v3 m_block_trns
  let v4 := env.lac_multiply_vec4_mat4 v4 m_block_trns
  let v5 := env.lac_multiply_vec4_mat4 v5 m_block_trns
  let v6 := env.lac_multiply_vec4_mat4 v6 m_block_trns
  let v7 := env.lac_multiply_vec4_mat4 v7 m_block_trns
  { right := [
      v1 0, v1 1, v1 2, uv_sides 0 + uv_pad, uv_sides 1 + uv_pad,
      v7 0, v7 1, v7 2, uv_sides 0 + uw,     uv_sides 1 + vh,
      v3 0, v3 1, v3 2, uv_sides 0 + uv_pad, uv_sides 1 + vh,
      v7 0, v7 1, v7 2, uv_sides 0 + uw,     uv_sides 1 + vh,
      v1 0, v1 1, v1 2, uv_sides 0 + uv_pad, uv_sides 1 + uv_pad,
      v5 0, v5 1, v5 2, uv_sides 0 + uw,     uv_sides 1 + uv_pad ]
    left := [
      v4 0, v4 1, v4 2, uv_sides 0 + uv_pad, uv_sides 1 + uv_pad,
      v2 0, v2 1, v2 2, uv_sides 0 + uw,     uv_sides 1 + vh,
      v6 0, v6 1, v6 2, uv_sides 0 + uv_pad, uv_sides 1 + vh,
      v2 0, v2 1, v2 2, uv_sides 0 + uw,     uv_sides 1 + vh,
      v4 0, v4 1, v4 2, uv_sides 0 + uv_pad, uv_sides 1 + uv_pad,
      v0 0, v0 1, v0 2, uv_sides 0 + uw,     uv_sides 1 + uv_pad ]
    front := [
      v0 0, v0 1, v0 2, uv_sides 0 + uv_pad, uv_sides 1 + uv_pad,
      v3 0, v3 1, v3 2, uv_sides 0 + uw,     uv_sides 1 + vh,
      v2 0, v2 1, v2 2, uv_sides 0 + uv_pad, uv_sides 1 + vh,
      v3 0, v3 1, v3 2, uv_sides 0 + uw,     uv_sides 1 + vh,
      v0 0, v0 1, v0 2, uv_sides 0 + uv_pad, uv_sides 1 + uv_pad,
      v1 0, v1 1, v1 2, uv_sides 0 + uw,     uv_sides 1 + uv_pad ]
    back := [
      v5 0, v5 1, v5 2, uv_sides 0 + uv_pad, uv_sides 1 + uv_pad,
      v6 0, v6 1, v6 2, uv_sides 0 + uw,     uv_sides 1 + vh,
      v7 0, v7 1, v7 2, uv_sides 0 + uv_pad, uv_sides 1 + vh,
      v6 0, v6 1, v6 2, uv_sides 0 + uw,     uv_sides 1 + vh,
      v5 0, v5 1, v5 2, uv_sides 0 + uv_pad, uv_sides 1 + uv_pad,
      v4 0, v4 1, v4 2, uv_sides 0 + uw,     uv_sides 1 + uv_pad ]
    bottom := [
      v2 0, v2 1, v2 2, uv_bottom 0 + uv_pad, uv_bottom 1 + vh,
      v3 0, v3 1, v3 2, uv_bottom 0 + uw,     uv_bottom 1 + vh,
      v6 0, v6 1, v6 2, uv_bottom 0 + uv_pad, uv_bottom 1 + uv_pad,
      v7 0, v7 1, v7 2, uv_bottom 0 + uw,     uv_bottom 1 + uv_pad,
      v6 0, v6 1, v6 2, uv_bottom 0 + uv_pad, uv_bottom 1 + uv_pad,
      v3 0, v3 1, v3 2, uv_bottom 0 + uw,     uv_bottom 1 + vh ]
    top := [
      v4 0, v4 1, v4 2, uv_top 0 + uv_pad, uv_top 1 + uv_pad,
      v1 0, v1 1, v1 2, uv_top 0 + uw,     uv_top 1 + vh,
      v0 0, v0 1, v0 2, uv_top 0 + uv_pad, uv_top 1 + vh,
      v1 0, v1 1, v1 2, uv_top 0 + uw,     uv_top 1 + vh,
      v4 0, v4 1, v4 2, uv_top 0 + uv_pad, uv_top 1 + uv_pad,
      v5 0, v5 1, v5 2, uv_top 0 + uw,     uv_top 1 + uv_pad ] }

/-- The lambda `add_face`: push the 30 floats of a face onto `vertices`. -/
def add_face (vertices : List F) (f : List F) : List F := vertices ++ f

/-- The local vector `vertices` of `make_block` after the six `IS_BIT_SET` tests
(taken on the path past the early return). -/
def make_block_vertices (env : BlockEnv F M) (type : BlockType) (m_block_trns : M)
    (sides : Nat) : List F :=
  let f := make_block_faces env type m_block_trns
  let vertices : List F := []
  let vertices := if IS_BIT_SET sides RIGHT then add_face vertices f.right else vertices
  let vertices := if IS_BIT_SET sides LEFT then add_face vertices f.left else vertices
  let vertices := if IS_BIT_SET sides BACK then add_face vertices f.back else vertices
  let vertices := if IS_BIT_SET sides FRONT then add_face vertices f.front else vertices
  let vertices := if IS_BIT_SET sides BOTTOM then add_face vertices f.bottom else vertices
  let vertices := if IS_BIT_SET sides TOP then add_face vertices f.top else vertices
  vertices

/-- The function `BlockFactory::make_block`, threading the OpenGL state: the early
return for an empty mask or `AIR`, otherwise the vertex array is built, its size is
stored in `block.mesh.vertices`, and it is uploaded (`sizeof(float)` is 4). -/
def make_block (env : BlockEnv F M) (type : BlockType) (m_block_trns : M) (sides : Nat)
    (gl : GlState F) : Block F × GlState F :=
  if sides = 0 ∨ type = BlockType.AIR then
    (Block.ofType BlockType.AIR, gl)
  else
    let block : Block F := Block.ofType type
    let vertices := make_block_vertices env type m_block_trns sides
    let block := { block with mesh := { block.mesh with vertices := vertices.length } }
    -- Create vertex attribute array and vertex buffer object
    let (vao, gl) := glGenVertexArrays gl
    let block := { block with mesh := { block.mesh with vao := vao } }
    let (vbo, gl) := glGenBuffers gl
    let block := { block with mesh := { block.mesh with vbo := vbo } }
    let gl := glCall gl (GlCall.bindVertexArray block.mesh.vao)
    let gl := glCall gl (GlCall.bindBuffer block.mesh.vbo)
    let gl := glCall gl (GlCall.bufferData (4 * vertices.length) vertices)
    -- Position attribute
    let gl := glCall gl (GlCall.vertexAttribPointer 0 3 (5 * 4) 0)
    let gl := glCall gl (GlCall.enableVertexAttribArray 0)
    -- Texture attribute
    let gl := glCall gl (GlCall.vertexAttribPointer 1 2 (5 * 4) (3 * 4))
    let gl := glCall gl (GlCall.enableVertexAttribArray 1)
    -- Unbind VAO and VBO
    let gl := glCall gl (GlCall.bindBuffer 0)
    let gl := glCall gl (GlCall.bindVertexArray 0)
    (block, gl)

/-- Floats appended to `vertices` by the six `IS_BIT_SET` tests of `make_block`,
counted face by face (30 floats per face whose bit is set). -/
def faceFloats (sides : Nat) : Nat :=
  (if IS_BIT_SET sides RIGHT then 30 else 0) + (if IS_BIT_SET sides LEFT then 30 else 0)
  + (if IS_BIT_SET sides BACK then 30 else 0) + (if IS_BIT_SET sides FRONT then 30 else 0)
  + (if IS_BIT_SET sides BOTTOM then 30 else 0) + (if IS_BIT_SET sides TOP then 30 else 0)

/-! ## float arithmetic on whole numbers -/

/-- The spacing of the `float` values around a whole number `a` above `2 ^ 24`: the least
power of two `u`, starting from `u` and doubling at most `fuel` times, with
`a < 2 ^ 24 * u`. -/
def float32_ulp (a : Nat) : Nat → Nat → Nat
  | 0, u => u
  | fuel + 1, u => if a < 2 ^ 24 * u then u else float32_ulp a fuel (2 * u)

/-- The `float` (IEEE 754 binary32, 24-bit significand) nearest to the whole number `v`,
ties going to the even significand: the value of a `float` operation whose exact
result is `v`.  Whole numbers up to `2 ^ 24` in magnitude are `float` values
themselves.  (Past the largest finite `float`, about `3.4e38`, the operation gives an
infinity; that range is not modelled.) -/
def float32_round (v : Int) : Int :=
  if v.natAbs ≤ 2 ^ 24 then v
  else
    let u := float32_ulp v.natAbs 104 1
    let q := v.natAbs / u
    let r := v.natAbs % u
    let q := if 2 * r < u ∨ (2 * r = u ∧ q % 2 = 0) then q else q + 1
    v.sign * ((q * u : Nat) : Int)

/-- The `float` expression `-location[0] * chunk_size + x` of the `octave_perlin` call
(chunk_factory.cpp, line 65): `location` is a `vec3` of `float`, here with whole
values; `chunk_size` and `x` are `ssize_t` and are converted to `float`; the product
and the sum are each rounded to `float`. -/
def sample_x (chunk_size : Int) (location : Int × Int × Int) (x : Int) : Int :=
  float32_round (float32_round (-location.1 * float32_round chunk_size) + float32_round x)

/-- The `float` expression `location[1] * chunk_size + y` (lines 66 and 143). -/
def world_y (chunk_size : Int) (location : Int × Int × Int) (y : Int) : Int :=
  float32_round (float32_round (location.2.1 * float32_round chunk_size) + float32_round y)

/-- The `float` expression `-(location[0] * chunk_size) + x` of the block position
(line 142). -/
def block_x (chunk_size : Int) (location : Int × Int × Int) (x : Int) : Int :=
  float32_round (-(float32_round (location.1 * float32_round chunk_size)) + float32_round x)

/-- The `float` expression `(location[2] * chunk_size) + z` (line 144). -/
def world_z (chunk_size : Int) (location : Int × Int × Int) (z : Int) : Int :=
  float32_round (float32_round (location.2.2 * float32_round chunk_size) + float32_round z)

/-! ## chunk_factory.cpp -/

/-- How a run of `make_chunk` can go wrong: the `assert` fails, or a vector is
indexed outside its extent. -/
inductive Fault where
  | assertion
  | outOfBounds
  deriving DecidableEq

/-- The local `struct BlockData { uint8_t faces; BlockType type; }`. -/
structure BlockData where
  faces : Nat
  type : BlockType
  deriving DecidableEq

/-- A value-initialised `BlockData`, as `std::vector<BlockData>(chunk_size)` creates
it: zero mask, first enumerator. -/
def BlockData.init : BlockData := { faces := 0, type := BlockType.AIR }

/-- What `make_chunk` takes from outside chunk_factory.cpp, on top of what
`make_block` needs: `game.chunk_size`; the height sampler
`game.pn.octave_perlin(x, y, 0.8f, 1, 0.05f, 0, 15)` as a function of its first two
arguments (the others are constants at the only call site), evaluated on the
whole-number `float` world coordinates; and `transform_at`, where `transform_at x y z` stands for
the transform `make_block` receives when the call site passes the position
`vec3{x, y, z}` (the spec's "translation-only transform placing the block at world
position"; `make_block` declares `mat4 m_block_trns`, and block_factory.hpp, which
reconciles the two, is not part of the sources). -/
structure ChunkEnv (F M : Type) extends BlockEnv F M where
  chunk_size : Int
  octave_perlin : Int → Int → Int
  transform_at : Int → Int → Int → M

/-- The variables of one call of `make_chunk`: the fault recorded so far, the
arguments of the `octave_perlin` calls made so far (oldest first), the OpenGL state,
the locals `heights` (indexed `[y][x]`) and `tmp_data` (indexed `[z][y][x]`), and the
chunk under construction (`location`, `faces`, `blocks[z][y][x]`, where `none` is a
slot no block was assigned to). -/
structure ChunkState (F : Type) where
  fault : Option Fault
  samples : List (Int × Int)
  gl : GlState F
  heights : Int → Int → Int
  tmp_data : Int → Int → Int → BlockData
  location : Int × Int × Int
  faces : Nat
  blocks : Int → Int → Int → Option (Block F)

/-- Record an out-of-range index, unless a fault is already recorded. -/
def ChunkState.fail {F : Type} (s : ChunkState F) : ChunkState F :=
  { s with fault := some (s.fault.getD Fault.outOfBounds) }

/-- An index `i` lies in a vector of `n` elements. -/
def in_extent (n i : Int) : Prop := 0 ≤ i ∧ i < n

instance (n i : Int) : Decidable (in_extent n i) := by
  unfold in_extent; infer_instance

/-- Reading `heights[y][x]`, a `(chunk_size + 2)` by `(chunk_size + 2)` grid: the
index check.  The value read is `s.heights y x`. -/
def ChunkState.check_height {F : Type} (n : Int) (s : ChunkState F) (y x : Int) :
    ChunkState F :=
  if in_extent (n + 2) y ∧ in_extent (n + 2) x then s else s.fail

/-- The assignment `heights[y][x] = v`. -/
def ChunkState.store_height {F : Type} (n : Int) (s : ChunkState F) (y x v : Int) :
    ChunkState F :=
  if in_extent (n + 2) y ∧ in_extent (n + 2) x then
    { s with heights := fun y1 x1 => if y1 = y ∧ x1 = x then v else s.heights y1 x1 }
  else s.fail

/-- Reading `tmp_data[z][y][x]`, a cube of side `chunk_size`: the index check.  The
value read is `s.tmp_data z y x`. -/
def ChunkState.check_tmp {F : Type} (n : Int) (s : ChunkState F) (z y x : Int) :
    ChunkState F :=
  if in_extent n z ∧ in_extent n y ∧ in_extent n x then s else s.fail

/-- An update `tmp_data[z][y][x].field = ...` or `tmp_data[z][y][x].faces |= ...`,
given as a function of the old element. -/
def ChunkState.modify_tmp {F : Type} (n : Int) (s : ChunkState F) (z y x : Int)
    (f : BlockData → BlockData) : ChunkState F :=
  if in_extent n z ∧ in_extent n y ∧ in_extent n x then
    { s with tmp_data := fun z1 y1 x1 =>
        if z1 = z ∧ y1 = y ∧ x1 = x then f (s.tmp_data z y x) else s.tmp_data z1 y1 x1 }
  else s.fail

/-- The loop `for (i = start; ...; ++i) body`, run for `count` iterations. -/
def loopFrom {σ : Type} (body : Int → σ → σ) : Int → Nat → σ → σ
  | _, 0, s => s
  | i, k + 1, s => loopFrom body (i + 1) k (body i s)

/-- The loop `for (ssize_t i = lo; i < hi; ++i) body`. -/
def forLoop {σ : Type} (lo hi : Int) (body : Int → σ → σ) (s : σ) : σ :=
  loopFrom body lo (hi - lo).toNat s

/-- Body of the sampling loops (source lines 64-68): one call of `octave_perlin` at
the world coordinates of padded column `(x, y)`, narrowed to `uint8_t` and stored in
`heights[y + 1][x + 1]`. -/
def sample_column {F M : Type} (env : ChunkEnv F M) (location : Int × Int × Int)
    (y x : Int) (s : ChunkState F) : ChunkState F :=
  let chunk_size := env.chunk_size
  let wx := sample_x chunk_size location x
  let wy := world_y chunk_size location y
  let s := { s with samples := s.samples ++ [(wx, wy)] }
  s.store_height chunk_size (y + 1) (x + 1) (env.octave_perlin wx wy % 256)

/-- The sampling loops (source lines 60-70). -/
def sample_heights {F M : Type} (env : ChunkEnv F M) (location : Int × Int × Int)
    (s : ChunkState F) : ChunkState F :=
  let chunk_size := env.chunk_size
  forLoop (-1) (chunk_size + 1) (fun y s =>
    forLoop (-1) (chunk_size + 1) (fun x s => sample_column env location y x s) s) s

/-- Body of the terrain loops (source lines 76-124) for padded column `(x, y)`. -/
def fill_column {F : Type} (chunk_size : Int) (y x : Int) (s : ChunkState F) :
    ChunkState F :=
  let s := s.check_height chunk_size y x
  let z := s.heights y x
  let s := s.modify_tmp chunk_size z (y - 1) (x - 1) (fun b => { b with faces := 0 })
  -- Determine block types
  let s := forLoop 0 chunk_size (fun i s =>
    if i > z then
      s.modify_tmp chunk_size i (y - 1) (x - 1) (fun b => { b with type := BlockType.AIR })
    else
      s.modify_tmp chunk_size i (y - 1) (x - 1) (fun b => { b with type := BlockType.GRASS })) s
  -- Bottom
  let s := s.modify_tmp chunk_size 0 (y - 1) (x - 1)
    (fun b => { b with faces := SET_BIT b.faces BOTTOM })
  -- Top
  let s := s.check_height chunk_size y x
  let s := if z = s.heights y x then
      s.modify_tmp chunk_size z (y - 1) (x - 1) (fun b => { b with faces := SET_BIT b.faces TOP })
    else s
  -- Front
  let s := s.check_height chunk_size y (x - 1)
  let s := if z > s.heights y (x - 1) then
      s.modify_tmp chunk_size z (y - 1) (x - 1) (fun b => { b with faces := SET_BIT b.faces FRONT })
    else s
  -- Back
  let s := s.check_height chunk_size y (x + 1)
  let s := if z > s.heights y (x + 1) then
      s.modify_tmp chunk_size z (y - 1) (x - 1) (fun b => { b with faces := SET_BIT b.faces BACK })
    else s
  -- Left
  let s := s.check_height chunk_size (y - 1) x
  let s := if z > s.heights (y - 1) x then
      s.modify_tmp chunk_size z (y - 1) (x - 1) (fun b => { b with faces := SET_BIT b.faces LEFT })
    else s
  -- Right
  let s := s.check_height chunk_size (y + 1) x
  let s := if z > s.heights (y + 1) x then
      s.modify_tmp chunk_size z (y - 1) (x - 1) (fun b => { b with faces := SET_BIT b.faces RIGHT })
    else s
  s

/-- The terrain loops (source lines 72-126). -/
def fill_tmp_data {F : Type} (chunk_size : Int) (s : ChunkState F) : ChunkState F :=
  forLoop 1 (chunk_size + 1) (fun y s =>
    forLoop 1 (chunk_size + 1) (fun x s => fill_column chunk_size y x s) s) s

/-- Body of the block loops (source lines 139-147): `make_block` on the cell's type,
its world position and its mask, the result assigned to `chunk->blocks[z][y][x]`
(the `resize` calls just before make that slot exist). -/
def build_block (env : ChunkEnv F M) (location : Int × Int × Int) (z y x : Int)
    (s : ChunkState F) : ChunkState F :=
  let chunk_size := env.chunk_size
  let s := s.check_tmp chunk_size z y x
  let r := make_block env.toBlockEnv (s.tmp_data z y x).type
    (env.transform_at (block_x chunk_size location x) (world_y chunk_size location y)
      (world_z chunk_size location z))
    (s.tmp_data z y x).faces s.gl
  { s with
    gl := r.2
    blocks := fun z1 y1 x1 => if z1 = z ∧ y1 = y ∧ x1 = x then some r.1 else s.blocks z1 y1 x1 }

/-- The block loops (source lines 130-150). -/
def build_blocks (env : ChunkEnv F M) (location : Int × Int × Int) (s : ChunkState F) :
    ChunkState F :=
  let chunk_size := env.chunk_size
  forLoop 0 chunk_size (fun z s =>
    forLoop 0 chunk_size (fun y s =>
      forLoop 0 chunk_size (fun x s => build_block env location z y x s) s) s) s

/-- The function `ChunkFactory::make_chunk`, run from OpenGL state `gl`; the result is
the state when it returns, or, with `fault = some Fault.assertion`, when the
`assert` stops it.  The stores to `chunk->location` and `chunk->faces`, which follow
the `assert` and touch nothing else, are folded into the initial state.  The final
`chunk->flatten_block_data()` (chunk.cpp, not part of the sources) is not included. -/
def make_chunk (env : ChunkEnv F M) (location : Int × Int × Int) (faces : Nat)
    (gl : GlState F) : ChunkState F :=
  let chunk_size := env.chunk_size
  let s : ChunkState F :=
    { fault := none, samples := [], gl := gl,
      heights := fun _ _ => 0, tmp_data := fun _ _ _ => BlockData.init,
      location := location, faces := faces, blocks := fun _ _ _ => none }
  if ¬ (chunk_size > 1) then { s with fault := some Fault.assertion }
  else
    let s := sample_heights env location s
    let s := fill_tmp_data chunk_size s
    let s := build_blocks env location s
    s

/-- Vertices (five floats each) of the block in slot `[z][y][x]`, by
`mesh.vertices`. -/
def block_vertex_count {F : Type} (b : Option (Block F)) : Nat :=
  match b with
  | some b => b.mesh.vertices / 5
  | none => 0

/-- Total number of vertices over all blocks of a chunk of side `chunk_size`. -/
def chunk_vertex_count {F : Type} (chunk_size : Int) (s : ChunkState F) : Nat :=
  Finset.sum (Finset.range chunk_size.toNat) (fun z =>
    Finset.sum (Finset.range chunk_size.toNat) (fun y =>
      Finset.sum (Finset.range chunk_size.toNat) (fun x =>
        block_vertex_count (s.blocks z y x))))

end Scalar

/-! ## Closed forms used in the proofs -/

/-- Closed form of the mask the terrain loops leave on the surface cell of padded
column `(x, y)` of height grid `h`, when that cell started from mask 0. -/
def surface_faces (h : Int → Int → Int) (y x : Int) : Nat :=
  let z := h y x
  let f := if z = 0 then SET_BIT 0 BOTTOM else 0
  let f := SET_BIT f TOP
  let f := if z > h y (x - 1) then SET_BIT f FRONT else f
  let f := if z > h y (x + 1) then SET_BIT f BACK else f
  let f := if z > h (y - 1) x then SET_BIT f LEFT else f
  let f := if z > h (y + 1) x then SET_BIT f RIGHT else f
  f

/-- Closed form of cell `i` of padded column `(x, y)` after the terrain loops. -/
def column_cell (h : Int → Int → Int) (y x i : Int) : BlockData :=
  { faces := if i = h y x then surface_faces h y x else if i = 0 then SET_BIT 0 BOTTOM else 0,
    type := if i > h y x then BlockType.AIR else BlockType.GRASS }

/-- Closed form of `tmp_data` once the terrain loops have passed the padded columns
before `(x, y)`. -/
def filled_upto (n : Int) (h : Int → Int → Int) (y x : Int) : Int → Int → Int → BlockData :=
  fun i yy xx =>
    if in_extent n i ∧ in_extent n yy ∧ in_extent n xx ∧ (yy + 1 < y ∨ (yy + 1 = y ∧ xx + 1 < x)) then
      column_cell h (yy + 1) (xx + 1) i
    else BlockData.init

/-- Closed form of `tmp_data` after the terrain loops. -/
def filled_tmp_data (n : Int) (h : Int → Int → Int) : Int → Int → Int → BlockData :=
  fun i yy xx =>
    if in_extent n i ∧ in_extent n yy ∧ in_extent n xx then column_cell h (yy + 1) (xx + 1) i
    else BlockData.init

/-- Replace column `(yy, xx)` of `tmp_data` by `c`. -/
def ChunkState.put_column {F : Type} (s : ChunkState F) (yy xx : Int) (c : Int → BlockData) :
    ChunkState F :=
  { s with
    tmp_data := fun i y1 x1 => if y1 = yy ∧ x1 = xx then c i else s.tmp_data i y1 x1 }

/-- Closed form of `heights` after the sampling loops have passed padded column
`(x, y)` exclusive, starting from grid `h0`. -/
def sampled_upto {F M : Type} (env : ChunkEnv F M) (location : Int × Int × Int)
    (h0 : Int → Int → Int) (y x : Int) : Int → Int → Int :=
  fun k j =>
    if in_extent (env.chunk_size + 2) k ∧ in_extent (env.chunk_size + 2) j ∧
        (k < y + 1 ∨ (k = y + 1 ∧ j < x + 1)) then
      env.octave_perlin (sample_x env.chunk_size location (j - 1))
        (world_y env.chunk_size location (k - 1)) % 256
    else h0 k j

/-- Closed form of `heights` after the sampling loops. -/
def sampled_heights {F M : Type} (env : ChunkEnv F M) (location : Int × Int × Int) :
    Int → Int → Int :=
  fun k j =>
    if in_extent (env.chunk_size + 2) k ∧ in_extent (env.chunk_size + 2) j then
      env.octave_perlin (sample_x env.chunk_size location (j - 1))
        (world_y env.chunk_size location (k - 1)) % 256
    else 0

section

variable {F M : Type} [Add F] [Sub F] [Neg F] [Div F] [OfScientific F] [NatCast F]

/-- Cell `(z1, y1, x1)` comes before `(z, y, x)` in the order of the block loops. -/
def lex_before (n z y x z1 y1 x1 : Int) : Prop :=
  in_extent n z1 ∧ in_extent n y1 ∧ in_extent n x1 ∧
    (z1 < z ∨ (z1 = z ∧ (y1 < y ∨ (y1 = y ∧ x1 < x))))

/-- State `t` of the block loops started in `s`, once the cells before `(z, y, x)` are
done: only `gl` and `blocks` differ from `s`, and the slot of every cell done holds
the block `make_block` returns for the cell's type, world position and mask. -/
def blocks_built (env : ChunkEnv F M) (location : Int × Int × Int) (s : ChunkState F)
    (z y x : Int) (t : ChunkState F) : Prop :=
  ∃ (g : GlState F) (B : Int → Int → Int → Option (Block F)),
    t = { s with gl := g, blocks := B } ∧
    ∀ z1 y1 x1, lex_before env.chunk_size z y x z1 y1 x1 →
      ∃ g1 : GlState F, B z1 y1 x1 = some (make_block env.toBlockEnv (s.tmp_data z1 y1 x1).type
        (env.transform_at (block_x env.chunk_size location x1)
          (world_y env.chunk_size location y1) (world_z env.chunk_size location z1))
        (s.tmp_data z1 y1 x1).faces g1).1

end

/-! ## A concrete environment -/

/-- An environment over the rationals: a 16-tile atlas, transforms that are
translations by an integer vector, and a given chunk size and height sampler. -/
def exampleEnv (n : Int) (pn : Int → Int → Int) : ChunkEnv ℚ (Int × Int × Int) :=
  { ATLAS_TEX_SIZE := 16
    lac_multiply_vec4_mat4 := fun v t => ![v 0 + t.1, v 1 + t.2.1, v 2 + t.2.2, v 3]
    chunk_size := n
    octave_perlin := pn
    transform_at := fun x y z => (x, y, z) }

/-- An OpenGL state in which nothing has been generated or called. -/
def gl0 : GlState ℚ := { vaos := 0, vbos := 0, calls := [] }

/-- A height sampler with one raised column: height 1 at world `x = 0`, else 0. -/
def stepNoise : Int → Int → Int := fun wx _ => if wx = 0 then 1 else 0

/-- A height sampler that changes from column to column and from row to row, with
values in `[0, 3)`. -/
def ridgeNoise : Int → Int → Int := fun wx wy => (wx + 2 * wy) % 3

/-- The run of `make_chunk` on a 2-chunk at the origin over `stepNoise`. -/
def stepRun : ChunkState ℚ := make_chunk (exampleEnv 2 stepNoise) (0, 0, 0) 0 gl0

/-- The run of `make_chunk` on a chunk of side `n` at the origin over the flat height
field `h`. -/
def flatRun (n h : Int) : ChunkState ℚ := make_chunk (exampleEnv n (fun _ _ => h)) (0, 0, 0) 0 gl0

/-! ## The face arrays as a table -/

/-- The six face arrays of `make_block`, by name. -/
inductive FaceId where
  | right | left | front | back | bottom | top
  deriving DecidableEq

/-- The `BlockFace` bit that `make_block` tests before it adds a face array. -/
def FaceId.bit : FaceId → Nat
  | FaceId.right => RIGHT
  | FaceId.left => LEFT
  | FaceId.front => FRONT
  | FaceId.back => BACK
  | FaceId.bottom => BOTTOM
  | FaceId.top => TOP

/-- The shift count of a face bit in `enum BlockFace`: `RIGHT = (1 << 0)`, ...,
`TOP = (1 << 5)`. -/
def FaceId.shift : FaceId → Nat
  | FaceId.right => 0
  | FaceId.left => 1
  | FaceId.back => 2
  | FaceId.front => 3
  | FaceId.bottom => 4
  | FaceId.top => 5

/-- The face arrays in the order in which `make_block` tests their bits. -/
def FaceId.emitted : List FaceId :=
  [FaceId.right, FaceId.left, FaceId.back, FaceId.front, FaceId.bottom, FaceId.top]

/-- The face array of a given name. -/
def Faces.get {F : Type} (f : Faces F) : FaceId → List F
  | FaceId.right => f.right
  | FaceId.left => f.left
  | FaceId.front => f.front
  | FaceId.back => f.back
  | FaceId.bottom => f.bottom
  | FaceId.top => f.top

/-- The three groups of UV origins `get_uv_coords` returns. -/
inductive UvGroup where
  | top | sides | bottom
  deriving DecidableEq

/-- The UV origin each face array uses: `uv_top`, `uv_bottom`, or `uv_sides`. -/
def FaceId.group : FaceId → UvGroup
  | FaceId.top => UvGroup.top
  | FaceId.bottom => UvGroup.bottom
  | _ => UvGroup.sides

/-- Index `i` of the corner `v_i` used by vertex `k` (0 to 5) of each face array, as
written in the source. -/
def face_corner : FaceId → Fin 6 → Fin 8
  | FaceId.right => ![1, 7, 3, 7, 1, 5]
  | FaceId.left => ![4, 2, 6, 2, 4, 0]
  | FaceId.front => ![0, 3, 2, 3, 0, 1]
  | FaceId.back => ![5, 6, 7, 6, 5, 4]
  | FaceId.bottom => ![2, 3, 6, 7, 6, 3]
  | FaceId.top => ![4, 1, 0, 1, 4, 5]

/-- For vertex `k` of each face array, whether its `u` is the far edge (`+ uw`, `true`)
or the near edge (`+ uv_pad`, `false`), and likewise for `v` (`+ vh` or `+ uv_pad`), as
written in the source. -/
def face_uv_far : FaceId → Fin 6 → Bool × Bool
  | FaceId.bottom =>
    ![(false, true), (true, true), (false, false), (true, false), (false, false), (true, true)]
  | _ =>
    ![(false, false), (true, true), (false, true), (true, true), (false, false), (true, false)]

section Table

variable {F M : Type} [Add F] [Sub F] [Neg F] [Div F] [OfScientific F] [NatCast F]

/-- The corners `v0 .. v7` of the unit cube as `make_block` declares them, before the
transform is applied. -/
def cube_corner : Fin 8 → Vec4 F :=
  ![![-0.5, -0.5,  0.5, 1.0],
    ![-0.5,  0.5,  0.5, 1.0],
    ![-0.5, -0.5, -0.5, 1.0],
    ![-0.5,  0.5, -0.5, 1.0],
    ![ 0.5, -0.5,  0.5, 1.0],
    ![ 0.5,  0.5,  0.5, 1.0],
    ![ 0.5, -0.5, -0.5, 1.0],
    ![ 0.5,  0.5, -0.5, 1.0]]

/-- The origin of a group in a triple (top, sides, bottom). -/
def uv_origin (uv : UvCoords F × UvCoords F × UvCoords F) : UvGroup → UvCoords F
  | UvGroup.top => uv.1
  | UvGroup.sides => uv.2.1
  | UvGroup.bottom => uv.2.2

/-- The UV origins `make_block` works with: those of `get_uv_coords`, or three
value-initialised `UvCoords{}` when there is no mapping (`value_or`). -/
def block_uv (env : BlockEnv F M) (type : BlockType) :
    UvCoords F × UvCoords F × UvCoords F :=
  (get_uv_coords env type).getD (UvCoords.zero, UvCoords.zero, UvCoords.zero)

/-- The five floats of vertex `k` of face array `f`, built from the tables: the
transformed corner `face_corner f k` and the UV origin of the group of `f` moved to
the near or the far edge of the tile. -/
def vertex_layout (env : BlockEnv F M) (uv : UvCoords F × UvCoords F × UvCoords F)
    (m_block_trns : M) (f : FaceId) (k : Fin 6) : List F :=
  let uv_pad : F := 0.005
  let uw : F := (1.0 / (env.ATLAS_TEX_SIZE : F)) - uv_pad
  let vh : F := (1.0 / (env.ATLAS_TEX_SIZE : F)) - uv_pad
  let p := env.lac_multiply_vec4_mat4 (cube_corner (face_corner f k)) m_block_trns
  let o := uv_origin uv f.group
  [p 0, p 1, p 2,
   o 0 + (if (face_uv_far f k).1 then uw else uv_pad),
   o 1 + (if (face_uv_far f k).2 then vh else uv_pad)]

/-- A face array built from the tables with given UV origins: six vertices of five
floats. -/
def face_layout (env : BlockEnv F M) (uv : UvCoords F × UvCoords F × UvCoords F)
    (m_block_trns : M) (f : FaceId) : List F :=
  vertex_layout env uv m_block_trns f 0 ++ vertex_layout env uv m_block_trns f 1 ++
  vertex_layout env uv m_block_trns f 2 ++ vertex_layout env uv m_block_trns f 3 ++
  vertex_layout env uv m_block_trns f 4 ++ vertex_layout env uv m_block_trns f 5

/-- The vertex array built from the tables with given UV origins: the face arrays whose
bit is set in `sides`, in the order of the `IS_BIT_SET` tests. -/
def vertices_layout (env : BlockEnv F M) (uv : UvCoords F × UvCoords F × UvCoords F)
    (m_block_trns : M) (sides : Nat) : List F :=
  FaceId.emitted.flatMap (fun f =>
    if IS_BIT_SET sides f.bit then face_layout env uv m_block_trns f else [])

/-- Position (x, y, z) of vertex `k` of a face array: floats `5k`, `5k + 1`, `5k + 2`. -/
def vertex_pos (face : List F) (k : Nat) : Option (F × F × F) :=
  match face[5 * k]?, face[5 * k + 1]?, face[5 * k + 2]? with
  | some x, some y, some z => some (x, y, z)
  | _, _, _ => none

/-- Texture coordinates (u, v) of vertex `k` of a face array: floats `5k + 3`, `5k + 4`. -/
def vertex_uv (face : List F) (k : Nat) : Option (F × F) :=
  match face[5 * k + 3]?, face[5 * k + 4]? with
  | some u, some v => some (u, v)
  | _, _ => none

end Table

/-! ## Geometry over the rationals -/

/-- A point or vector of space. -/
abbrev Vec3Q := ℚ × ℚ × ℚ

/-- The difference `a - b`. -/
def vsub (a b : Vec3Q) : Vec3Q := (a.1 - b.1, a.2.1 - b.2.1, a.2.2 - b.2.2)

/-- The cross product `a x b`. -/
def cross (a b : Vec3Q) : Vec3Q :=
  (a.2.1 * b.2.2 - a.2.2 * b.2.1, a.2.2 * b.1 - a.1 * b.2.2, a.1 * b.2.1 - a.2.1 * b.1)

/-- The dot product. -/
def dot (a b : Vec3Q) : ℚ := a.1 * b.1 + a.2.1 * b.2.1 + a.2.2 * b.2.2

/-- The normal `(b - a) x (c - a)` of the triangle `a`, `b`, `c`. -/
def triangle_normal (a b c : Vec3Q) : Vec3Q := cross (vsub b a) (vsub c a)

/-- The unit axis direction each face looks along: right `+y`, left `-y`, front `-x`,
back `+x`, bottom `-z`, top `+z`. -/
def outward_normal : FaceId → Vec3Q
  | FaceId.right => (0, 1, 0)
  | FaceId.left => (0, -1, 0)
  | FaceId.front => (-1, 0, 0)
  | FaceId.back => (1, 0, 0)
  | FaceId.bottom => (0, 0, -1)
  | FaceId.top => (0, 0, 1)

/-- Corner `i` of the unit cube moved by the translation `t`. -/
def cube_point (t : Vec3Q) (i : Fin 8) : Vec3Q :=
  ((cube_corner i : Vec4 ℚ) 0 + t.1, (cube_corner i : Vec4 ℚ) 1 + t.2.1,
   (cube_corner i : Vec4 ℚ) 2 + t.2.2)

/-- Corners `i` and `j` of the unit cube are the two ends of an edge: they differ in
exactly one of their three coordinates. -/
def cube_edge (i j : Fin 8) : Prop :=
  ((cube_corner i : Vec4 ℚ) 0 ≠ (cube_corner j : Vec4 ℚ) 0 ∧
    (cube_corner i : Vec4 ℚ) 1 = (cube_corner j : Vec4 ℚ) 1 ∧
    (cube_corner i : Vec4 ℚ) 2 = (cube_corner j : Vec4 ℚ) 2) ∨
  ((cube_corner i : Vec4 ℚ) 0 = (cube_corner j : Vec4 ℚ) 0 ∧
    (cube_corner i : Vec4 ℚ) 1 ≠ (cube_corner j : Vec4 ℚ) 1 ∧
    (cube_corner i : Vec4 ℚ) 2 = (cube_corner j : Vec4 ℚ) 2) ∨
  ((cube_corner i : Vec4 ℚ) 0 = (cube_corner j : Vec4 ℚ) 0 ∧
    (cube_corner i : Vec4 ℚ) 1 = (cube_corner j : Vec4 ℚ) 1 ∧
    (cube_corner i : Vec4 ℚ) 2 ≠ (cube_corner j : Vec4 ℚ) 2)

/-- The position `make_block` gives corner `i`: the first three components of the
transformed `v_i`. -/
def corner_pos {F M : Type} [Neg F] [OfScientific F] (env : BlockEnv F M) (m_block_trns : M)
    (i : Fin 8) : F × F × F :=
  ((env.lac_multiply_vec4_mat4 (cube_corner i) m_block_trns) 0,
   (env.lac_multiply_vec4_mat4 (cube_corner i) m_block_trns) 1,
   (env.lac_multiply_vec4_mat4 (cube_corner i) m_block_trns) 2)

/-! ## The neighbour columns of make_chunk -/

/-- The neighbour column `make_chunk` compares against to decide a side face, as the
offset `(dx, dy)` from the column itself in the padded grid: `heights[y][x - 1]` for
FRONT, `heights[y][x + 1]` for BACK, `heights[y - 1][x]` for LEFT, `heights[y + 1][x]`
for RIGHT (no neighbour is compared for TOP and BOTTOM). -/
def neighbour_offset : FaceId → Int × Int
  | FaceId.front => (-1, 0)
  | FaceId.back => (1, 0)
  | FaceId.left => (0, -1)
  | FaceId.right => (0, 1)
  | FaceId.bottom => (0, 0)
  | FaceId.top => (0, 0)


/-! ## window.cpp: isExtensionSupported -/

/-- The C library's `strchr(s, c)` for `c` other than the terminator: the offset of the
first `c` in `s`, or `none` for the null pointer.  A C string is the list of its
characters before the terminating NUL. -/
def strchr : List Char → Char → Option Nat
  | [], _ => none
  | x :: s, c => if x = c then some 0 else (strchr s c).map (· + 1)

/-- The C library's `strlen`. -/
def strlen (s : List Char) : Nat := s.length

/-- The C library's `strstr(haystack, needle)`: the offset of the first place where
`needle` occurs in `haystack`, or `none` for the null pointer.  An empty `needle`
occurs at offset 0. -/
def strstr : List Char → List Char → Option Nat
  | [], needle => if needle = [] then some 0 else none
  | c :: haystack, needle =>
    if (c :: haystack).take (strlen needle) = needle then some 0
    else (strstr haystack needle).map (· + 1)

/-- The `for (start = extList;;)` loop of `isExtensionSupported`, run for at most `fuel`
iterations.  The pointers `start`, `where` and `terminator` are offsets into `extList`;
reading `extList` at its length reads the terminating NUL, which `extList[i]?` gives as
`none`.  The result is `some true` for `return true`, `some false` for the `break`
followed by `return false`, and `none` when `fuel` iterations did not finish the loop. -/
def search (extList extension : List Char) : Nat → Nat → Option Bool
  | 0, _ => none
  | fuel + 1, start =>
    match strstr (extList.drop start) extension with
    | none => some false
    | some off =>
      let wh := start + off
      let terminator := wh + strlen extension
      if (wh = start ∨ extList[wh - 1]? = some ' ') ∧
          (extList[terminator]? = some ' ' ∨ extList[terminator]? = none) then
        some true
      else
        search extList extension fuel terminator

/-- The function `isExtensionSupported(extList, extension)` of `window.cpp`, with the loop
bounded by `fuel` iterations. -/
def isExtensionSupported (fuel : Nat) (extList extension : List Char) : Option Bool :=
  if (strchr extension ' ').isSome ∨ extension[0]? = none then
    some false
  else
    search extList extension fuel 0

/-- Helper of `tokens`: put a character in front of the first token. -/
def push_char (c : Char) : List (List Char) → List (List Char)
  | [] => [[c]]
  | t :: ts => (c :: t) :: ts

/-- The space-separated tokens of a string, in the words of the claim about
`isExtensionSupported`: the pieces between the spaces (two spaces in a row, or a space
at either end, give an empty piece). -/
def tokens : List Char → List (List Char)
  | [] => [[]]
  | c :: s => if c = ' ' then [] :: tokens s else push_char c (tokens s)

/-- The string `extension` stands in `extList` at offset `p`. -/
def occurs_at (extList extension : List Char) (p : Nat) : Prop :=
  (extList.drop p).take extension.length = extension

instance (extList extension : List Char) (p : Nat) : Decidable (occurs_at extList extension p) :=
  inferInstanceAs (Decidable (_ = _))

/-- The string `extension` stands in `extList` at offset `p` as a whole token: it begins
the string or follows a space, and it ends the string or is followed by a space. -/
def token_at (extList extension : List Char) (p : Nat) : Prop :=
  occurs_at extList extension p ∧
  (p = 0 ∨ extList[p - 1]? = some ' ') ∧
  (extList[p + extension.length]? = some ' ' ∨ extList[p + extension.length]? = none)

instance (extList extension : List Char) (p : Nat) : Decidable (token_at extList extension p) :=
  inferInstanceAs (Decidable (_ ∧ _ ∧ _))

/-- The extension name the one caller of `isExtensionSupported` passes (`window.cpp`,
line 237). -/
def create_context_name : List Char := "GLX_ARB_create_context".toList

/-! ## Loops and state updates -/

section

variable {F M : Type}

theorem loopFrom_inv {σ : Type} (body : Int → σ → σ) (P : Int → σ → Prop) :
    ∀ (k : Nat) (i : Int) (s : σ), P i s →
      (∀ j t, i ≤ j → j < i + k → P j t → P (j + 1) (body j t)) →
      P (i + k) (loopFrom body i k s) := by
  intro k
  induction k with
  | zero => intro i s h0 _; simpa [loopFrom] using h0
  | succ k ih =>
    intro i s h0 hstep
    have h1 : P (i + 1) (body i s) := hstep i s (le_refl _) (by push_cast; omega) h0
    have := ih (i + 1) (body i s) h1 (fun j t hj hlt hp => hstep j t (by omega) (by push_cast; omega) hp)
    have e : i + ((k + 1 : Nat) : Int) = i + 1 + (k : Int) := by push_cast; ring
    rw [e]
    simpa [loopFrom] using this

theorem forLoop_inv {σ : Type} (body : Int → σ → σ) (P : Int → σ → Prop) (lo hi : Int)
    (hle : lo ≤ hi) (s : σ) (h0 : P lo s)
    (hstep : ∀ j t, lo ≤ j → j < hi → P j t → P (j + 1) (body j t)) :
    P hi (forLoop lo hi body s) := by
  have h := loopFrom_inv body P (hi - lo).toNat lo s h0
    (fun j t hj hlt hp => hstep j t hj (by omega) hp)
  have e : lo + (((hi - lo).toNat : Nat) : Int) = hi := by omega
  rw [e] at h
  exact h

theorem modify_tmp_in (n : Int) (s : ChunkState F) (z y x : Int) (f : BlockData → BlockData)
    (hz : in_extent n z) (hy : in_extent n y) (hx : in_extent n x) :
    s.modify_tmp n z y x f = { s with tmp_data := fun z1 y1 x1 =>
        if z1 = z ∧ y1 = y ∧ x1 = x then f (s.tmp_data z y x) else s.tmp_data z1 y1 x1 } := by
  unfold ChunkState.modify_tmp
  rw [if_pos ⟨hz, hy, hx⟩]

theorem check_height_in (n : Int) (s : ChunkState F) (y x : Int)
    (hy : in_extent (n + 2) y) (hx : in_extent (n + 2) x) : s.check_height n y x = s := by
  unfold ChunkState.check_height
  rw [if_pos ⟨hy, hx⟩]

theorem set_tmp_congr (s : ChunkState F) {A B : Int → Int → Int → BlockData} (h : A = B) :
    ({ s with tmp_data := A } : ChunkState F) = { s with tmp_data := B } := by rw [h]

/-- the type loop -/
theorem type_loop (n z yy xx : Int) (hn : 0 ≤ n) (hy : in_extent n yy) (hx : in_extent n xx)
    (s : ChunkState F) :
    forLoop 0 n (fun i s =>
      if i > z then
        s.modify_tmp n i yy xx (fun b => { b with type := BlockType.AIR })
      else
        s.modify_tmp n i yy xx (fun b => { b with type := BlockType.GRASS })) s
    = { s with tmp_data := fun i y1 x1 =>
          if in_extent n i ∧ y1 = yy ∧ x1 = xx then
            { s.tmp_data i y1 x1 with type := if i > z then BlockType.AIR else BlockType.GRASS }
          else s.tmp_data i y1 x1 } := by
  have key := forLoop_inv (fun i (s : ChunkState F) =>
      if i > z then
        s.modify_tmp n i yy xx (fun b => { b with type := BlockType.AIR })
      else
        s.modify_tmp n i yy xx (fun b => { b with type := BlockType.GRASS }))
    (fun j t => t =
      { s with
        tmp_data := fun i y1 x1 =>
          if (0 ≤ i ∧ i < j) ∧ y1 = yy ∧ x1 = xx then
            { s.tmp_data i y1 x1 with type := if i > z then BlockType.AIR else BlockType.GRASS }
          else s.tmp_data i y1 x1 }) 0 n hn s ?_ ?_
  · rw [key]; rfl
  · refine set_tmp_congr s ?_
    funext i y1 x1
    rw [if_neg]
    omega
  · intro j t hj hjn ht
    subst ht
    have hjin : in_extent n j := ⟨hj, hjn⟩
    have hmod : ∀ t : ChunkState F,
        (if j > z then t.modify_tmp n j yy xx (fun b => { b with type := BlockType.AIR })
          else t.modify_tmp n j yy xx (fun b => { b with type := BlockType.GRASS }))
        = t.modify_tmp n j yy xx
            (fun b => { b with type := if j > z then BlockType.AIR else BlockType.GRASS }) := by
      intro t
      by_cases hz : j > z <;> simp [hz]
    beta_reduce
    rw [hmod, modify_tmp_in n _ j yy xx _ hjin hy hx]
    refine set_tmp_congr s ?_
    funext i y1 x1
    by_cases h2 : y1 = yy ∧ x1 = xx
    · obtain ⟨rfl, rfl⟩ := h2
      by_cases h1 : i = j
      · subst h1
        have e1 : ¬ (0 ≤ i ∧ i < i) := by omega
        have e2 : (0 ≤ i ∧ i < i + 1) := by omega
        simp [e1, e2]
      · have e : ((0 ≤ i ∧ i < j + 1) ↔ (0 ≤ i ∧ i < j)) := by omega
        simp [h1, e]
    · have e : ¬ ((0 ≤ i ∧ i < j + 1) ∧ y1 = yy ∧ x1 = xx) := fun h => h2 h.2
      have eb : ¬ ((0 ≤ i ∧ i < j) ∧ y1 = yy ∧ x1 = xx) := fun h => h2 h.2
      have ec : ¬ (i = j ∧ y1 = yy ∧ x1 = xx) := fun h => h2 h.2
      simp [e, eb, ec]

end

section

variable {F M : Type}

theorem put_column_self (s : ChunkState F) (yy xx : Int) :
    s.put_column yy xx (fun i => s.tmp_data i yy xx) = s := by
  unfold ChunkState.put_column
  refine Eq.trans (set_tmp_congr s ?_) rfl
  funext i y1 x1
  by_cases h : y1 = yy ∧ x1 = xx
  · obtain ⟨rfl, rfl⟩ := h; simp
  · simp [h]

theorem put_column_modify (n : Int) (s : ChunkState F) (yy xx i : Int) (c : Int → BlockData)
    (f : BlockData → BlockData) (hi : in_extent n i) (hy : in_extent n yy)
    (hx : in_extent n xx) :
    (s.put_column yy xx c).modify_tmp n i yy xx f
      = s.put_column yy xx (fun j => if j = i then f (c i) else c j) := by
  rw [modify_tmp_in n _ i yy xx f hi hy hx]
  unfold ChunkState.put_column
  refine set_tmp_congr s ?_
  funext j y1 x1
  by_cases h : y1 = yy ∧ x1 = xx
  · obtain ⟨rfl, rfl⟩ := h; simp
  · have hne : ¬ (j = i ∧ y1 = yy ∧ x1 = xx) := fun e => h e.2
    simp [h, hne]

theorem put_column_type_loop (n z yy xx : Int) (hn : 0 ≤ n) (hy : in_extent n yy)
    (hx : in_extent n xx) (s : ChunkState F) (c : Int → BlockData) :
    forLoop 0 n (fun i s =>
      if i > z then
        s.modify_tmp n i yy xx (fun b => { b with type := BlockType.AIR })
      else
        s.modify_tmp n i yy xx (fun b => { b with type := BlockType.GRASS }))
      (s.put_column yy xx c)
    = s.put_column yy xx (fun i =>
        if in_extent n i then
          { c i with type := if i > z then BlockType.AIR else BlockType.GRASS }
        else c i) := by
  rw [type_loop n z yy xx hn hy hx]
  unfold ChunkState.put_column
  refine set_tmp_congr s ?_
  funext j y1 x1
  by_cases h : y1 = yy ∧ x1 = xx
  · obtain ⟨rfl, rfl⟩ := h
    by_cases hj : in_extent n j <;> simp [hj]
  · have hne : ¬ (in_extent n j ∧ y1 = yy ∧ x1 = xx) := fun e => h e.2
    simp [h, hne]

theorem put_column_cond_modify (n : Int) (s : ChunkState F) (yy xx i : Int)
    (c : Int → BlockData) (f : BlockData → BlockData) (p : Prop) [Decidable p]
    (hi : in_extent n i) (hy : in_extent n yy) (hx : in_extent n xx) :
    (if p then (s.put_column yy xx c).modify_tmp n i yy xx f else s.put_column yy xx c)
      = s.put_column yy xx (fun j => if j = i then (if p then f (c i) else c i) else c j) := by
  by_cases hp : p
  · simp only [hp, if_true]
    exact put_column_modify n s yy xx i c f hi hy hx
  · simp only [hp, if_false]
    congr 1
    funext j
    by_cases hj : j = i
    · subst hj; simp
    · simp [hj]

theorem fill_column_eq (n y x : Int) (s : ChunkState F) (hy : 1 ≤ y ∧ y ≤ n) (hx : 1 ≤ x ∧ x ≤ n)
    (hz : 0 ≤ s.heights y x ∧ s.heights y x < n)
    (hcol : ∀ i, s.tmp_data i (y - 1) (x - 1) = BlockData.init) :
    fill_column n y x s =
      s.put_column (y - 1) (x - 1) (fun i =>
        if in_extent n i then column_cell s.heights y x i else BlockData.init) := by
  have hn : 0 ≤ n := by omega
  have iy : in_extent n (y - 1) := ⟨by omega, by omega⟩
  have ix : in_extent n (x - 1) := ⟨by omega, by omega⟩
  have iz : in_extent n (s.heights y x) := hz
  have i0 : in_extent n 0 := ⟨le_refl _, by omega⟩
  have c1 : ∀ t : ChunkState F, t.check_height n y x = t :=
    fun t => check_height_in n t y x ⟨by omega, by omega⟩ ⟨by omega, by omega⟩
  have c2 : ∀ t : ChunkState F, t.check_height n y (x - 1) = t :=
    fun t => check_height_in n t y (x - 1) ⟨by omega, by omega⟩ ⟨by omega, by omega⟩
  have c3 : ∀ t : ChunkState F, t.check_height n y (x + 1) = t :=
    fun t => check_height_in n t y (x + 1) ⟨by omega, by omega⟩ ⟨by omega, by omega⟩
  have c4 : ∀ t : ChunkState F, t.check_height n (y - 1) x = t :=
    fun t => check_height_in n t (y - 1) x ⟨by omega, by omega⟩ ⟨by omega, by omega⟩
  have c5 : ∀ t : ChunkState F, t.check_height n (y + 1) x = t :=
    fun t => check_height_in n t (y + 1) x ⟨by omega, by omega⟩ ⟨by omega, by omega⟩
  have hs : s = s.put_column (y - 1) (x - 1) (fun _ => BlockData.init) := by
    conv_lhs => rw [← put_column_self s (y - 1) (x - 1)]
    simp only [hcol]
  have hh : ∀ c, (s.put_column (y - 1) (x - 1) c).heights = s.heights := fun _ => rfl
  unfold fill_column
  lift_lets
  intro s1 z s2 s3 s4 s5 s6 s7 s8 s9 s10 s11 s12 s13 s14
  obtain ⟨k1, hk1, e1⟩ : ∃ k : Int → BlockData, (∀ j, k j = BlockData.init) ∧
      s1 = s.put_column (y - 1) (x - 1) k :=
    ⟨_, fun _ => rfl, (c1 s).trans hs⟩
  clear_value s1
  subst e1
  have ez : z = s.heights y x := rfl
  clear_value z
  subst ez
  obtain ⟨k2, hk2, e2⟩ : ∃ k : Int → BlockData,
      (∀ j, k j = if j = s.heights y x then { k1 (s.heights y x) with faces := 0 } else k1 j) ∧
      s2 = s.put_column (y - 1) (x - 1) k :=
    ⟨_, fun _ => rfl, put_column_modify n s _ _ _ _ _ iz iy ix⟩
  clear_value s2
  subst e2
  obtain ⟨k3, hk3, e3⟩ : ∃ k : Int → BlockData,
      (∀ j, k j = if in_extent n j then
          { k2 j with type := if j > s.heights y x then BlockType.AIR else BlockType.GRASS }
        else k2 j) ∧
      s3 = s.put_column (y - 1) (x - 1) k :=
    ⟨_, fun _ => rfl, put_column_type_loop n _ _ _ hn iy ix s k2⟩
  clear_value s3
  subst e3
  obtain ⟨k4, hk4, e4⟩ : ∃ k : Int → BlockData,
      (∀ j, k j = if j = 0 then { k3 0 with faces := SET_BIT (k3 0).faces BOTTOM } else k3 j) ∧
      s4 = s.put_column (y - 1) (x - 1) k :=
    ⟨_, fun _ => rfl, put_column_modify n s _ _ _ _ _ i0 iy ix⟩
  clear_value s4
  subst e4
  have e5 : s5 = s.put_column (y - 1) (x - 1) k4 := c1 _
  clear_value s5
  subst e5
  obtain ⟨k6, hk6, e6⟩ : ∃ k : Int → BlockData,
      (∀ j, k j = if j = s.heights y x then
          { k4 (s.heights y x) with faces := SET_BIT (k4 (s.heights y x)).faces TOP }
        else k4 j) ∧
      s6 = s.put_column (y - 1) (x - 1) k := by
    refine ⟨_, fun _ => rfl, ?_⟩
    rw [show s6 = if s.heights y x = (s.put_column (y - 1) (x - 1) k4).heights y x then _ else _
      from rfl, hh, if_pos rfl]
    exact put_column_modify n s _ _ _ _ _ iz iy ix
  clear_value s6
  subst e6
  have e7 : s7 = s.put_column (y - 1) (x - 1) k6 := c2 _
  clear_value s7
  subst e7
  obtain ⟨k8, hk8, e8⟩ : ∃ k : Int → BlockData,
      (∀ j, k j = if j = s.heights y x then
          (if s.heights y x > s.heights y (x - 1) then
            { k6 (s.heights y x) with faces := SET_BIT (k6 (s.heights y x)).faces FRONT }
           else k6 (s.heights y x))
        else k6 j) ∧
      s8 = s.put_column (y - 1) (x - 1) k :=
    ⟨_, fun _ => rfl, put_column_cond_modify n s _ _ _ _ _ _ iz iy ix⟩
  clear_value s8
  subst e8
  have e9 : s9 = s.put_column (y - 1) (x - 1) k8 := c3 _
  clear_value s9
  subst e9
  obtain ⟨k10, hk10, e10⟩ : ∃ k : Int → BlockData,
      (∀ j, k j = if j = s.heights y x then
          (if s.heights y x > s.heights y (x + 1) then
            { k8 (s.heights y x) with faces := SET_BIT (k8 (s.heights y x)).faces BACK }
           else k8 (s.heights y x))
        else k8 j) ∧
      s10 = s.put_column (y - 1) (x - 1) k :=
    ⟨_, fun _ => rfl, put_column_cond_modify n s _ _ _ _ _ _ iz iy ix⟩
  clear_value s10
  subst e10
  have e11 : s11 = s.put_column (y - 1) (x - 1) k10 := c4 _
  clear_value s11
  subst e11
  obtain ⟨k12, hk12, e12⟩ : ∃ k : Int → BlockData,
      (∀ j, k j = if j = s.heights y x then
          (if s.heights y x > s.heights (y - 1) x then
            { k10 (s.heights y x) with faces := SET_BIT (k10 (s.heights y x)).faces LEFT }
           else k10 (s.heights y x))
        else k10 j) ∧
      s12 = s.put_column (y - 1) (x - 1) k :=
    ⟨_, fun _ => rfl, put_column_cond_modify n s _ _ _ _ _ _ iz iy ix⟩
  clear_value s12
  subst e12
  have e13 : s13 = s.put_column (y - 1) (x - 1) k12 := c5 _
  clear_value s13
  subst e13
  obtain ⟨k14, hk14, e14⟩ : ∃ k : Int → BlockData,
      (∀ j, k j = if j = s.heights y x then
          (if s.heights y x > s.heights (y + 1) x then
            { k12 (s.heights y x) with faces := SET_BIT (k12 (s.heights y x)).faces RIGHT }
           else k12 (s.heights y x))
        else k12 j) ∧
      s14 = s.put_column (y - 1) (x - 1) k :=
    ⟨_, fun _ => rfl, put_column_cond_modify n s _ _ _ _ _ _ iz iy ix⟩
  clear_value s14
  subst e14
  congr 1
  funext j
  by_cases hj : in_extent n j
  · by_cases hjz : j = s.heights y x
    · subst hjz
      by_cases h0 : s.heights y x = 0
      · simp only [hk14, hk12, hk10, hk8, hk6, hk4, hk3, hk2, hk1, column_cell, surface_faces,
          if_pos hj, if_pos iz, if_pos i0, if_pos h0, if_true, h0]
        split_ifs <;> rfl
      · have h0s : ¬ (0 = s.heights y x) := fun e => h0 e.symm
        simp only [hk14, hk12, hk10, hk8, hk6, hk4, hk3, hk2, hk1, column_cell, surface_faces,
          if_pos hj, if_pos iz, if_pos i0, if_neg h0, if_neg h0s, if_true]
        split_ifs <;> rfl
    · by_cases h0 : j = 0
      · subst h0
        simp only [hk14, hk12, hk10, hk8, hk6, hk4, hk3, hk2, hk1, column_cell,
          if_pos i0, if_neg hjz, if_true]
        have : ¬ (0 > s.heights y x) := by omega
        simp only [if_neg this, BlockData.init]
      · simp only [hk14, hk12, hk10, hk8, hk6, hk4, hk3, hk2, hk1, column_cell,
          if_pos hj, if_neg hjz, if_neg h0]
        have hgt : j > s.heights y x ∨ ¬ (j > s.heights y x) := by omega
        rcases hgt with hgt | hgt
        · simp only [if_pos hgt, BlockData.init]
        · simp only [if_neg hgt, BlockData.init]
  · have hjz : j ≠ s.heights y x := fun e => hj (e ▸ iz)
    have hj0 : j ≠ 0 := fun e => hj (e ▸ i0)
    simp only [hk14, hk12, hk10, hk8, hk6, hk4, hk3, hk2, hk1, if_neg hj, if_neg hjz, if_neg hj0]

end

section

variable {F M : Type}

theorem filled_upto_step (n : Int) (h : Int → Int → Int) (y x : Int)
    (hy : 1 ≤ y ∧ y ≤ n) (hx : 1 ≤ x ∧ x ≤ n) (i y1 x1 : Int) :
    (if y1 = y - 1 ∧ x1 = x - 1 then
        (if in_extent n i then column_cell h y x i else BlockData.init)
      else filled_upto n h y x i y1 x1) = filled_upto n h y (x + 1) i y1 x1 := by
  unfold filled_upto in_extent
  by_cases hc : y1 = y - 1 ∧ x1 = x - 1
  · obtain ⟨rfl, rfl⟩ := hc
    by_cases hi : 0 ≤ i ∧ i < n
    · have e : (0 ≤ i ∧ i < n) ∧ (0 ≤ y - 1 ∧ y - 1 < n) ∧ (0 ≤ x - 1 ∧ x - 1 < n) ∧
          (y - 1 + 1 < y ∨ y - 1 + 1 = y ∧ x - 1 + 1 < x + 1) := by omega
      rw [if_pos ⟨rfl, rfl⟩, if_pos hi, if_pos e]
      simp
    · have e : ¬ ((0 ≤ i ∧ i < n) ∧ (0 ≤ y - 1 ∧ y - 1 < n) ∧ (0 ≤ x - 1 ∧ x - 1 < n) ∧
          (y - 1 + 1 < y ∨ y - 1 + 1 = y ∧ x - 1 + 1 < x + 1)) := fun e => hi e.1
      rw [if_pos ⟨rfl, rfl⟩, if_neg hi, if_neg e]
  · rw [if_neg hc]
    have e : ((0 ≤ i ∧ i < n) ∧ (0 ≤ y1 ∧ y1 < n) ∧ (0 ≤ x1 ∧ x1 < n) ∧
          (y1 + 1 < y ∨ y1 + 1 = y ∧ x1 + 1 < x)) ↔
        ((0 ≤ i ∧ i < n) ∧ (0 ≤ y1 ∧ y1 < n) ∧ (0 ≤ x1 ∧ x1 < n) ∧
          (y1 + 1 < y ∨ y1 + 1 = y ∧ x1 + 1 < x + 1)) := by
      have : ¬ (y1 + 1 = y ∧ x1 + 1 = x) := fun e => hc ⟨by omega, by omega⟩
      omega
    simp only [e]

theorem filled_upto_row (n : Int) (h : Int → Int → Int) (y : Int) :
    filled_upto n h y (n + 1) = filled_upto n h (y + 1) 1 := by
  funext i y1 x1
  unfold filled_upto in_extent
  have e : ((0 ≤ i ∧ i < n) ∧ (0 ≤ y1 ∧ y1 < n) ∧ (0 ≤ x1 ∧ x1 < n) ∧
        (y1 + 1 < y ∨ y1 + 1 = y ∧ x1 + 1 < n + 1)) ↔
      ((0 ≤ i ∧ i < n) ∧ (0 ≤ y1 ∧ y1 < n) ∧ (0 ≤ x1 ∧ x1 < n) ∧
        (y1 + 1 < y + 1 ∨ y1 + 1 = y + 1 ∧ x1 + 1 < 1)) := by omega
  simp only [e]

theorem filled_upto_first (n : Int) (h : Int → Int → Int) :
    filled_upto n h 1 1 = fun _ _ _ => BlockData.init := by
  funext i y1 x1
  unfold filled_upto in_extent
  rw [if_neg]
  omega

theorem filled_upto_last (n : Int) (h : Int → Int → Int) :
    filled_upto n h (n + 1) 1 = filled_tmp_data n h := by
  funext i y1 x1
  unfold filled_upto filled_tmp_data in_extent
  have e : ((0 ≤ i ∧ i < n) ∧ (0 ≤ y1 ∧ y1 < n) ∧ (0 ≤ x1 ∧ x1 < n) ∧
        (y1 + 1 < n + 1 ∨ y1 + 1 = n + 1 ∧ x1 + 1 < 1)) ↔
      ((0 ≤ i ∧ i < n) ∧ (0 ≤ y1 ∧ y1 < n) ∧ (0 ≤ x1 ∧ x1 < n)) := by omega
  simp only [e]

theorem fill_tmp_data_eq (n : Int) (s : ChunkState F) (hn : 0 ≤ n)
    (hh : ∀ y x, 1 ≤ y ∧ y ≤ n → 1 ≤ x ∧ x ≤ n → 0 ≤ s.heights y x ∧ s.heights y x < n)
    (h0 : s.tmp_data = fun _ _ _ => BlockData.init) :
    fill_tmp_data n s = { s with tmp_data := filled_tmp_data n s.heights } := by
  unfold fill_tmp_data
  have outer := forLoop_inv
    (fun y (t : ChunkState F) => forLoop 1 (n + 1) (fun x t => fill_column n y x t) t)
    (fun y t => t = { s with tmp_data := filled_upto n s.heights y 1 }) 1 (n + 1) (by omega) s
    ?_ ?_
  · rw [outer, filled_upto_last]
  · beta_reduce
    rw [filled_upto_first, ← h0]
  · intro y t hy1 hy2 ht
    subst ht
    have inner := forLoop_inv (fun x (t : ChunkState F) => fill_column n y x t)
      (fun x t => t = { s with tmp_data := filled_upto n s.heights y x }) 1 (n + 1) (by omega)
      { s with tmp_data := filled_upto n s.heights y 1 } rfl ?_
    · beta_reduce
      rw [inner, filled_upto_row]
    · intro x t hx1 hx2 ht
      subst ht
      beta_reduce
      rw [fill_column_eq n y x { s with tmp_data := filled_upto n s.heights y x }
        ⟨hy1, by omega⟩ ⟨hx1, by omega⟩ (hh y x ⟨hy1, by omega⟩ ⟨hx1, by omega⟩) ?_]
      · unfold ChunkState.put_column
        refine set_tmp_congr s ?_
        funext i y1 x1
        exact filled_upto_step n s.heights y x ⟨hy1, by omega⟩ ⟨hx1, by omega⟩ i y1 x1
      · intro i
        show filled_upto n s.heights y x i (y - 1) (x - 1) = BlockData.init
        unfold filled_upto
        rw [if_neg]
        omega

end

section

variable {F M : Type}

theorem store_height_in (n : Int) (s : ChunkState F) (y x v : Int)
    (hy : in_extent (n + 2) y) (hx : in_extent (n + 2) x) :
    s.store_height n y x v =
      { s with heights := fun y1 x1 => if y1 = y ∧ x1 = x then v else s.heights y1 x1 } := by
  unfold ChunkState.store_height
  rw [if_pos ⟨hy, hx⟩]

theorem set_sh_congr (s : ChunkState F) {l l1 : List (Int × Int)} {A B : Int → Int → Int}
    (hl : l = l1) (h : A = B) :
    ({ s with samples := l, heights := A } : ChunkState F)
      = { s with samples := l1, heights := B } := by rw [h, hl]

theorem sampled_upto_step (env : ChunkEnv F M) (loc : Int × Int × Int) (h0 : Int → Int → Int)
    (y x : Int) (hy : -1 ≤ y ∧ y < env.chunk_size + 1) (hx : -1 ≤ x ∧ x < env.chunk_size + 1) :
    (fun y1 x1 => if y1 = y + 1 ∧ x1 = x + 1 then
        env.octave_perlin (sample_x env.chunk_size loc x) (world_y env.chunk_size loc y) % 256
      else sampled_upto env loc h0 y x y1 x1) = sampled_upto env loc h0 y (x + 1) := by
  funext k j
  unfold sampled_upto in_extent
  by_cases hc : k = y + 1 ∧ j = x + 1
  · obtain ⟨rfl, rfl⟩ := hc
    have e : (0 ≤ y + 1 ∧ y + 1 < env.chunk_size + 2) ∧ (0 ≤ x + 1 ∧ x + 1 < env.chunk_size + 2) ∧
        (y + 1 < y + 1 ∨ y + 1 = y + 1 ∧ x + 1 < x + 1 + 1) := by omega
    rw [if_pos ⟨rfl, rfl⟩, if_pos e]
    simp
  · rw [if_neg hc]
    have e : ((0 ≤ k ∧ k < env.chunk_size + 2) ∧ (0 ≤ j ∧ j < env.chunk_size + 2) ∧
          (k < y + 1 ∨ k = y + 1 ∧ j < x + 1)) ↔
        ((0 ≤ k ∧ k < env.chunk_size + 2) ∧ (0 ≤ j ∧ j < env.chunk_size + 2) ∧
          (k < y + 1 ∨ k = y + 1 ∧ j < x + 1 + 1)) := by
      have : ¬ (k = y + 1 ∧ j = x + 1) := hc
      omega
    simp only [e]

theorem sampled_upto_row (env : ChunkEnv F M) (loc : Int × Int × Int) (h0 : Int → Int → Int)
    (y : Int) :
    sampled_upto env loc h0 y (env.chunk_size + 1) = sampled_upto env loc h0 (y + 1) (-1) := by
  funext k j
  unfold sampled_upto in_extent
  have e : ((0 ≤ k ∧ k < env.chunk_size + 2) ∧ (0 ≤ j ∧ j < env.chunk_size + 2) ∧
        (k < y + 1 ∨ k = y + 1 ∧ j < env.chunk_size + 1 + 1)) ↔
      ((0 ≤ k ∧ k < env.chunk_size + 2) ∧ (0 ≤ j ∧ j < env.chunk_size + 2) ∧
        (k < y + 1 + 1 ∨ k = y + 1 + 1 ∧ j < -1 + 1)) := by omega
  simp only [e]

theorem sampled_upto_first (env : ChunkEnv F M) (loc : Int × Int × Int) (h0 : Int → Int → Int) :
    sampled_upto env loc h0 (-1) (-1) = h0 := by
  funext k j
  unfold sampled_upto in_extent
  rw [if_neg]
  omega

theorem sampled_upto_last (env : ChunkEnv F M) (loc : Int × Int × Int) :
    sampled_upto env loc (fun _ _ => 0) (env.chunk_size + 1) (-1) = sampled_heights env loc := by
  funext k j
  unfold sampled_upto sampled_heights in_extent
  have e : ((0 ≤ k ∧ k < env.chunk_size + 2) ∧ (0 ≤ j ∧ j < env.chunk_size + 2) ∧
        (k < env.chunk_size + 1 + 1 ∨ k = env.chunk_size + 1 + 1 ∧ j < -1 + 1)) ↔
      ((0 ≤ k ∧ k < env.chunk_size + 2) ∧ (0 ≤ j ∧ j < env.chunk_size + 2)) := by omega
  simp only [e]

theorem sample_heights_eq (env : ChunkEnv F M) (loc : Int × Int × Int) (s : ChunkState F)
    (hn : -2 ≤ env.chunk_size) :
    ∃ l, sample_heights env loc s =
      { s with samples := l,
               heights := sampled_upto env loc s.heights (env.chunk_size + 1) (-1) } := by
  unfold sample_heights
  lift_lets
  intro n
  have outer := forLoop_inv
    (fun y (t : ChunkState F) =>
      forLoop (-1) (n + 1) (fun x t => sample_column env loc y x t) t)
    (fun y t => ∃ l, t = { s with samples := l, heights := sampled_upto env loc s.heights y (-1) })
    (-1) (n + 1) (by omega) s ?_ ?_
  · exact outer
  · exact ⟨s.samples, by rw [sampled_upto_first]⟩
  · intro y t hy1 hy2 ht
    obtain ⟨l, rfl⟩ := ht
    have inner := forLoop_inv (fun x (t : ChunkState F) => sample_column env loc y x t)
      (fun x t => ∃ l, t = { s with samples := l, heights := sampled_upto env loc s.heights y x })
      (-1) (n + 1) (by omega)
      { s with samples := l, heights := sampled_upto env loc s.heights y (-1) } ⟨l, rfl⟩ ?_
    · obtain ⟨l1, h1⟩ := inner
      refine ⟨l1, ?_⟩
      beta_reduce
      rw [h1, sampled_upto_row]
    · intro x t hx1 hx2 ht
      obtain ⟨l1, rfl⟩ := ht
      refine ⟨l1 ++ [(sample_x env.chunk_size loc x, world_y env.chunk_size loc y)], ?_⟩
      beta_reduce
      unfold sample_column
      lift_lets
      intro cs wx wy t1
      rw [store_height_in cs t1 (y + 1) (x + 1) _ ⟨by omega, by omega⟩ ⟨by omega, by omega⟩]
      refine set_sh_congr s rfl ?_
      exact sampled_upto_step env loc s.heights y x ⟨hy1, hy2⟩ ⟨hx1, hx2⟩

end

section

theorem check_tmp_in {F : Type} (n : Int) (s : ChunkState F) (z y x : Int)
    (hz : in_extent n z) (hy : in_extent n y) (hx : in_extent n x) : s.check_tmp n z y x = s := by
  unfold ChunkState.check_tmp
  rw [if_pos ⟨hz, hy, hx⟩]

variable {F M : Type} [Add F] [Sub F] [Neg F] [Div F] [OfScientific F] [NatCast F]

theorem blocks_built_mono (env : ChunkEnv F M) (loc : Int × Int × Int) (s t : ChunkState F)
    (z y x z2 y2 x2 : Int)
    (h : ∀ z1 y1 x1, lex_before env.chunk_size z2 y2 x2 z1 y1 x1 →
      lex_before env.chunk_size z y x z1 y1 x1)
    (hb : blocks_built env loc s z y x t) : blocks_built env loc s z2 y2 x2 t := by
  obtain ⟨g, B, e, hB⟩ := hb
  exact ⟨g, B, e, fun z1 y1 x1 hl => hB z1 y1 x1 (h z1 y1 x1 hl)⟩

theorem build_block_step (env : ChunkEnv F M) (loc : Int × Int × Int) (s t : ChunkState F)
    (z y x : Int) (hz : in_extent env.chunk_size z) (hy : in_extent env.chunk_size y)
    (hx : in_extent env.chunk_size x) (hb : blocks_built env loc s z y x t) :
    blocks_built env loc s z y (x + 1) (build_block env loc z y x t) := by
  obtain ⟨g, B, rfl, hB⟩ := hb
  unfold build_block
  lift_lets
  intro n t1 r
  have e1 : t1 = { s with gl := g, blocks := B } := check_tmp_in n _ z y x hz hy hx
  clear_value t1
  subst e1
  refine ⟨r.2, _, rfl, ?_⟩
  intro z1 y1 x1 hl
  by_cases hc : z1 = z ∧ y1 = y ∧ x1 = x
  · obtain ⟨rfl, rfl, rfl⟩ := hc
    exact ⟨g, by simp [r]⟩
  · obtain ⟨g1, hg1⟩ := hB z1 y1 x1 (by
      unfold lex_before in_extent at *
      omega)
    exact ⟨g1, by simp only [if_neg hc]; exact hg1⟩

theorem build_blocks_spec (env : ChunkEnv F M) (loc : Int × Int × Int) (s : ChunkState F)
    (hn : 0 ≤ env.chunk_size) :
    blocks_built env loc s env.chunk_size 0 0 (build_blocks env loc s) := by
  unfold build_blocks
  lift_lets
  intro n
  refine forLoop_inv _ (fun z t => blocks_built env loc s z 0 0 t) 0 n hn s ?_ ?_
  · exact ⟨s.gl, s.blocks, rfl, fun z1 y1 x1 hl => by
      unfold lex_before in_extent at hl; omega⟩
  · intro z t hz1 hz2 ht
    refine blocks_built_mono env loc s _ z n 0 _ _ _ ?_ ?_
    · intro z1 y1 x1 hl
      unfold lex_before in_extent at *
      omega
    · refine forLoop_inv _ (fun y t => blocks_built env loc s z y 0 t) 0 n hn t ht ?_
      intro y t hy1 hy2 ht
      refine blocks_built_mono env loc s _ z y n _ _ _ ?_ ?_
      · intro z1 y1 x1 hl
        unfold lex_before in_extent at *
        omega
      · refine forLoop_inv _ (fun x t => blocks_built env loc s z y x t) 0 n hn t ht ?_
        intro x t hx1 hx2 ht
        exact build_block_step env loc s t z y x ⟨hz1, hz2⟩ ⟨hy1, hy2⟩ ⟨hx1, hx2⟩ ht

end

section

variable {F M : Type}

theorem loopFrom_preserves {σ : Type} (Q : σ → Prop) (body : Int → σ → σ)
    (hbody : ∀ i t, Q t → Q (body i t)) : ∀ (k : Nat) (i : Int) (s : σ), Q s →
      Q (loopFrom body i k s) := by
  intro k
  induction k with
  | zero => intro i s h; exact h
  | succ k ih => intro i s h; exact ih (i + 1) (body i s) (hbody i s h)

theorem forLoop_preserves {σ : Type} (Q : σ → Prop) (body : Int → σ → σ) (lo hi : Int)
    (hbody : ∀ i t, Q t → Q (body i t)) (s : σ) (h : Q s) : Q (forLoop lo hi body s) :=
  loopFrom_preserves Q body hbody _ lo s h

/-- A property of the state that no step of the terrain loops can break. -/
theorem fill_column_preserves (Q : ChunkState F → Prop) (hfail : ∀ s, Q s → Q s.fail)
    (htmp : ∀ (s : ChunkState F) T, Q s → Q { s with tmp_data := T })
    (n y x : Int) (s : ChunkState F) (h : Q s) : Q (fill_column n y x s) := by
  have hm : ∀ (t : ChunkState F) z y x f, Q t → Q (t.modify_tmp n z y x f) := by
    intro t z y x f ht
    unfold ChunkState.modify_tmp
    split
    · exact htmp t _ ht
    · exact hfail t ht
  have hc : ∀ (t : ChunkState F) y x, Q t → Q (t.check_height n y x) := by
    intro t y x ht
    unfold ChunkState.check_height
    split
    · exact ht
    · exact hfail t ht
  have hi : ∀ (t : ChunkState F) (c : Prop) [Decidable c] z y x f, Q t →
      Q (if c then t.modify_tmp n z y x f else t) := by
    intro t c _ z y x f ht
    split
    · exact hm t z y x f ht
    · exact ht
  unfold fill_column
  lift_lets
  intro s1 z s2 s3 s4 s5 s6 s7 s8 s9 s10 s11 s12 s13 s14
  have q1 : Q s1 := hc s y x h
  have q2 : Q s2 := hm s1 _ _ _ _ q1
  have q3 : Q s3 := forLoop_preserves Q _ 0 n (fun i t ht => by
    split
    · exact hm t _ _ _ _ ht
    · exact hm t _ _ _ _ ht) s2 q2
  have q4 : Q s4 := hm s3 _ _ _ _ q3
  have q5 : Q s5 := hc s4 _ _ q4
  have q6 : Q s6 := hi s5 _ _ _ _ _ q5
  have q7 : Q s7 := hc s6 _ _ q6
  have q8 : Q s8 := hi s7 _ _ _ _ _ q7
  have q9 : Q s9 := hc s8 _ _ q8
  have q10 : Q s10 := hi s9 _ _ _ _ _ q9
  have q11 : Q s11 := hc s10 _ _ q10
  have q12 : Q s12 := hi s11 _ _ _ _ _ q11
  have q13 : Q s13 := hc s12 _ _ q12
  exact hi s13 _ _ _ _ _ q13

theorem fill_tmp_data_preserves (Q : ChunkState F → Prop) (hfail : ∀ s, Q s → Q s.fail)
    (htmp : ∀ (s : ChunkState F) T, Q s → Q { s with tmp_data := T })
    (n : Int) (s : ChunkState F) (h : Q s) : Q (fill_tmp_data n s) := by
  unfold fill_tmp_data
  exact forLoop_preserves Q _ _ _ (fun y t ht =>
    forLoop_preserves Q _ _ _ (fun x t ht => fill_column_preserves Q hfail htmp n y x t ht) t ht)
    s h

end

section

variable {F M : Type}

theorem sampled_heights_nonneg (env : ChunkEnv F M) (loc : Int × Int × Int) (y x : Int) :
    0 ≤ sampled_heights env loc y x := by
  unfold sampled_heights
  split
  · exact Int.emod_nonneg _ (by norm_num)
  · exact le_refl _

theorem sampled_heights_lt (env : ChunkEnv F M) (loc : Int × Int × Int)
    (hb : ∀ a b, 0 ≤ env.octave_perlin a b ∧ env.octave_perlin a b < env.chunk_size)
    (hn : 0 < env.chunk_size) (y x : Int) : sampled_heights env loc y x < env.chunk_size := by
  unfold sampled_heights
  split
  · have h1 := hb (sample_x env.chunk_size loc (x - 1)) (world_y env.chunk_size loc (y - 1))
    omega
  · exact hn

end

section

variable {F M : Type} [Add F] [Sub F] [Neg F] [Div F] [OfScientific F] [NatCast F]

/-- The state `make_chunk` starts its loops from. -/
theorem make_chunk_unfold (env : ChunkEnv F M) (loc : Int × Int × Int) (faces : Nat)
    (gl : GlState F) (hn : 1 < env.chunk_size) :
    make_chunk env loc faces gl =
      build_blocks env loc (fill_tmp_data env.chunk_size (sample_heights env loc
        { fault := none, samples := [], gl := gl,
          heights := fun _ _ => 0, tmp_data := fun _ _ _ => BlockData.init,
          location := loc, faces := faces, blocks := fun _ _ _ => none })) := by
  unfold make_chunk
  simp only [gt_iff_lt, hn, not_true_eq_false, if_false]

theorem make_chunk_heights (env : ChunkEnv F M) (loc : Int × Int × Int) (faces : Nat)
    (gl : GlState F) (hn : 1 < env.chunk_size) :
    (make_chunk env loc faces gl).heights = sampled_heights env loc := by
  rw [make_chunk_unfold env loc faces gl hn]
  obtain ⟨g, B, e, -⟩ := build_blocks_spec env loc (fill_tmp_data env.chunk_size
    (sample_heights env loc
        { fault := none, samples := [], gl := gl,
          heights := fun _ _ => 0, tmp_data := fun _ _ _ => BlockData.init,
          location := loc, faces := faces, blocks := fun _ _ _ => none })) (by omega)
  rw [e]
  show (fill_tmp_data env.chunk_size _).heights = _
  refine fill_tmp_data_preserves (fun t => t.heights = sampled_heights env loc)
    (fun s h => h) (fun s T h => h) _ _ ?_
  obtain ⟨l, e1⟩ := sample_heights_eq env loc
    { fault := none, samples := [], gl := gl,
      heights := fun _ _ => 0, tmp_data := fun _ _ _ => BlockData.init,
      location := loc, faces := faces, blocks := fun _ _ _ => none } (by omega)
  rw [e1]
  exact sampled_upto_last env loc

/-- The whole run when every interior column is below `chunk_size`. -/
theorem make_chunk_ok (env : ChunkEnv F M) (loc : Int × Int × Int) (faces : Nat)
    (gl : GlState F) (hn : 1 < env.chunk_size)
    (hh : ∀ y x, 1 ≤ y ∧ y ≤ env.chunk_size → 1 ≤ x ∧ x ≤ env.chunk_size →
      sampled_heights env loc y x < env.chunk_size) :
    ∃ l, blocks_built env loc
      { fault := none, samples := l, gl := gl,
        heights := sampled_heights env loc,
        tmp_data := filled_tmp_data env.chunk_size (sampled_heights env loc),
        location := loc, faces := faces, blocks := fun _ _ _ => none }
      env.chunk_size 0 0 (make_chunk env loc faces gl) := by
  rw [make_chunk_unfold env loc faces gl hn]
  obtain ⟨l, e1⟩ := sample_heights_eq env loc
    { fault := none, samples := [], gl := gl,
      heights := fun _ _ => 0, tmp_data := fun _ _ _ => BlockData.init,
      location := loc, faces := faces, blocks := fun _ _ _ => none } (by omega)
  refine ⟨l, ?_⟩
  rw [e1, sampled_upto_last env loc, fill_tmp_data_eq env.chunk_size _ (by omega)
    (fun y x hy hx => ⟨sampled_heights_nonneg env loc y x, hh y x hy hx⟩) rfl]
  exact build_blocks_spec env loc _ (by omega)

end

/-! ## Bit masks and vertex counts -/

section Masks

variable {F M : Type} [Add F] [Sub F] [Neg F] [Div F] [OfScientific F] [NatCast F]

theorem IS_BIT_SET_pow (m k : Nat) : IS_BIT_SET m (2 ^ k) = m.testBit k := by
  unfold IS_BIT_SET
  rw [Nat.and_two_pow]
  cases h : m.testBit k <;> simp
  exact (Nat.pos_pow_of_pos k (by norm_num)).ne

theorem popcount_low (m : Nat) :
    popcount (m &&& 63) = (m.testBit 0).toNat + (m.testBit 1).toNat + (m.testBit 2).toNat
      + (m.testBit 3).toNat + (m.testBit 4).toNat + (m.testBit 5).toNat := by
  have hr : List.range 8 = [0, 1, 2, 3, 4, 5, 6, 7] := by decide
  have h63 : ∀ i, Nat.testBit 63 i = decide (i < 6) := by
    intro i
    have : (63 : Nat) = 2 ^ 6 - 1 := by norm_num
    rw [this, Nat.testBit_two_pow_sub_one]
  unfold popcount
  rw [hr]
  simp only [List.filter_cons, List.filter_nil, Nat.testBit_and, h63]
  cases m.testBit 0 <;> cases m.testBit 1 <;> cases m.testBit 2 <;> cases m.testBit 3 <;>
    cases m.testBit 4 <;> cases m.testBit 5 <;> simp

theorem faceFloats_eq (m : Nat) : faceFloats m = 30 * popcount (m &&& 63) := by
  have e0 : RIGHT = 2 ^ 0 := by decide
  have e1 : LEFT = 2 ^ 1 := by decide
  have e2 : BACK = 2 ^ 2 := by decide
  have e3 : FRONT = 2 ^ 3 := by decide
  have e4 : BOTTOM = 2 ^ 4 := by decide
  have e5 : TOP = 2 ^ 5 := by decide
  rw [popcount_low]
  unfold faceFloats
  rw [e0, e1, e2, e3, e4, e5]
  simp only [IS_BIT_SET_pow]
  cases m.testBit 0 <;> cases m.testBit 1 <;> cases m.testBit 2 <;> cases m.testBit 3 <;>
    cases m.testBit 4 <;> cases m.testBit 5 <;> simp

theorem surface_faces_bits (h : Int → Int → Int) (y x : Int) :
    IS_BIT_SET (surface_faces h y x) TOP = true ∧
    (IS_BIT_SET (surface_faces h y x) BOTTOM = true ↔ h y x = 0) ∧
    (IS_BIT_SET (surface_faces h y x) FRONT = true ↔ h y x > h y (x - 1)) ∧
    (IS_BIT_SET (surface_faces h y x) BACK = true ↔ h y x > h y (x + 1)) ∧
    (IS_BIT_SET (surface_faces h y x) LEFT = true ↔ h y x > h (y - 1) x) ∧
    (IS_BIT_SET (surface_faces h y x) RIGHT = true ↔ h y x > h (y + 1) x) := by
  unfold surface_faces
  simp only []
  by_cases c1 : h y x > h y (x - 1) <;>
    by_cases c2 : h y x > h y (x + 1) <;> by_cases c3 : h y x > h (y - 1) x <;>
    by_cases c4 : h y x > h (y + 1) x <;>
    simp only [c1, c2, c3, c4, if_true, if_false, iff_true, iff_false] <;>
    by_cases c0 : h y x = 0 <;>
    simp only [c0, if_true, if_false, iff_true, iff_false, not_true_eq_false,
      not_false_eq_true] <;>
    decide

theorem faces_length (env : BlockEnv F M) (type : BlockType) (t : M) :
    (make_block_faces env type t).right.length = 30 ∧
    (make_block_faces env type t).left.length = 30 ∧
    (make_block_faces env type t).front.length = 30 ∧
    (make_block_faces env type t).back.length = 30 ∧
    (make_block_faces env type t).bottom.length = 30 ∧
    (make_block_faces env type t).top.length = 30 :=
  ⟨rfl, rfl, rfl, rfl, rfl, rfl⟩

theorem make_block_vertices_length (env : BlockEnv F M) (type : BlockType) (t : M) (sides : Nat) :
    (make_block_vertices env type t sides).length = faceFloats sides := by
  obtain ⟨h1, h2, h3, h4, h5, h6⟩ := faces_length env type t
  unfold make_block_vertices faceFloats add_face
  simp only []
  split_ifs <;> simp only [List.length_append, List.length_nil, h1, h2, h3, h4, h5, h6]

/-- The count `make_block` stores in `mesh.vertices`. -/
theorem make_block_mesh_vertices (env : BlockEnv F M) (type : BlockType) (t : M) (sides : Nat)
    (gl : GlState F) :
    (make_block env type t sides gl).1.mesh.vertices =
      if sides = 0 ∨ type = BlockType.AIR then 0 else faceFloats sides := by
  unfold make_block
  split
  · rfl
  · exact make_block_vertices_length env type t sides

theorem make_chunk_tmp (env : ChunkEnv F M) (loc : Int × Int × Int) (faces : Nat)
    (gl : GlState F) (hn : 1 < env.chunk_size)
    (hh : ∀ y x, 1 ≤ y ∧ y ≤ env.chunk_size → 1 ≤ x ∧ x ≤ env.chunk_size →
      (make_chunk env loc faces gl).heights y x < env.chunk_size) :
    (make_chunk env loc faces gl).fault = none ∧
    (make_chunk env loc faces gl).tmp_data =
      filled_tmp_data env.chunk_size (make_chunk env loc faces gl).heights := by
  rw [make_chunk_heights env loc faces gl hn] at hh ⊢
  obtain ⟨l, g, B, e, -⟩ := make_chunk_ok env loc faces gl hn hh
  rw [e]
  exact ⟨rfl, rfl⟩

theorem make_chunk_heights_lt (env : ChunkEnv F M) (loc : Int × Int × Int) (faces : Nat)
    (gl : GlState F) (hn : 1 < env.chunk_size)
    (hb : ∀ a b, 0 ≤ env.octave_perlin a b ∧ env.octave_perlin a b < env.chunk_size) :
    ∀ y x, 1 ≤ y ∧ y ≤ env.chunk_size → 1 ≤ x ∧ x ≤ env.chunk_size →
      (make_chunk env loc faces gl).heights y x < env.chunk_size := by
  intro y x _ _
  rw [make_chunk_heights env loc faces gl hn]
  exact sampled_heights_lt env loc hb (by omega) y x

theorem surface_cell_faces (env : ChunkEnv F M) (location : Int × Int × Int) (faces : Nat)
    (gl : GlState F) (hn : 1 < env.chunk_size)
    (hh : ∀ y x, 1 ≤ y ∧ y ≤ env.chunk_size → 1 ≤ x ∧ x ≤ env.chunk_size →
      (make_chunk env location faces gl).heights y x < env.chunk_size)
    (y x : Int) (hy : 1 ≤ y ∧ y ≤ env.chunk_size) (hx : 1 ≤ x ∧ x ≤ env.chunk_size) :
    ((make_chunk env location faces gl).tmp_data
        ((make_chunk env location faces gl).heights y x) (y - 1) (x - 1)).faces
      = surface_faces (make_chunk env location faces gl).heights y x := by
  obtain ⟨-, ht⟩ := make_chunk_tmp env location faces gl hn hh
  have hz := hh y x hy hx
  have h0 : 0 ≤ (make_chunk env location faces gl).heights y x := by
    rw [make_chunk_heights env location faces gl hn]
    exact sampled_heights_nonneg env location y x
  have hin : in_extent env.chunk_size ((make_chunk env location faces gl).heights y x) ∧
      in_extent env.chunk_size (y - 1) ∧ in_extent env.chunk_size (x - 1) := by
    unfold in_extent; omega
  rw [ht]
  simp only [filled_tmp_data, if_pos hin, column_cell, sub_add_cancel, if_true]

theorem surface_faces_flat (H : Int → Int → Int) (y x h : Int) (e0 : H y x = h)
    (e1 : H y (x - 1) = h) (e2 : H y (x + 1) = h) (e3 : H (y - 1) x = h)
    (e4 : H (y + 1) x = h) :
    surface_faces H y x = if h = 0 then 48 else 32 := by
  unfold surface_faces
  simp only [e0, e1, e2, e3, e4, gt_iff_lt, lt_self_iff_false, if_false]
  split <;> decide

/-- Vertices per cell of a flat column of height `h`. -/
theorem flat_column_sum (N : Nat) (h : Int) (h0 : 0 ≤ h) (hN : h < N) :
    Finset.sum (Finset.range N) (fun z : Nat =>
      if (z : Int) = h then (if h = 0 then 12 else 6) else if (z : Int) = 0 then 6 else 0) = 12 := by
  obtain ⟨k, rfl⟩ := Int.eq_ofNat_of_zero_le h0
  have hk : k < N := by exact_mod_cast hN
  have hmem : k ∈ Finset.range N := Finset.mem_range.mpr hk
  have h0mem : 0 ∈ Finset.range N := Finset.mem_range.mpr (by omega)
  by_cases hk0 : k = 0
  · subst hk0
    have e : ∀ z : Nat, (if (z : Int) = ((0 : Nat) : Int) then
          (if ((0 : Nat) : Int) = 0 then 12 else 6)
        else if (z : Int) = 0 then 6 else 0) = if z = 0 then 12 else 0 := by
      intro z
      by_cases hz : z = 0
      · subst hz; simp
      · have : ¬ ((z : Int) = 0) := by exact_mod_cast hz
        simp [hz, this]
    simp only [e]
    rw [Finset.sum_ite_eq' (Finset.range N) 0 (fun _ => 12), if_pos h0mem]
  · have e : ∀ z : Nat, (if (z : Int) = (k : Int) then (if (k : Int) = 0 then 12 else 6)
        else if (z : Int) = 0 then 6 else 0)
        = (if z = k then 6 else 0) + (if z = 0 then 6 else 0) := by
      intro z
      have hk0c : ¬ ((k : Int) = 0) := by exact_mod_cast hk0
      by_cases hz : z = k
      · subst hz
        simp [hk0, hk0c]
      · have hzc : ¬ ((z : Int) = (k : Int)) := by exact_mod_cast hz
        by_cases hz0 : z = 0
        · subst hz0
          have hz0c : ¬ ((0 : Int) = (k : Int)) := by exact_mod_cast hz
          simp [hz, hz0c]
        · have : ¬ ((z : Int) = 0) := by exact_mod_cast hz0
          simp [hz, hzc, hz0, this]
    simp only [e]
    rw [Finset.sum_add_distrib, Finset.sum_ite_eq' (Finset.range N) k (fun _ => 6),
      Finset.sum_ite_eq' (Finset.range N) 0 (fun _ => 6), if_pos hmem, if_pos h0mem]

theorem ridgeNoise_bounds : ∀ a b : Int, 0 ≤ ridgeNoise a b ∧ ridgeNoise a b < 3 := by
  intro a b
  unfold ridgeNoise
  exact ⟨Int.emod_nonneg _ (by decide), Int.emod_lt_of_pos _ (by decide)⟩

theorem stepNoise_bounds : ∀ a b : Int, 0 ≤ stepNoise a b ∧ stepNoise a b < 2 := by
  intro a b
  unfold stepNoise
  split <;> decide

theorem flat_bounds (n h : Int) (h0 : 0 ≤ h) (hl : h < n) :
    ∀ a b : Int, 0 ≤ (exampleEnv n (fun _ _ => h)).octave_perlin a b ∧
      (exampleEnv n (fun _ _ => h)).octave_perlin a b < (exampleEnv n (fun _ _ => h)).chunk_size :=
  fun _ _ => ⟨h0, hl⟩

theorem flatRun_heights (n h : Int) (hn : 1 < n) (h0 : 0 ≤ h) (h256 : h < 256) :
    ∀ k j, 0 ≤ k ∧ k < n + 2 → 0 ≤ j ∧ j < n + 2 → (flatRun n h).heights k j = h := by
  intro k j hk hj
  unfold flatRun
  rw [make_chunk_heights _ _ _ _ hn]
  unfold sampled_heights
  have ik : in_extent ((exampleEnv n fun _ _ => h).chunk_size + 2) k := hk
  have ij : in_extent ((exampleEnv n fun _ _ => h).chunk_size + 2) j := hj
  rw [if_pos ⟨ik, ij⟩]
  show h % 256 = h
  omega

end Masks

/-! ## The face tables -/

section TableLemmas

variable {F M : Type} [Add F] [Sub F] [Neg F] [Div F] [OfScientific F] [NatCast F]

/-- The face arrays of `make_block` are the table-built ones. -/
theorem make_block_faces_layout (env : BlockEnv F M) (type : BlockType) (m : M) (f : FaceId) :
    (make_block_faces env type m).get f = face_layout env (block_uv env type) m f := by
  cases f <;> rfl

theorem make_block_vertices_layout (env : BlockEnv F M) (type : BlockType) (m : M)
    (sides : Nat) :
    make_block_vertices env type m sides = vertices_layout env (block_uv env type) m sides := by
  unfold make_block_vertices vertices_layout FaceId.emitted add_face
  simp only [List.flatMap_cons, List.flatMap_nil, ← make_block_faces_layout, Faces.get,
    FaceId.bit]
  split_ifs <;> simp

theorem FaceId.bit_pow (f : FaceId) : ∃ k, k < 6 ∧ f.bit = 2 ^ k := by
  cases f
  · exact ⟨0, by decide, by decide⟩
  · exact ⟨1, by decide, by decide⟩
  · exact ⟨3, by decide, by decide⟩
  · exact ⟨2, by decide, by decide⟩
  · exact ⟨4, by decide, by decide⟩
  · exact ⟨5, by decide, by decide⟩

theorem IS_BIT_SET_low (m : Nat) (f : FaceId) :
    IS_BIT_SET (m &&& 63) f.bit = IS_BIT_SET m f.bit := by
  obtain ⟨k, hk, e⟩ := FaceId.bit_pow f
  have h63 : Nat.testBit 63 k = true := by
    have : (63 : Nat) = 2 ^ 6 - 1 := by norm_num
    rw [this, Nat.testBit_two_pow_sub_one]
    simpa using hk
  rw [e, IS_BIT_SET_pow, IS_BIT_SET_pow, Nat.testBit_and, h63, Bool.and_true]

theorem make_block_vertices_low (env : BlockEnv F M) (type : BlockType) (m : M) (sides : Nat) :
    make_block_vertices env type m (sides &&& 63) = make_block_vertices env type m sides := by
  have h1 := IS_BIT_SET_low sides FaceId.right
  have h2 := IS_BIT_SET_low sides FaceId.left
  have h3 := IS_BIT_SET_low sides FaceId.back
  have h4 := IS_BIT_SET_low sides FaceId.front
  have h5 := IS_BIT_SET_low sides FaceId.bottom
  have h6 := IS_BIT_SET_low sides FaceId.top
  simp only [FaceId.bit] at h1 h2 h3 h4 h5 h6
  unfold make_block_vertices
  simp only [h1, h2, h3, h4, h5, h6]

/-- Vertex `k` of a face array sits at the transformed corner `face_corner f k`. -/
theorem face_vertex_pos (env : BlockEnv F M) (type : BlockType) (m : M) (f : FaceId)
    (k : Fin 6) :
    vertex_pos ((make_block_faces env type m).get f) k
      = some (corner_pos env m (face_corner f k)) := by
  cases f <;> fin_cases k <;> rfl

/-- Vertex `k` of a face array carries the UV origin of its group moved to the near or
far edge that `face_uv_far` names. -/
theorem face_vertex_uv (env : BlockEnv F M) (type : BlockType) (m : M) (f : FaceId)
    (k : Fin 6) :
    vertex_uv ((make_block_faces env type m).get f) k
      = some (uv_origin (block_uv env type) f.group 0
                + (if (face_uv_far f k).1 then (1.0 / (env.ATLAS_TEX_SIZE : F)) - 0.005
                   else 0.005),
              uv_origin (block_uv env type) f.group 1
                + (if (face_uv_far f k).2 then (1.0 / (env.ATLAS_TEX_SIZE : F)) - 0.005
                   else 0.005)) := by
  cases f <;> fin_cases k <;> rfl

end TableLemmas

/-! ## The unit cube -/

section CubeGeometry

variable {M : Type}

theorem corner_pos_translation (env : BlockEnv ℚ M) (m : M) (t : Vec3Q)
    (htr : ∀ v : Vec4 ℚ, v 3 = 1 →
      env.lac_multiply_vec4_mat4 v m = ![v 0 + t.1, v 1 + t.2.1, v 2 + t.2.2, 1])
    (i : Fin 8) : corner_pos env m i = cube_point t i := by
  have hw : (cube_corner i : Vec4 ℚ) 3 = 1 := by
    fin_cases i <;> norm_num [cube_corner]
  unfold corner_pos cube_point
  rw [htr _ hw]
  rfl

theorem cube_corner_zero {F : Type} [Neg F] [OfScientific F] :
    (cube_corner 0 : Vec4 F) = ![-0.5, -0.5,  0.5, 1.0] := rfl

theorem cube_corner_one {F : Type} [Neg F] [OfScientific F] :
    (cube_corner 1 : Vec4 F) = ![-0.5,  0.5,  0.5, 1.0] := rfl

theorem cube_corner_two {F : Type} [Neg F] [OfScientific F] :
    (cube_corner 2 : Vec4 F) = ![-0.5, -0.5, -0.5, 1.0] := rfl

theorem cube_corner_three {F : Type} [Neg F] [OfScientific F] :
    (cube_corner 3 : Vec4 F) = ![-0.5,  0.5, -0.5, 1.0] := rfl

theorem cube_corner_four {F : Type} [Neg F] [OfScientific F] :
    (cube_corner 4 : Vec4 F) = ![ 0.5, -0.5,  0.5, 1.0] := rfl

theorem cube_corner_five {F : Type} [Neg F] [OfScientific F] :
    (cube_corner 5 : Vec4 F) = ![ 0.5,  0.5,  0.5, 1.0] := rfl

theorem cube_corner_six {F : Type} [Neg F] [OfScientific F] :
    (cube_corner 6 : Vec4 F) = ![ 0.5, -0.5, -0.5, 1.0] := rfl

theorem cube_corner_seven {F : Type} [Neg F] [OfScientific F] :
    (cube_corner 7 : Vec4 F) = ![ 0.5,  0.5, -0.5, 1.0] := rfl

theorem fin8_cases (i : Fin 8) :
    i = 0 ∨ i = 1 ∨ i = 2 ∨ i = 3 ∨ i = 4 ∨ i = 5 ∨ i = 6 ∨ i = 7 := by
  revert i
  decide

theorem fin6_cases (k : Fin 6) : k = 0 ∨ k = 1 ∨ k = 2 ∨ k = 3 ∨ k = 4 ∨ k = 5 := by
  revert k
  decide

theorem vec8_val_five {α : Type} (a0 a1 a2 a3 a4 a5 a6 a7 : α) :
    (![a0, a1, a2, a3, a4, a5, a6, a7] : Fin 8 → α) 5 = a5 := rfl

theorem vec8_val_six {α : Type} (a0 a1 a2 a3 a4 a5 a6 a7 : α) :
    (![a0, a1, a2, a3, a4, a5, a6, a7] : Fin 8 → α) 6 = a6 := rfl

theorem vec8_val_seven {α : Type} (a0 a1 a2 a3 a4 a5 a6 a7 : α) :
    (![a0, a1, a2, a3, a4, a5, a6, a7] : Fin 8 → α) 7 = a7 := rfl

theorem vec6_val_five {α : Type} (a0 a1 a2 a3 a4 a5 : α) :
    (![a0, a1, a2, a3, a4, a5] : Fin 6 → α) 5 = a5 := rfl

theorem face_points_plane (t : Vec3Q) (f : FaceId) (k : Fin 6) :
    dot (outward_normal f) (vsub (cube_point t (face_corner f k)) t) = 1 / 2 := by
  rcases fin6_cases k with rfl | rfl | rfl | rfl | rfl | rfl <;> cases f <;>
    norm_num [vec8_val_five, vec8_val_six, vec8_val_seven, vec6_val_five, cube_point,
      cube_corner_zero, cube_corner_one, cube_corner_two, cube_corner_three, cube_corner_four,
      cube_corner_five, cube_corner_six, cube_corner_seven, face_corner, outward_normal, dot, vsub,
      triangle_normal, cross]

theorem face_points_cover (t : Vec3Q) (f : FaceId) (i : Fin 8)
    (hi : dot (outward_normal f) (vsub (cube_point t i) t) = 1 / 2) :
    ∃ k, face_corner f k = i := by
  rcases fin8_cases i with rfl | rfl | rfl | rfl | rfl | rfl | rfl | rfl <;> cases f <;>
    first
    | exact ⟨0, by decide⟩
    | exact ⟨1, by decide⟩
    | exact ⟨2, by decide⟩
    | exact ⟨5, by decide⟩
    | exact ⟨3, by decide⟩
    | (exfalso
       norm_num [vec8_val_five, vec8_val_six, vec8_val_seven, vec6_val_five, cube_point,
      cube_corner_zero, cube_corner_one, cube_corner_two, cube_corner_three, cube_corner_four,
      cube_corner_five, cube_corner_six, cube_corner_seven, face_corner, outward_normal, dot, vsub,
      triangle_normal, cross] at hi)

theorem face_first_triangle (t : Vec3Q) (f : FaceId) :
    triangle_normal (cube_point t (face_corner f 0)) (cube_point t (face_corner f 1))
      (cube_point t (face_corner f 2)) = outward_normal f := by
  cases f <;>
    norm_num [vec8_val_five, vec8_val_six, vec8_val_seven, vec6_val_five, cube_point,
      cube_corner_zero, cube_corner_one, cube_corner_two, cube_corner_three, cube_corner_four,
      cube_corner_five, cube_corner_six, cube_corner_seven, face_corner, outward_normal, dot, vsub,
      triangle_normal, cross]

theorem face_second_triangle (t : Vec3Q) (f : FaceId) :
    triangle_normal (cube_point t (face_corner f 3)) (cube_point t (face_corner f 4))
      (cube_point t (face_corner f 5)) = outward_normal f := by
  cases f <;>
    norm_num [vec8_val_five, vec8_val_six, vec8_val_seven, vec6_val_five, cube_point,
      cube_corner_zero, cube_corner_one, cube_corner_two, cube_corner_three, cube_corner_four,
      cube_corner_five, cube_corner_six, cube_corner_seven, face_corner, outward_normal, dot, vsub,
      triangle_normal, cross]

theorem outward_normal_side (f : FaceId) (hside : f.group = UvGroup.sides) :
    outward_normal f = (((neighbour_offset f).1 : ℚ), ((neighbour_offset f).2 : ℚ), 0) := by
  cases f <;> first | (exact absurd hside (by decide)) | (simp [outward_normal, neighbour_offset])

theorem exampleEnv_translation (n : Int) (pn : Int → Int → Int) (a b c : Int) :
    ∀ v : Vec4 ℚ, v 3 = 1 →
      (exampleEnv n pn).lac_multiply_vec4_mat4 v (a, b, c)
        = ![v 0 + ((a : ℚ), (b : ℚ), (c : ℚ)).1, v 1 + ((a : ℚ), (b : ℚ), (c : ℚ)).2.1,
            v 2 + ((a : ℚ), (b : ℚ), (c : ℚ)).2.2, 1] := by
  intro v hv
  show ![v 0 + (a : ℚ), v 1 + (b : ℚ), v 2 + (c : ℚ), v 3] = _
  rw [hv]

end CubeGeometry

/-! ## The UV rectangle -/

section UvRectangle

variable {M : Type}

theorem face_corner_same_uv (f : FaceId) :
    ∀ j k : Fin 6, face_corner f j = face_corner f k → face_uv_far f j = face_uv_far f k := by
  cases f <;> decide

theorem face_corner_distinct_uv (f : FaceId) :
    ∀ j k : Fin 6, face_corner f j ≠ face_corner f k → face_uv_far f j ≠ face_uv_far f k := by
  cases f <;> decide

theorem face_corner_card (f : FaceId) :
    (Finset.image (face_corner f) Finset.univ).card = 4 := by
  cases f <;> decide

theorem face_uv_far_onto (f : FaceId) :
    ∀ a b : Bool, ∃ k : Fin 6, face_uv_far f k = (a, b) := by
  cases f <;> decide

theorem cube_edge_iff (i j : Fin 8) :
    cube_edge i j ↔ (i.val ^^^ j.val = 1 ∨ i.val ^^^ j.val = 2 ∨ i.val ^^^ j.val = 4) := by
  rcases fin8_cases i with rfl | rfl | rfl | rfl | rfl | rfl | rfl | rfl <;>
    rcases fin8_cases j with rfl | rfl | rfl | rfl | rfl | rfl | rfl | rfl <;>
    norm_num [cube_edge, cube_corner_zero, cube_corner_one, cube_corner_two, cube_corner_three,
      cube_corner_four, cube_corner_five, cube_corner_six, cube_corner_seven] <;>
    decide

theorem face_edge_uv (f : FaceId) :
    ∀ j k : Fin 6,
      ((face_corner f j).val ^^^ (face_corner f k).val = 1 ∨
        (face_corner f j).val ^^^ (face_corner f k).val = 2 ∨
        (face_corner f j).val ^^^ (face_corner f k).val = 4) →
      ((face_uv_far f j).1 = (face_uv_far f k).1 ∧ (face_uv_far f j).2 ≠ (face_uv_far f k).2) ∨
      ((face_uv_far f j).1 ≠ (face_uv_far f k).1 ∧ (face_uv_far f j).2 = (face_uv_far f k).2) := by
  cases f <;> decide

theorem inset_edges_distinct (N : Nat) (hN : N ≠ 100) :
    (0.005 : ℚ) ≠ (1.0 / (N : ℚ)) - 0.005 := by
  intro h
  have h1 : (1 : ℚ) / N = 1 / 100 := by
    norm_num at h ⊢
    linarith
  have hN0 : (N : ℚ) ≠ 0 := by
    intro h0
    rw [h0] at h1
    norm_num at h1
  have h2 : (N : ℚ) = 100 := by
    field_simp at h1
    linarith
  exact hN (by exact_mod_cast h2)

theorem inset_select_eq (N : Nat) (hN : N ≠ 100) (o : ℚ) (a b : Bool) :
    (o + (if a then (1.0 / (N : ℚ)) - 0.005 else 0.005)
      = o + (if b then (1.0 / (N : ℚ)) - 0.005 else 0.005)) ↔ a = b := by
  have h := inset_edges_distinct N hN
  cases a <;> cases b <;> simp [h, h.symm]

end UvRectangle

/-! ## Faults and the sample log -/

section Faults

variable {F M : Type}

theorem fail_fault_ne_none (s : ChunkState F) : s.fail.fault ≠ none := by
  unfold ChunkState.fail
  simp

/-- A column whose height is no index of `tmp_data` leaves a fault behind. -/
theorem fill_column_fault (n y x : Int) (s : ChunkState F)
    (hz : ¬ in_extent n (s.heights y x)) : (fill_column n y x s).fault ≠ none := by
  have hfail : ∀ t : ChunkState F, t.fault ≠ none → t.fail.fault ≠ none :=
    fun t _ => fail_fault_ne_none t
  have htmp : ∀ (t : ChunkState F) (T : Int → Int → Int → BlockData), t.fault ≠ none →
      ({ t with tmp_data := T } : ChunkState F).fault ≠ none := fun _ _ h => h
  have hm : ∀ (t : ChunkState F) z y x f, t.fault ≠ none →
      (t.modify_tmp n z y x f).fault ≠ none := by
    intro t z y x f ht
    unfold ChunkState.modify_tmp
    split
    · exact htmp t _ ht
    · exact hfail t ht
  have hc : ∀ (t : ChunkState F) y x, t.fault ≠ none → (t.check_height n y x).fault ≠ none := by
    intro t y x ht
    unfold ChunkState.check_height
    split
    · exact ht
    · exact hfail t ht
  have hi : ∀ (t : ChunkState F) (c : Prop) [Decidable c] z y x f, t.fault ≠ none →
      (if c then t.modify_tmp n z y x f else t).fault ≠ none := by
    intro t c _ z y x f ht
    split
    · exact hm t z y x f ht
    · exact ht
  unfold fill_column
  lift_lets
  intro s1 z s2 s3 s4 s5 s6 s7 s8 s9 s10 s11 s12 s13 s14
  have hs1 : s1.heights = s.heights := by
    show (s.check_height n y x).heights = s.heights
    unfold ChunkState.check_height
    split <;> rfl
  have hzz : ¬ in_extent n z := by
    show ¬ in_extent n (s1.heights y x)
    rw [hs1]
    exact hz
  have q2 : s2.fault ≠ none := by
    show (s1.modify_tmp n z (y - 1) (x - 1) _).fault ≠ none
    unfold ChunkState.modify_tmp
    rw [if_neg (fun h => hzz h.1)]
    exact fail_fault_ne_none s1
  have q3 : s3.fault ≠ none := forLoop_preserves (fun t => t.fault ≠ none) _ 0 n
    (fun i t ht => by
      split
      · exact hm t _ _ _ _ ht
      · exact hm t _ _ _ _ ht) s2 q2
  have q4 : s4.fault ≠ none := hm s3 _ _ _ _ q3
  have q5 : s5.fault ≠ none := hc s4 _ _ q4
  have q6 : s6.fault ≠ none := hi s5 _ _ _ _ _ q5
  have q7 : s7.fault ≠ none := hc s6 _ _ q6
  have q8 : s8.fault ≠ none := hi s7 _ _ _ _ _ q7
  have q9 : s9.fault ≠ none := hc s8 _ _ q8
  have q10 : s10.fault ≠ none := hi s9 _ _ _ _ _ q9
  have q11 : s11.fault ≠ none := hc s10 _ _ q10
  have q12 : s12.fault ≠ none := hi s11 _ _ _ _ _ q11
  have q13 : s13.fault ≠ none := hc s12 _ _ q12
  exact hi s13 _ _ _ _ _ q13

theorem fill_column_keeps_fault (n y x : Int) (s : ChunkState F) (h : s.fault ≠ none) :
    (fill_column n y x s).fault ≠ none :=
  fill_column_preserves (fun t => t.fault ≠ none) (fun t _ => fail_fault_ne_none t)
    (fun _ _ h => h) n y x s h

theorem fill_column_keeps_heights (n y x : Int) (s : ChunkState F) :
    (fill_column n y x s).heights = s.heights :=
  fill_column_preserves (fun t => t.heights = s.heights) (fun _ h => h) (fun _ _ h => h)
    n y x s rfl

/-- The terrain loops leave a fault behind when some interior column is too high. -/
theorem fill_tmp_data_fault (n : Int) (s : ChunkState F) (y0 x0 : Int)
    (hy : 1 ≤ y0 ∧ y0 ≤ n) (hx : 1 ≤ x0 ∧ x0 ≤ n) (hz : ¬ in_extent n (s.heights y0 x0)) :
    (fill_tmp_data n s).fault ≠ none := by
  unfold fill_tmp_data
  have outer := forLoop_inv
    (fun y (t : ChunkState F) => forLoop 1 (n + 1) (fun x t => fill_column n y x t) t)
    (fun y t => t.heights = s.heights ∧ (y0 < y → t.fault ≠ none)) 1 (n + 1) (by omega) s
    ⟨rfl, fun h => by omega⟩ ?_
  · exact outer.2 (by omega)
  · intro y t hy1 hy2 ht
    have inner := forLoop_inv (fun x (t : ChunkState F) => fill_column n y x t)
      (fun x t => t.heights = s.heights ∧ ((y0 < y ∨ (y0 = y ∧ x0 < x)) → t.fault ≠ none))
      1 (n + 1) (by omega) t ⟨ht.1, fun h => ht.2 (by omega)⟩ ?_
    · exact ⟨inner.1, fun h => inner.2 (by omega)⟩
    · intro x u hx1 hx2 hu
      refine ⟨(fill_column_keeps_heights n y x u).trans hu.1, ?_⟩
      intro h
      by_cases hc : y0 < y ∨ (y0 = y ∧ x0 < x)
      · exact fill_column_keeps_fault n y x u (hu.2 hc)
      · have ey : y0 = y := by omega
        have ex : x0 = x := by omega
        subst ey
        subst ex
        exact fill_column_fault n y0 x0 u (by rw [hu.1]; exact hz)

theorem sample_column_samples (env : ChunkEnv F M) (loc : Int × Int × Int) (y x : Int)
    (s : ChunkState F) :
    (sample_column env loc y x s).samples
      = s.samples ++ [(sample_x env.chunk_size loc x, world_y env.chunk_size loc y)] := by
  unfold sample_column
  lift_lets
  intro cs wx wy t
  unfold ChunkState.store_height
  split <;> rfl

/-- Every padded column has its world coordinates in the log after the sampling
loops. -/
theorem sample_heights_samples (env : ChunkEnv F M) (loc : Int × Int × Int)
    (s : ChunkState F) (hn : -2 ≤ env.chunk_size) (y0 x0 : Int)
    (hy : -1 ≤ y0 ∧ y0 < env.chunk_size + 1) (hx : -1 ≤ x0 ∧ x0 < env.chunk_size + 1) :
    (sample_x env.chunk_size loc x0, world_y env.chunk_size loc y0)
      ∈ (sample_heights env loc s).samples := by
  unfold sample_heights
  lift_lets
  intro n
  have outer := forLoop_inv
    (fun y (t : ChunkState F) =>
      forLoop (-1) (n + 1) (fun x t => sample_column env loc y x t) t)
    (fun y t => y0 < y →
      (sample_x env.chunk_size loc x0, world_y env.chunk_size loc y0) ∈ t.samples)
    (-1) (n + 1) (by omega) s (fun h => by omega) ?_
  · exact outer hy.2
  · intro y t hy1 hy2 ht
    have inner := forLoop_inv (fun x (t : ChunkState F) => sample_column env loc y x t)
      (fun x t => (y0 < y ∨ (y0 = y ∧ x0 < x)) →
        (sample_x env.chunk_size loc x0, world_y env.chunk_size loc y0) ∈ t.samples)
      (-1) (n + 1) (by omega) t (fun h => ht (by omega)) ?_
    · intro h
      exact inner (by omega)
    · intro x u hx1 hx2 hu h
      beta_reduce
      rw [sample_column_samples]
      by_cases hc : y0 < y ∨ (y0 = y ∧ x0 < x)
      · exact List.mem_append_left _ (hu hc)
      · have ey : y0 = y := by omega
        have ex : x0 = x := by omega
        subst ey
        subst ex
        exact List.mem_append_right _ (List.mem_singleton.mpr rfl)

theorem surface_side_bit (h : Int → Int → Int) (y x : Int) (f : FaceId)
    (hside : f.group = UvGroup.sides) :
    IS_BIT_SET (surface_faces h y x) f.bit = true ↔
      h y x > h (y + (neighbour_offset f).2) (x + (neighbour_offset f).1) := by
  obtain ⟨-, -, b3, b4, b5, b6⟩ := surface_faces_bits h y x
  cases f
  · simpa [neighbour_offset, FaceId.bit] using b6
  · simpa [neighbour_offset, FaceId.bit, ← sub_eq_add_neg] using b5
  · simpa [neighbour_offset, FaceId.bit, ← sub_eq_add_neg] using b3
  · simpa [neighbour_offset, FaceId.bit] using b4
  · exact absurd hside (by decide)
  · exact absurd hside (by decide)

end Faults

section ChunkFrames

variable {F M : Type} [Add F] [Sub F] [Neg F] [Div F] [OfScientific F] [NatCast F]

/-- The run faults when some interior column is not below `chunk_size`. -/
theorem make_chunk_fault (env : ChunkEnv F M) (loc : Int × Int × Int) (faces : Nat)
    (gl : GlState F) (hn : 1 < env.chunk_size) (y0 x0 : Int)
    (hy : 1 ≤ y0 ∧ y0 ≤ env.chunk_size) (hx : 1 ≤ x0 ∧ x0 ≤ env.chunk_size)
    (hz : ¬ (make_chunk env loc faces gl).heights y0 x0 < env.chunk_size) :
    (make_chunk env loc faces gl).fault ≠ none := by
  rw [make_chunk_heights env loc faces gl hn] at hz
  rw [make_chunk_unfold env loc faces gl hn]
  obtain ⟨g, B, e, -⟩ := build_blocks_spec env loc (fill_tmp_data env.chunk_size
    (sample_heights env loc
        { fault := none, samples := [], gl := gl,
          heights := fun _ _ => 0, tmp_data := fun _ _ _ => BlockData.init,
          location := loc, faces := faces, blocks := fun _ _ _ => none })) (by omega)
  rw [e]
  show (fill_tmp_data env.chunk_size _).fault ≠ none
  obtain ⟨l, e1⟩ := sample_heights_eq env loc
    { fault := none, samples := [], gl := gl,
      heights := fun _ _ => 0, tmp_data := fun _ _ _ => BlockData.init,
      location := loc, faces := faces, blocks := fun _ _ _ => none } (by omega)
  rw [e1]
  refine fill_tmp_data_fault env.chunk_size _ y0 x0 hy hx ?_
  show ¬ in_extent env.chunk_size
    (sampled_upto env loc (fun _ _ => 0) (env.chunk_size + 1) (-1) y0 x0)
  rw [sampled_upto_last env loc]
  intro h
  exact hz h.2

/-- What the block loops leave: the sampled heights, the `tmp_data` and the log of the
earlier loops, and in every slot the block of that cell. -/
theorem make_chunk_blocks (env : ChunkEnv F M) (loc : Int × Int × Int) (faces : Nat)
    (gl : GlState F) (hn : 1 < env.chunk_size) :
    (∀ y0 x0, -1 ≤ y0 ∧ y0 < env.chunk_size + 1 → -1 ≤ x0 ∧ x0 < env.chunk_size + 1 →
      (sample_x env.chunk_size loc x0, world_y env.chunk_size loc y0)
        ∈ (make_chunk env loc faces gl).samples) ∧
    (∀ z y x, in_extent env.chunk_size z → in_extent env.chunk_size y →
      in_extent env.chunk_size x →
      ∃ g1 : GlState F, (make_chunk env loc faces gl).blocks z y x
        = some (make_block env.toBlockEnv ((make_chunk env loc faces gl).tmp_data z y x).type
            (env.transform_at (block_x env.chunk_size loc x) (world_y env.chunk_size loc y)
              (world_z env.chunk_size loc z))
            ((make_chunk env loc faces gl).tmp_data z y x).faces g1).1) := by
  rw [make_chunk_unfold env loc faces gl hn]
  obtain ⟨g, B, e, hB⟩ := build_blocks_spec env loc (fill_tmp_data env.chunk_size
    (sample_heights env loc
        { fault := none, samples := [], gl := gl,
          heights := fun _ _ => 0, tmp_data := fun _ _ _ => BlockData.init,
          location := loc, faces := faces, blocks := fun _ _ _ => none })) (by omega)
  rw [e]
  constructor
  · intro y0 x0 hy hx
    show _ ∈ (fill_tmp_data env.chunk_size _).samples
    have hs := sample_heights_samples env loc
      { fault := none, samples := [], gl := gl,
        heights := fun _ _ => 0, tmp_data := fun _ _ _ => BlockData.init,
        location := loc, faces := faces, blocks := fun _ _ _ => none } (by omega) y0 x0 hy hx
    exact fill_tmp_data_preserves
      (fun t => (sample_x env.chunk_size loc x0, world_y env.chunk_size loc y0) ∈ t.samples)
      (fun _ h => h) (fun _ _ h => h) _ _ hs
  · intro z y x hz hy hx
    exact hB z y x ⟨hz, hy, hx, Or.inl hz.2⟩

set_option maxRecDepth 100000 in
/-- Chunk size 4 over the flat height 15: the surface index 15 is no index of
`tmp_data`, and the run records it. -/
theorem flatRun_too_high :
    (1 : Int) < 4 ∧ (flatRun 4 15).heights 1 1 = 15 ∧
      ¬ in_extent 4 ((flatRun 4 15).heights 1 1) ∧
      (flatRun 4 15).fault = some Fault.outOfBounds := by
  decide

end ChunkFrames


/-! ## The extension search of window.cpp -/

section ExtensionSearch

theorem strchr_isSome (s : List Char) (c : Char) : (strchr s c).isSome ↔ c ∈ s := by
  induction s with
  | nil => simp [strchr]
  | cons x s ih =>
    unfold strchr
    by_cases h : x = c
    · simp [h]
    · have hne : ¬ c = x := fun e => h e.symm
      simp [h, hne, ih]

/-- An occurrence copies the characters of `extension`. -/
theorem occurs_at_getElem (extList extension : List Char) (p i : Nat)
    (h : occurs_at extList extension p) (hi : i < extension.length) :
    extList[p + i]? = extension[i]? := by
  unfold occurs_at at h
  rw [← List.getElem?_drop, ← List.getElem?_take_of_lt hi, h]

/-- An occurrence of a non-empty string ends within the string it occurs in. -/
theorem occurs_at_le (extList extension : List Char) (p : Nat)
    (h : occurs_at extList extension p) (hne : extension ≠ []) :
    p + extension.length ≤ extList.length := by
  have hl := congrArg List.length h
  rw [List.length_take, List.length_drop] at hl
  have hpos : 0 < extension.length := List.length_pos.mpr hne
  omega

theorem occurs_at_drop (extList extension : List Char) (a j : Nat) :
    occurs_at (extList.drop a) extension j ↔ occurs_at extList extension (a + j) := by
  unfold occurs_at
  rw [List.drop_drop]

theorem occurs_at_cons (c : Char) (s extension : List Char) (j : Nat) :
    occurs_at (c :: s) extension (j + 1) ↔ occurs_at s extension j := by
  unfold occurs_at
  rw [List.drop_succ_cons]

/-- When `strstr` returns an offset, `needle` occurs there and nowhere before. -/
theorem strstr_some (haystack needle : List Char) (off : Nat)
    (h : strstr haystack needle = some off) :
    occurs_at haystack needle off ∧ ∀ j, j < off → ¬ occurs_at haystack needle j := by
  induction haystack generalizing off with
  | nil =>
    unfold strstr at h
    split_ifs at h with hn
    · cases h
      subst hn
      exact ⟨rfl, fun j hj => absurd hj (Nat.not_lt_zero j)⟩
  | cons c s ih =>
    unfold strstr at h
    split_ifs at h with hn
    · cases h
      exact ⟨hn, fun j hj => absurd hj (Nat.not_lt_zero j)⟩
    · cases hs : strstr s needle with
      | none => rw [hs] at h; cases h
      | some k =>
        rw [hs] at h
        cases h
        obtain ⟨h1, h2⟩ := ih k hs
        refine ⟨(occurs_at_cons c s needle k).mpr h1, ?_⟩
        intro j hj
        cases j with
        | zero => exact hn
        | succ j =>
          rw [occurs_at_cons]
          have hj2 : j + 1 < k + 1 := hj
          exact h2 j (by omega)

/-- When `strstr` returns the null pointer, `needle` occurs nowhere. -/
theorem strstr_none (haystack needle : List Char) (h : strstr haystack needle = none) (j : Nat) :
    ¬ occurs_at haystack needle j := by
  induction haystack generalizing j with
  | nil =>
    unfold strstr at h
    split_ifs at h with hn
    intro ho
    unfold occurs_at at ho
    rw [List.drop_nil, List.take_nil] at ho
    exact hn ho.symm
  | cons c s ih =>
    unfold strstr at h
    split_ifs at h with hn
    cases hs : strstr s needle with
    | some k => rw [hs] at h; cases h
    | none =>
      cases j with
      | zero => exact hn
      | succ j =>
        rw [occurs_at_cons]
        exact ih hs j

/-- One iteration of the loop, when `strstr` finds nothing. -/
theorem search_none (extList extension : List Char) (fuel start : Nat)
    (h : strstr (extList.drop start) extension = none) :
    search extList extension (fuel + 1) start = some false := by
  unfold search
  rw [h]

/-- One iteration of the loop, when `strstr` finds an occurrence. -/
theorem search_some (extList extension : List Char) (fuel start off : Nat)
    (h : strstr (extList.drop start) extension = some off) :
    search extList extension (fuel + 1) start
      = if (start + off = start ∨ extList[start + off - 1]? = some ' ') ∧
            (extList[start + off + strlen extension]? = some ' ' ∨
              extList[start + off + strlen extension]? = none) then
          some true
        else
          search extList extension fuel (start + off + strlen extension) := by
  conv_lhs => unfold search
  rw [h]

/-- The loop finishes within `extList.length - start + 1` iterations when `extension`
is not empty: every iteration moves `start` forward by at least one character and never
past the end of `extList`. -/
theorem search_terminates (extList extension : List Char) (hne : extension ≠ [])
    (fuel start : Nat) (hs : start ≤ extList.length) (hf : extList.length - start < fuel) :
    ∃ b, search extList extension fuel start = some b := by
  induction fuel generalizing start with
  | zero => exact absurd hf (Nat.not_lt_zero _)
  | succ fuel ih =>
    cases hst : strstr (extList.drop start) extension with
    | none => exact ⟨false, search_none extList extension fuel start hst⟩
    | some off =>
      rw [search_some extList extension fuel start off hst]
      split_ifs with hc
      · exact ⟨true, rfl⟩
      · have ho := (occurs_at_drop extList extension start off).mp
          (strstr_some _ _ off hst).1
        have hle := occurs_at_le extList extension (start + off) ho hne
        have hpos : 0 < extension.length := List.length_pos.mpr hne
        unfold strlen
        exact ih (start + off + extension.length) hle (by omega)

/-- More fuel does not change a result. -/
theorem search_fuel (extList extension : List Char) (fuel k start : Nat) (b : Bool)
    (h : search extList extension fuel start = some b) :
    search extList extension (fuel + k) start = some b := by
  induction fuel generalizing start with
  | zero =>
    unfold search at h
    cases h
  | succ fuel ih =>
    have e : fuel + 1 + k = (fuel + k) + 1 := by omega
    rw [e]
    cases hst : strstr (extList.drop start) extension with
    | none =>
      rw [search_none extList extension fuel start hst] at h
      rw [search_none extList extension (fuel + k) start hst]
      exact h
    | some off =>
      rw [search_some extList extension fuel start off hst] at h
      rw [search_some extList extension (fuel + k) start off hst]
      split_ifs at h ⊢ with hc
      · exact h
      · exact ih _ h

end ExtensionSearch

section ExtensionTokens

/-- A token that starts at or after `start` is found: the occurrences `strstr` finds
before it end before it begins, because `extension` holds no space. -/
theorem search_complete (extList extension : List Char) (hsp : ' ' ∉ extension)
    (hne : extension ≠ []) (p : Nat) (ht : token_at extList extension p)
    (fuel start : Nat) (hs : start ≤ p) (hf : extList.length - start < fuel) :
    search extList extension fuel start = some true := by
  induction fuel generalizing start with
  | zero => exact absurd hf (Nat.not_lt_zero _)
  | succ fuel ih =>
    obtain ⟨hocc, hleft, hright⟩ := ht
    have hpos : 0 < extension.length := List.length_pos.mpr hne
    have hple := occurs_at_le extList extension p hocc hne
    cases hst : strstr (extList.drop start) extension with
    | none =>
      exfalso
      apply strstr_none _ _ hst (p - start)
      rw [occurs_at_drop]
      have e : start + (p - start) = p := by omega
      rw [e]
      exact hocc
    | some off =>
      rw [search_some extList extension fuel start off hst]
      obtain ⟨ho, hmin⟩ := strstr_some _ _ off hst
      rw [occurs_at_drop] at ho
      have hle := occurs_at_le extList extension (start + off) ho hne
      have hoff : off ≤ p - start := by
        by_contra hlt
        apply hmin (p - start) (by omega)
        rw [occurs_at_drop]
        have e : start + (p - start) = p := by omega
        rw [e]
        exact hocc
      split_ifs with hc
      · rfl
      · unfold strlen at hc ⊢
        have hwp : start + off ≠ p := by
          intro e
          apply hc
          rw [e]
          refine ⟨?_, hright⟩
          rcases hleft with h0 | h1
          · left
            omega
          · right
            exact h1
        have hterm : start + off + extension.length ≤ p := by
          by_contra hlt
          have hp0 : p ≠ 0 := by omega
          have hprev : extList[p - 1]? = some ' ' := by
            rcases hleft with h0 | h1
            · exact absurd h0 hp0
            · exact h1
          have hi : p - 1 - (start + off) < extension.length := by omega
          have hcopy := occurs_at_getElem extList extension (start + off)
            (p - 1 - (start + off)) ho hi
          have e : start + off + (p - 1 - (start + off)) = p - 1 := by omega
          rw [e, hprev] at hcopy
          exact hsp (List.mem_iff_getElem?.mpr ⟨_, hcopy.symm⟩)
        exact ih (start + off + extension.length) hterm (by omega)

/-- When the loop returns true, `extension` occurs at some offset `w` where it ends the
string or is followed by a space, and it begins the string, follows a space, or follows
the place a search began.  A search begins at offset 0 or right behind an earlier
occurrence of `extension`. -/
theorem search_true (extList extension : List Char) (fuel start : Nat)
    (hstart : start = 0 ∨
      (extension.length ≤ start ∧ occurs_at extList extension (start - extension.length)))
    (h : search extList extension fuel start = some true) :
    ∃ w, occurs_at extList extension w ∧
      (extList[w + extension.length]? = some ' ' ∨ extList[w + extension.length]? = none) ∧
      (w = 0 ∨ extList[w - 1]? = some ' ' ∨
        (extension.length ≤ w ∧ occurs_at extList extension (w - extension.length))) := by
  induction fuel generalizing start with
  | zero =>
    unfold search at h
    cases h
  | succ fuel ih =>
    cases hst : strstr (extList.drop start) extension with
    | none =>
      rw [search_none extList extension fuel start hst] at h
      cases h
    | some off =>
      rw [search_some extList extension fuel start off hst] at h
      obtain ⟨ho, -⟩ := strstr_some _ _ off hst
      rw [occurs_at_drop] at ho
      unfold strlen at h
      split_ifs at h with hc
      · refine ⟨start + off, ho, hc.2, ?_⟩
        rcases hc.1 with h1 | h1
        · rw [h1]
          rcases hstart with h0 | h0
          · left
            exact h0
          · right
            right
            exact h0
        · right
          left
          exact h1
      · apply ih (start + off + extension.length) _ h
        right
        refine ⟨by omega, ?_⟩
        have e : start + off + extension.length - extension.length = start + off := by omega
        rw [e]
        exact ho

theorem isExtensionSupported_guard (extension : List Char) :
    ((strchr extension ' ').isSome ∨ extension[0]? = none) ↔ (' ' ∈ extension ∨ extension = []) := by
  rw [strchr_isSome]
  cases extension with
  | nil => simp
  | cons c s => simp

/-- With an empty or space-holding `extension` the function returns false before the
loop, whatever the fuel. -/
theorem isExtensionSupported_rejects (fuel : Nat) (extList extension : List Char)
    (h : ' ' ∈ extension ∨ extension = []) :
    isExtensionSupported fuel extList extension = some false := by
  unfold isExtensionSupported
  rw [if_pos ((isExtensionSupported_guard extension).mpr h)]

/-- Past the guard the function is the loop started at offset 0. -/
theorem isExtensionSupported_search (fuel : Nat) (extList extension : List Char)
    (hsp : ' ' ∉ extension) (hne : extension ≠ []) :
    isExtensionSupported fuel extList extension = search extList extension fuel 0 := by
  unfold isExtensionSupported
  rw [if_neg]
  rw [isExtensionSupported_guard]
  exact fun h => h.elim hsp hne

/-- The function returns for every pair of strings: `extList.length + 1` iterations of
the loop are enough, and more fuel gives the same result. -/
theorem isExtensionSupported_terminates (extList extension : List Char) :
    ∃ b, ∀ fuel, extList.length < fuel →
      isExtensionSupported fuel extList extension = some b := by
  by_cases h : ' ' ∈ extension ∨ extension = []
  · exact ⟨false, fun fuel _ => isExtensionSupported_rejects fuel extList extension h⟩
  · have hsp : ' ' ∉ extension := fun e => h (Or.inl e)
    have hne : extension ≠ [] := fun e => h (Or.inr e)
    obtain ⟨b, hb⟩ := search_terminates extList extension hne (extList.length + 1) 0
      (Nat.zero_le _) (by omega)
    refine ⟨b, fun fuel hf => ?_⟩
    rw [isExtensionSupported_search fuel extList extension hsp hne]
    have e : fuel = extList.length + 1 + (fuel - (extList.length + 1)) := by omega
    rw [e]
    exact search_fuel extList extension _ _ 0 b hb

/-- A whole token is always found: if `extension` is not empty, holds no space and
stands in `extList` as a token, the function returns true. -/
theorem isExtensionSupported_token (fuel : Nat) (extList extension : List Char)
    (hsp : ' ' ∉ extension) (hne : extension ≠ []) (hf : extList.length < fuel)
    (p : Nat) (ht : token_at extList extension p) :
    isExtensionSupported fuel extList extension = some true := by
  rw [isExtensionSupported_search fuel extList extension hsp hne]
  exact search_complete extList extension hsp hne p ht fuel 0 (Nat.zero_le _) (by omega)

/-- What a result of true means: `extension` is not empty, holds no space, and occurs
at some offset `w` where it ends the string or is followed by a space; before it there is
the beginning of the string, a space, or another copy of `extension`. -/
theorem isExtensionSupported_true (fuel : Nat) (extList extension : List Char)
    (h : isExtensionSupported fuel extList extension = some true) :
    ' ' ∉ extension ∧ extension ≠ [] ∧
    ∃ w, token_at extList extension w ∨
      (extension.length ≤ w ∧ occurs_at extList extension (w - extension.length) ∧
        occurs_at extList extension w ∧
        (extList[w + extension.length]? = some ' ' ∨
          extList[w + extension.length]? = none)) := by
  by_cases hg : ' ' ∈ extension ∨ extension = []
  · rw [isExtensionSupported_rejects fuel extList extension hg] at h
    cases h
  · have hsp : ' ' ∉ extension := fun e => hg (Or.inl e)
    have hne : extension ≠ [] := fun e => hg (Or.inr e)
    rw [isExtensionSupported_search fuel extList extension hsp hne] at h
    obtain ⟨w, ho, hr, hl⟩ := search_true extList extension fuel 0 (Or.inl rfl) h
    refine ⟨hsp, hne, w, ?_⟩
    rcases hl with h0 | h1 | h2
    · exact Or.inl ⟨ho, Or.inl h0, hr⟩
    · exact Or.inl ⟨ho, Or.inr h1, hr⟩
    · exact Or.inr ⟨h2.1, h2.2, ho, hr⟩

end ExtensionTokens

section TokenList

theorem push_char_tail (c : Char) (l : List (List Char)) : (push_char c l).tail = l.tail := by
  cases l <;> rfl

theorem tokens_ne_nil (s : List Char) : tokens s ≠ [] := by
  cases s with
  | nil => simp [tokens]
  | cons c s =>
    unfold tokens
    split_ifs
    · simp
    · cases tokens s <;> simp [push_char]

theorem tokens_cons_space (s : List Char) : tokens (' ' :: s) = [] :: tokens s := by
  simp [tokens]

theorem tokens_cons_char (c : Char) (s : List Char) (hc : c ≠ ' ') :
    tokens (c :: s) = push_char c (tokens s) := by
  simp [tokens, hc]

theorem occurs_at_zero_cons (c d : Char) (s e : List Char) :
    occurs_at (c :: s) (d :: e) 0 ↔ c = d ∧ occurs_at s e 0 := by
  unfold occurs_at
  simp

theorem token_at_succ_succ (c : Char) (s e : List Char) (q : Nat) :
    token_at (c :: s) e (q + 2) ↔ token_at s e (q + 1) := by
  unfold token_at
  rw [occurs_at_cons]
  have e1 : q + 2 - 1 = q + 1 := rfl
  have e2 : q + 1 - 1 = q := rfl
  have e3 : q + 2 + e.length = (q + 1 + e.length) + 1 := by omega
  rw [e1, e2, e3, List.getElem?_cons_succ, List.getElem?_cons_succ]
  simp

theorem token_at_one (c : Char) (s e : List Char) :
    token_at (c :: s) e 1 ↔ c = ' ' ∧ token_at s e 0 := by
  unfold token_at
  rw [occurs_at_cons]
  have e3 : 1 + e.length = (0 + e.length) + 1 := by omega
  rw [e3, List.getElem?_cons_succ]
  simp
  tauto

/-- A token standing at offset 0 is the first element of `tokens`. -/
theorem tokens_head_of_token_at (e : List Char) (hsp : ' ' ∉ e) (s : List Char)
    (h : token_at s e 0) : ∃ ts, tokens s = e :: ts := by
  induction e generalizing s with
  | nil =>
    obtain ⟨-, -, hr⟩ := h
    cases s with
    | nil => exact ⟨[], rfl⟩
    | cons c s =>
      simp at hr
      subst hr
      exact ⟨tokens s, tokens_cons_space s⟩
  | cons d e ih =>
    obtain ⟨ho, -, hr⟩ := h
    cases s with
    | nil =>
      unfold occurs_at at ho
      simp at ho
    | cons c s =>
      rw [occurs_at_zero_cons] at ho
      obtain ⟨hcd, ho⟩ := ho
      subst hcd
      have hc : c ≠ ' ' := fun e0 => hsp (by simp [e0])
      have hsp2 : ' ' ∉ e := fun h0 => hsp (List.mem_cons_of_mem _ h0)
      have hr2 : s[0 + e.length]? = some ' ' ∨ s[0 + e.length]? = none := by
        have e3 : 0 + (c :: e).length = (0 + e.length) + 1 := by simp
        rw [e3, List.getElem?_cons_succ] at hr
        exact hr
      obtain ⟨ts, hts⟩ := ih hsp2 s ⟨ho, Or.inl rfl, hr2⟩
      refine ⟨ts, ?_⟩
      rw [tokens_cons_char c s hc, hts]
      rfl

/-- A token standing behind a space is an element of `tokens` after the first. -/
theorem tokens_tail_of_token_at (e : List Char) (hsp : ' ' ∉ e) (s : List Char) (p : Nat)
    (h : token_at s e (p + 1)) : e ∈ (tokens s).tail := by
  induction s generalizing p with
  | nil =>
    obtain ⟨-, hl, -⟩ := h
    simp at hl
  | cons c s ih =>
    cases p with
    | zero =>
      rw [token_at_one] at h
      obtain ⟨hc, h0⟩ := h
      subst hc
      obtain ⟨ts, hts⟩ := tokens_head_of_token_at e hsp s h0
      rw [tokens_cons_space, List.tail_cons, hts]
      exact List.mem_cons_self _ _
    | succ p =>
      rw [token_at_succ_succ] at h
      have hm := ih p h
      by_cases hc : c = ' '
      · subst hc
        rw [tokens_cons_space, List.tail_cons]
        exact List.mem_of_mem_tail hm
      · rw [tokens_cons_char c s hc, push_char_tail]
        exact hm

/-- The first element of `tokens` stands at offset 0 as a token. -/
theorem token_at_of_tokens_head (s : List Char) (t : List Char) (ts : List (List Char))
    (h : tokens s = t :: ts) : token_at s t 0 := by
  induction s generalizing t ts with
  | nil =>
    simp [tokens] at h
    obtain ⟨rfl, -⟩ := h
    exact ⟨rfl, Or.inl rfl, Or.inr rfl⟩
  | cons c s ih =>
    by_cases hc : c = ' '
    · subst hc
      rw [tokens_cons_space] at h
      simp at h
      obtain ⟨rfl, -⟩ := h
      exact ⟨rfl, Or.inl rfl, Or.inl (by simp)⟩
    · rw [tokens_cons_char c s hc] at h
      cases hts : tokens s with
      | nil => exact absurd hts (tokens_ne_nil s)
      | cons t2 ts2 =>
        rw [hts] at h
        simp [push_char] at h
        obtain ⟨rfl, -⟩ := h
        obtain ⟨ho, -, hr⟩ := ih t2 ts2 hts
        refine ⟨(occurs_at_zero_cons c c s t2).mpr ⟨rfl, ho⟩, Or.inl rfl, ?_⟩
        have e3 : 0 + (c :: t2).length = (0 + t2.length) + 1 := by simp
        rw [e3, List.getElem?_cons_succ]
        exact hr

/-- An element of `tokens` after the first stands behind a space as a token. -/
theorem token_at_of_tokens_tail (s : List Char) (e : List Char)
    (h : e ∈ (tokens s).tail) : ∃ p, token_at s e (p + 1) := by
  induction s with
  | nil => simp [tokens] at h
  | cons c s ih =>
    by_cases hc : c = ' '
    · subst hc
      rw [tokens_cons_space, List.tail_cons] at h
      cases hts : tokens s with
      | nil => exact absurd hts (tokens_ne_nil s)
      | cons t ts =>
        rw [hts] at h
        rcases List.mem_cons.mp h with h1 | h1
        · subst h1
          exact ⟨0, (token_at_one ' ' s e).mpr ⟨rfl, token_at_of_tokens_head s e ts hts⟩⟩
        · have h2 : e ∈ (tokens s).tail := by
            rw [hts]
            exact h1
          obtain ⟨p, hp⟩ := ih h2
          exact ⟨p + 1, (token_at_succ_succ ' ' s e p).mpr hp⟩
    · rw [tokens_cons_char c s hc, push_char_tail] at h
      obtain ⟨p, hp⟩ := ih h
      exact ⟨p + 1, (token_at_succ_succ c s e p).mpr hp⟩

/-- The list `tokens` and the offsets `token_at` describe the same tokens. -/
theorem mem_tokens_iff (extList extension : List Char) (hsp : ' ' ∉ extension) :
    extension ∈ tokens extList ↔ ∃ p, token_at extList extension p := by
  constructor
  · intro h
    cases hts : tokens extList with
    | nil => exact absurd hts (tokens_ne_nil extList)
    | cons t ts =>
      rw [hts] at h
      rcases List.mem_cons.mp h with h1 | h1
      · subst h1
        exact ⟨0, token_at_of_tokens_head extList extension ts hts⟩
      · have h2 : extension ∈ (tokens extList).tail := by
          rw [hts]
          exact h1
        obtain ⟨p, hp⟩ := token_at_of_tokens_tail extList extension h2
        exact ⟨p + 1, hp⟩
  · rintro ⟨p, hp⟩
    cases p with
    | zero =>
      obtain ⟨ts, hts⟩ := tokens_head_of_token_at extension hsp extList hp
      rw [hts]
      exact List.mem_cons_self _ _
    | succ p =>
      exact List.mem_of_mem_tail (tokens_tail_of_token_at extension hsp extList p hp)

end TokenList

section ExtensionSummary

/-- Two copies of `extension` in a row are an occurrence of `extension ++ extension`. -/
theorem occurs_at_twice (extList extension : List Char) (p : Nat)
    (h1 : occurs_at extList extension p)
    (h2 : occurs_at extList extension (p + extension.length)) :
    occurs_at extList (extension ++ extension) p := by
  unfold occurs_at at h1 h2 ⊢
  rw [List.length_append, List.take_add, List.drop_drop, h1, h2]

/-- What holds of `isExtensionSupported` for every pair of strings, given fuel for
`extList.length + 1` iterations: an empty or space-holding `extension` gives false; an
`extension` that is one of the space-separated tokens of `extList` gives true; and when
`extList` nowhere holds two copies of `extension` in a row, the result is true exactly
when `extension` is one of the tokens. -/
theorem isExtensionSupported_tokens (fuel : Nat) (extList extension : List Char)
    (hf : extList.length < fuel) :
    ((' ' ∈ extension ∨ extension = []) →
      isExtensionSupported fuel extList extension = some false) ∧
    (' ' ∉ extension → extension ≠ [] → extension ∈ tokens extList →
      isExtensionSupported fuel extList extension = some true) ∧
    (' ' ∉ extension → extension ≠ [] →
      (∀ w, ¬ occurs_at extList (extension ++ extension) w) →
      (isExtensionSupported fuel extList extension = some true ↔
        extension ∈ tokens extList)) := by
  have hcomplete : ' ' ∉ extension → extension ≠ [] → extension ∈ tokens extList →
      isExtensionSupported fuel extList extension = some true := by
    intro hsp hne hmem
    obtain ⟨p, hp⟩ := (mem_tokens_iff extList extension hsp).mp hmem
    exact isExtensionSupported_token fuel extList extension hsp hne hf p hp
  refine ⟨isExtensionSupported_rejects fuel extList extension, hcomplete, ?_⟩
  intro hsp hne hno
  refine ⟨?_, hcomplete hsp hne⟩
  intro ht
  obtain ⟨-, -, w, hw⟩ := isExtensionSupported_true fuel extList extension ht
  rcases hw with hw | ⟨hle, hprev, hocc, -⟩
  · exact (mem_tokens_iff extList extension hsp).mpr ⟨w, hw⟩
  · exfalso
    apply hno (w - extension.length)
    apply occurs_at_twice extList extension _ hprev
    have e : w - extension.length + extension.length = w := by omega
    rw [e]
    exact hocc

end ExtensionSummary


/-! ## float coordinates -/

section FloatCoordinates

/-- Whole numbers up to `2 ^ 24` in magnitude are `float` values: rounding leaves them
as they are. -/
theorem float32_round_exact (v : Int) (h : |v| ≤ 2 ^ 24) : float32_round v = v := by
  unfold float32_round
  rw [if_pos]
  have h2 : ((v.natAbs : Nat) : Int) ≤ 2 ^ 24 := by
    rw [Int.natCast_natAbs]
    exact h
  exact_mod_cast h2

/-- Rounding is symmetric about zero. -/
theorem float32_round_neg (v : Int) : float32_round (-v) = -float32_round v := by
  unfold float32_round
  rw [Int.natAbs_neg, Int.sign_neg]
  split_ifs
  · rfl
  · simp only [neg_mul]

/-- The block position and the sample position have the same `x`: the two source
expressions differ only in where the sign is applied. -/
theorem block_x_eq_sample_x (n : Int) (location : Int × Int × Int) (x : Int) :
    block_x n location x = sample_x n location x := by
  unfold block_x sample_x
  rw [neg_mul, float32_round_neg]

theorem abs_mul_le_of_le (c n b : Int) (hn : 0 ≤ n) (h : (|c| + 1) * n ≤ b) :
    |c * n| + n ≤ b := by
  rw [abs_mul, abs_of_nonneg hn]
  linarith

/-- Within the exact range the sample position is the whole number
`-(cx * chunk_size) + x`. -/
theorem sample_x_exact (n : Int) (location : Int × Int × Int) (x : Int) (hn : 1 < n)
    (hx : -1 ≤ x ∧ x ≤ n) (hc : (|location.1| + 1) * n ≤ 2 ^ 24) :
    sample_x n location x = -(location.1 * n) + x := by
  have hb := abs_mul_le_of_le location.1 n _ (by omega) hc
  have hd : 0 ≤ |location.1 * n| := abs_nonneg _
  have hcn : 0 ≤ |location.1| * n := mul_nonneg (abs_nonneg _) (by omega)
  have hn24 : |n| ≤ 2 ^ 24 := by
    rw [abs_of_nonneg (by omega)]
    nlinarith [abs_nonneg location.1]
  have hp : |-location.1 * n| ≤ 2 ^ 24 := by
    rw [neg_mul, abs_neg]
    omega
  have hx24 : |x| ≤ 2 ^ 24 := by
    rw [abs_le]
    constructor <;> omega
  have hs : |-location.1 * n + x| ≤ 2 ^ 24 := by
    rw [neg_mul]
    have h1 := abs_add (-(location.1 * n)) x
    rw [abs_neg] at h1
    have h2 : |x| ≤ n := by
      rw [abs_le]
      constructor <;> omega
    omega
  unfold sample_x
  rw [float32_round_exact n hn24, float32_round_exact _ hp, float32_round_exact x hx24,
    float32_round_exact _ hs, neg_mul]

/-- Within the exact range the `y` position is the whole number `cy * chunk_size + y`. -/
theorem world_y_exact (n : Int) (location : Int × Int × Int) (y : Int) (hn : 1 < n)
    (hy : -1 ≤ y ∧ y ≤ n) (hc : (|location.2.1| + 1) * n ≤ 2 ^ 24) :
    world_y n location y = location.2.1 * n + y := by
  have hb := abs_mul_le_of_le location.2.1 n _ (by omega) hc
  have hd : 0 ≤ |location.2.1 * n| := abs_nonneg _
  have hn24 : |n| ≤ 2 ^ 24 := by
    rw [abs_of_nonneg (by omega)]
    nlinarith [abs_nonneg location.2.1]
  have hp : |location.2.1 * n| ≤ 2 ^ 24 := by omega
  have hy24 : |y| ≤ 2 ^ 24 := by
    rw [abs_le]
    constructor <;> omega
  have hs : |location.2.1 * n + y| ≤ 2 ^ 24 := by
    have h1 := abs_add (location.2.1 * n) y
    have h2 : |y| ≤ n := by
      rw [abs_le]
      constructor <;> omega
    omega
  unfold world_y
  rw [float32_round_exact n hn24, float32_round_exact _ hp, float32_round_exact y hy24,
    float32_round_exact _ hs]

end FloatCoordinates

/-! ## One face bit at a time -/

section FaceBits

variable {F M : Type} [Add F] [Sub F] [Neg F] [Div F] [OfScientific F] [NatCast F]

/-- With the mask of one face bit alone, the vertex array is the array of that face. -/
theorem make_block_vertices_single (env : BlockEnv F M) (type : BlockType) (m : M)
    (f : FaceId) :
    make_block_vertices env type m f.bit = (make_block_faces env type m).get f := by
  cases f <;> rfl

theorem FaceId.bit_shift (f : FaceId) : f.bit = 2 ^ f.shift := by
  cases f <;> rfl

theorem FaceId.shift_inj (f g : FaceId) (h : g.shift = f.shift) : g = f := by
  cases f <;> cases g <;> first | rfl | exact absurd h (by decide)

/-- Flipping the bit of face `f` in a mask changes the test of that bit and of no
other face bit. -/
theorem IS_BIT_SET_xor (m : Nat) (f g : FaceId) :
    IS_BIT_SET (m ^^^ f.bit) g.bit
      = if g = f then !IS_BIT_SET m f.bit else IS_BIT_SET m g.bit := by
  rw [FaceId.bit_shift f, FaceId.bit_shift g, IS_BIT_SET_pow, IS_BIT_SET_pow, IS_BIT_SET_pow,
    Nat.testBit_xor, Nat.testBit_two_pow]
  by_cases h : g = f
  · subst h
    simp
  · have hne : ¬ f.shift = g.shift := fun e => h (FaceId.shift_inj f g e.symm)
    simp [h, hne]

theorem add_face_ite {α : Type} (b : Bool) (vertices f : List α) :
    (if b = true then add_face vertices f else vertices)
      = vertices ++ (if b = true then f else []) := by
  cases b <;> simp [add_face]

/-- The floats that the bit of a face adds: when the bit of `f` is set in `sides`, the
vertex array is the array for `sides` without that bit, with the array `make_block`
builds for the bit alone put in at one place. -/
theorem make_block_vertices_split (env : BlockEnv F M) (type : BlockType) (m : M)
    (sides : Nat) (f : FaceId) (hbit : IS_BIT_SET sides f.bit = true) :
    ∃ before after : List F,
      make_block_vertices env type m sides
        = before ++ make_block_vertices env type m f.bit ++ after ∧
      make_block_vertices env type m (sides ^^^ f.bit) = before ++ after := by
  have x1 := IS_BIT_SET_xor sides f FaceId.right
  have x2 := IS_BIT_SET_xor sides f FaceId.left
  have x3 := IS_BIT_SET_xor sides f FaceId.back
  have x4 := IS_BIT_SET_xor sides f FaceId.front
  have x5 := IS_BIT_SET_xor sides f FaceId.bottom
  have x6 := IS_BIT_SET_xor sides f FaceId.top
  rw [make_block_vertices_single]
  rw [hbit] at x1 x2 x3 x4 x5 x6
  unfold make_block_vertices
  generalize make_block_faces env type m = fs
  simp only [add_face_ite]
  cases f <;>
    simp only [FaceId.bit, reduceCtorEq, if_true, if_false, Bool.not_true]
      at x1 x2 x3 x4 x5 x6 hbit ⊢
  · refine ⟨[],
      (if IS_BIT_SET sides LEFT then fs.left else []) ++ (if IS_BIT_SET sides BACK then fs.back else []) ++ (if IS_BIT_SET sides FRONT then fs.front else []) ++ (if IS_BIT_SET sides BOTTOM then fs.bottom else []) ++ (if IS_BIT_SET sides TOP then fs.top else []), ?_, ?_⟩
    · simp only [hbit, if_true, Faces.get, List.append_assoc, List.nil_append, List.append_nil]
    · simp only [x1, x2, x3, x4, x5, x6, if_true, Bool.false_eq_true, if_false,
        List.append_assoc, List.nil_append, List.append_nil]
  · refine ⟨(if IS_BIT_SET sides RIGHT then fs.right else []),
      (if IS_BIT_SET sides BACK then fs.back else []) ++ (if IS_BIT_SET sides FRONT then fs.front else []) ++ (if IS_BIT_SET sides BOTTOM then fs.bottom else []) ++ (if IS_BIT_SET sides TOP then fs.top else []), ?_, ?_⟩
    · simp only [hbit, if_true, Faces.get, List.append_assoc, List.nil_append, List.append_nil]
    · simp only [x1, x2, x3, x4, x5, x6, if_true, Bool.false_eq_true, if_false,
        List.append_assoc, List.nil_append, List.append_nil]
  · refine ⟨(if IS_BIT_SET sides RIGHT then fs.right else []) ++ (if IS_BIT_SET sides LEFT then fs.left else []) ++ (if IS_BIT_SET sides BACK then fs.back else []),
      (if IS_BIT_SET sides BOTTOM then fs.bottom else []) ++ (if IS_BIT_SET sides TOP then fs.top else []), ?_, ?_⟩
    · simp only [hbit, if_true, Faces.get, List.append_assoc, List.nil_append, List.append_nil]
    · simp only [x1, x2, x3, x4, x5, x6, if_true, Bool.false_eq_true, if_false,
        List.append_assoc, List.nil_append, List.append_nil]
  · refine ⟨(if IS_BIT_SET sides RIGHT then fs.right else []) ++ (if IS_BIT_SET sides LEFT then fs.left else []),
      (if IS_BIT_SET sides FRONT then fs.front else []) ++ (if IS_BIT_SET sides BOTTOM then fs.bottom else []) ++ (if IS_BIT_SET sides TOP then fs.top else []), ?_, ?_⟩
    · simp only [hbit, if_true, Faces.get, List.append_assoc, List.nil_append, List.append_nil]
    · simp only [x1, x2, x3, x4, x5, x6, if_true, Bool.false_eq_true, if_false,
        List.append_assoc, List.nil_append, List.append_nil]
  · refine ⟨(if IS_BIT_SET sides RIGHT then fs.right else []) ++ (if IS_BIT_SET sides LEFT then fs.left else []) ++ (if IS_BIT_SET sides BACK then fs.back else []) ++ (if IS_BIT_SET sides FRONT then fs.front else []),
      (if IS_BIT_SET sides TOP then fs.top else []), ?_, ?_⟩
    · simp only [hbit, if_true, Faces.get, List.append_assoc, List.nil_append, List.append_nil]
    · simp only [x1, x2, x3, x4, x5, x6, if_true, Bool.false_eq_true, if_false,
        List.append_assoc, List.nil_append, List.append_nil]
  · refine ⟨(if IS_BIT_SET sides RIGHT then fs.right else []) ++ (if IS_BIT_SET sides LEFT then fs.left else []) ++ (if IS_BIT_SET sides BACK then fs.back else []) ++ (if IS_BIT_SET sides FRONT then fs.front else []) ++ (if IS_BIT_SET sides BOTTOM then fs.bottom else []),
      [], ?_, ?_⟩
    · simp only [hbit, if_true, Faces.get, List.append_assoc, List.nil_append, List.append_nil]
    · simp only [x1, x2, x3, x4, x5, x6, if_true, Bool.false_eq_true, if_false,
        List.append_assoc, List.nil_append, List.append_nil]

/-- Past the early return `make_block` hands the vertex array to `glBufferData`. -/
theorem make_block_uploads (env : BlockEnv F M) (type : BlockType) (m : M) (sides : Nat)
    (gl : GlState F) (hs : sides ≠ 0) (ht : type ≠ BlockType.AIR) :
    GlCall.bufferData (4 * (make_block_vertices env type m sides).length)
        (make_block_vertices env type m sides)
      ∈ (make_block env type m sides gl).2.calls := by
  have hc : ¬ (sides = 0 ∨ type = BlockType.AIR) := fun h => h.elim hs ht
  unfold make_block
  rw [if_neg hc]
  simp [glCall, glGenVertexArrays, glGenBuffers]

end FaceBits


/-! ## The claims -/

section Claims

variable {F M : Type} [Add F] [Sub F] [Neg F] [Div F] [OfScientific F] [NatCast F]

/-! ### C1 -/

/-- C1, as amended: for every block type other than `AIR`, every transform and every
non-zero mask, `make_block` builds a vertex array of `30 * popcount (mask & 0x3F)`
floats, that is `6 * popcount (mask & 0x3F)` vertices of five floats; it stores that
size in `mesh.vertices` and uploads exactly that array with a 5-float stride
(3 position floats at offset 0, 2 UV floats at byte offset 12). -/
theorem make_block_vertex_count (env : BlockEnv F M) (type : BlockType) (m_block_trns : M)
    (sides : Nat) (gl : GlState F) (htype : type ≠ BlockType.AIR) (hsides : sides ≠ 0) :
    (make_block_vertices env type m_block_trns sides).length
        = 5 * (6 * popcount (sides &&& 63)) ∧
    (make_block_vertices env type m_block_trns sides).length
        = 30 * popcount (sides &&& 63) ∧
    (make_block env type m_block_trns sides gl).1.type = type ∧
    (make_block env type m_block_trns sides gl).1.mesh.vertices
        = 30 * popcount (sides &&& 63) ∧
    (make_block env type m_block_trns sides gl).2.calls = gl.calls ++
      [GlCall.genVertexArrays (gl.vaos + 1), GlCall.genBuffers (gl.vbos + 1),
       GlCall.bindVertexArray (gl.vaos + 1), GlCall.bindBuffer (gl.vbos + 1),
       GlCall.bufferData (4 * (make_block_vertices env type m_block_trns sides).length)
         (make_block_vertices env type m_block_trns sides),
       GlCall.vertexAttribPointer 0 3 20 0, GlCall.enableVertexAttribArray 0,
       GlCall.vertexAttribPointer 1 2 20 12, GlCall.enableVertexAttribArray 1,
       GlCall.bindBuffer 0, GlCall.bindVertexArray 0] := by
  have hlen := make_block_vertices_length env type m_block_trns sides
  rw [faceFloats_eq] at hlen
  have hc : ¬ (sides = 0 ∨ type = BlockType.AIR) := fun h => h.elim hsides htype
  refine ⟨by rw [hlen]; ring, hlen, ?_, ?_, ?_⟩
  · unfold make_block
    rw [if_neg hc]
    rfl
  · rw [make_block_mesh_vertices, if_neg hc, faceFloats_eq]
  · unfold make_block
    rw [if_neg hc]
    simp [glCall, glGenVertexArrays, glGenBuffers, Block.ofType]

/-- C1, witness: a `GRASS` block with mask `RIGHT | TOP`. -/
theorem make_block_vertex_count_witness :
    BlockType.GRASS ≠ BlockType.AIR ∧ (33 : Nat) ≠ 0 ∧
    (make_block (exampleEnv 2 stepNoise).toBlockEnv BlockType.GRASS (0, 0, 0) 33 gl0).1.mesh.vertices
      = 30 * popcount (33 &&& 63) ∧
    30 * popcount (33 &&& 63) = 60 :=
  ⟨by decide, by decide,
    (make_block_vertex_count (exampleEnv 2 stepNoise).toBlockEnv BlockType.GRASS (0, 0, 0) 33 gl0
      (by decide) (by decide)).2.2.2.1, by decide⟩

/-- C1, counterexample: the non-zero 8-bit mask `0x40` on a `GRASS` block makes
`make_block` emit no float at all, while `30 * popcount 0x40` is 30. -/
theorem make_block_vertex_count_counterexample :
    BlockType.GRASS ≠ BlockType.AIR ∧ (64 : Nat) ≠ 0 ∧ (64 : Nat) < 256 ∧
    (make_block (exampleEnv 2 stepNoise).toBlockEnv BlockType.GRASS (0, 0, 0) 64 gl0).1.mesh.vertices
      = 0 ∧
    make_block_vertices (exampleEnv 2 stepNoise).toBlockEnv BlockType.GRASS (0, 0, 0) 64 = [] ∧
    30 * popcount 64 = 30 := by
  decide

/-! ### C2 -/

/-- C2: for every transform, if the type is `AIR` or the mask is 0, `make_block` returns
`Block(AIR)` (type `AIR`, empty vertex vector, zero vertex count, no object names) and
leaves the OpenGL state as it was: no name generated, no call made. -/
theorem make_block_air_or_empty (env : BlockEnv F M) (type : BlockType) (m_block_trns : M)
    (sides : Nat) (gl : GlState F) (h : type = BlockType.AIR ∨ sides = 0) :
    (make_block env type m_block_trns sides gl).1.type = BlockType.AIR ∧
    (make_block env type m_block_trns sides gl).1.vertices = [] ∧
    (make_block env type m_block_trns sides gl).1.mesh = { vertices := 0, vao := 0, vbo := 0 } ∧
    (make_block env type m_block_trns sides gl).2 = gl := by
  have hc : sides = 0 ∨ type = BlockType.AIR := h.symm
  unfold make_block
  rw [if_pos hc]
  exact ⟨rfl, rfl, rfl, rfl⟩

/-- C2, witness: a `GRASS` block with an empty mask. -/
theorem make_block_air_or_empty_witness :
    (BlockType.GRASS = BlockType.AIR ∨ (0 : Nat) = 0) ∧
    (make_block (exampleEnv 2 stepNoise).toBlockEnv BlockType.GRASS (0, 0, 0) 0 gl0).1.type
      = BlockType.AIR ∧
    (make_block (exampleEnv 2 stepNoise).toBlockEnv BlockType.GRASS (0, 0, 0) 0 gl0).2 = gl0 :=
  ⟨Or.inr rfl,
    (make_block_air_or_empty (exampleEnv 2 stepNoise).toBlockEnv BlockType.GRASS (0, 0, 0) 0 gl0
      (Or.inr rfl)).1,
    (make_block_air_or_empty (exampleEnv 2 stepNoise).toBlockEnv BlockType.GRASS (0, 0, 0) 0 gl0
      (Or.inr rfl)).2.2.2⟩

/-! ### C3 -/

/-- C3: when every interior column of the padded height grid is below `chunk_size`,
`make_chunk` runs without fault and, for every interior column `(x, y)` (padded
coordinates `1 .. chunk_size`), each side bit of the surface cell
`tmp_data[z][y-1][x-1]`, `z = heights[y][x]`, is set exactly when `z` is strictly
greater than the neighbour's height: FRONT against `heights[y][x-1]`, BACK against
`heights[y][x+1]`, LEFT against `heights[y-1][x]`, RIGHT against `heights[y+1][x]`. -/
theorem side_face_exposure (env : ChunkEnv F M) (location : Int × Int × Int) (faces : Nat)
    (gl : GlState F) (hn : 1 < env.chunk_size)
    (hh : ∀ y x, 1 ≤ y ∧ y ≤ env.chunk_size → 1 ≤ x ∧ x ≤ env.chunk_size →
      (make_chunk env location faces gl).heights y x < env.chunk_size) :
    (make_chunk env location faces gl).fault = none ∧
    ∀ y x, 1 ≤ y ∧ y ≤ env.chunk_size → 1 ≤ x ∧ x ≤ env.chunk_size →
      (IS_BIT_SET ((make_chunk env location faces gl).tmp_data
          ((make_chunk env location faces gl).heights y x) (y - 1) (x - 1)).faces FRONT = true ↔
        (make_chunk env location faces gl).heights y x
          > (make_chunk env location faces gl).heights y (x - 1)) ∧
      (IS_BIT_SET ((make_chunk env location faces gl).tmp_data
          ((make_chunk env location faces gl).heights y x) (y - 1) (x - 1)).faces BACK = true ↔
        (make_chunk env location faces gl).heights y x
          > (make_chunk env location faces gl).heights y (x + 1)) ∧
      (IS_BIT_SET ((make_chunk env location faces gl).tmp_data
          ((make_chunk env location faces gl).heights y x) (y - 1) (x - 1)).faces LEFT = true ↔
        (make_chunk env location faces gl).heights y x
          > (make_chunk env location faces gl).heights (y - 1) x) ∧
      (IS_BIT_SET ((make_chunk env location faces gl).tmp_data
          ((make_chunk env location faces gl).heights y x) (y - 1) (x - 1)).faces RIGHT = true ↔
        (make_chunk env location faces gl).heights y x
          > (make_chunk env location faces gl).heights (y + 1) x) := by
  obtain ⟨hf, ht⟩ := make_chunk_tmp env location faces gl hn hh
  refine ⟨hf, ?_⟩
  intro y x hy hx
  have hz := hh y x hy hx
  have h0 : 0 ≤ (make_chunk env location faces gl).heights y x := by
    rw [make_chunk_heights env location faces gl hn]
    exact sampled_heights_nonneg env location y x
  have hin : in_extent env.chunk_size ((make_chunk env location faces gl).heights y x) ∧
      in_extent env.chunk_size (y - 1) ∧ in_extent env.chunk_size (x - 1) := by
    unfold in_extent; omega
  obtain ⟨-, -, b3, b4, b5, b6⟩ :=
    surface_faces_bits (make_chunk env location faces gl).heights y x
  rw [ht]
  simp only [filled_tmp_data, if_pos hin, column_cell, sub_add_cancel, if_true]
  exact ⟨b3, b4, b5, b6⟩

/-- C3, witness: the raised column of `stepRun` (height 1, both x-neighbours at
height 0) has FRONT and BACK set and LEFT and RIGHT clear. -/
theorem side_face_exposure_witness :
    (1 : Int) < 2 ∧
    (∀ y x : Int, 1 ≤ y ∧ y ≤ 2 → 1 ≤ x ∧ x ≤ 2 → stepRun.heights y x < 2) ∧
    stepRun.heights 1 1 = 1 ∧ stepRun.heights 1 0 = 0 ∧
    (IS_BIT_SET (stepRun.tmp_data (stepRun.heights 1 1) (1 - 1) (1 - 1)).faces FRONT = true ↔
      stepRun.heights 1 1 > stepRun.heights 1 (1 - 1)) ∧
    IS_BIT_SET (stepRun.tmp_data 1 0 0).faces FRONT = true :=
  ⟨by decide,
    make_chunk_heights_lt (exampleEnv 2 stepNoise) (0, 0, 0) 0 gl0 (by decide) stepNoise_bounds,
    by decide, by decide,
    ((side_face_exposure (exampleEnv 2 stepNoise) (0, 0, 0) 0 gl0 (by decide)
      (make_chunk_heights_lt (exampleEnv 2 stepNoise) (0, 0, 0) 0 gl0 (by decide)
        stepNoise_bounds)).2 1 1 (by decide) (by decide)).1,
    by decide⟩

/-! ### C4 -/

/-- C4: when every interior column of the padded height grid is below `chunk_size`,
`make_chunk` runs without fault and, for every interior column `(x, y)` of height
`z = heights[y][x]` and every index `i` in `[0, chunk_size)`, the cell
`tmp_data[i][y-1][x-1]` has type `GRASS` when `i ≤ z` and `AIR` when `i > z`. -/
theorem terrain_rule (env : ChunkEnv F M) (location : Int × Int × Int) (faces : Nat)
    (gl : GlState F) (hn : 1 < env.chunk_size)
    (hh : ∀ y x, 1 ≤ y ∧ y ≤ env.chunk_size → 1 ≤ x ∧ x ≤ env.chunk_size →
      (make_chunk env location faces gl).heights y x < env.chunk_size) :
    (make_chunk env location faces gl).fault = none ∧
    ∀ y x i, 1 ≤ y ∧ y ≤ env.chunk_size → 1 ≤ x ∧ x ≤ env.chunk_size →
      0 ≤ i ∧ i < env.chunk_size →
      (i ≤ (make_chunk env location faces gl).heights y x →
        ((make_chunk env location faces gl).tmp_data i (y - 1) (x - 1)).type
          = BlockType.GRASS) ∧
      (i > (make_chunk env location faces gl).heights y x →
        ((make_chunk env location faces gl).tmp_data i (y - 1) (x - 1)).type
          = BlockType.AIR) := by
  obtain ⟨hf, ht⟩ := make_chunk_tmp env location faces gl hn hh
  refine ⟨hf, ?_⟩
  intro y x i hy hx hi
  have hin : in_extent env.chunk_size i ∧
      in_extent env.chunk_size (y - 1) ∧ in_extent env.chunk_size (x - 1) := by
    unfold in_extent; omega
  rw [ht]
  simp only [filled_tmp_data, if_pos hin, column_cell, sub_add_cancel]
  constructor
  · intro hle
    rw [if_neg (by omega)]
  · intro hgt
    rw [if_pos hgt]

/-- C4, witness: in the raised column of `stepRun` (height 1) cells 0 and 1 are
`GRASS`; in the column next to it (height 0) cell 1 is `AIR`. -/
theorem terrain_rule_witness :
    (1 : Int) < 2 ∧
    (∀ y x : Int, 1 ≤ y ∧ y ≤ 2 → 1 ≤ x ∧ x ≤ 2 → stepRun.heights y x < 2) ∧
    stepRun.heights 1 1 = 1 ∧ stepRun.heights 1 2 = 0 ∧
    (stepRun.tmp_data 0 (1 - 1) (1 - 1)).type = BlockType.GRASS ∧
    (stepRun.tmp_data 1 (1 - 1) (2 - 1)).type = BlockType.AIR :=
  ⟨by decide,
    make_chunk_heights_lt (exampleEnv 2 stepNoise) (0, 0, 0) 0 gl0 (by decide) stepNoise_bounds,
    by decide, by decide,
    ((terrain_rule (exampleEnv 2 stepNoise) (0, 0, 0) 0 gl0 (by decide)
      (make_chunk_heights_lt (exampleEnv 2 stepNoise) (0, 0, 0) 0 gl0 (by decide)
        stepNoise_bounds)).2 1 1 0 (by decide) (by decide) (by decide)).1 (by decide),
    ((terrain_rule (exampleEnv 2 stepNoise) (0, 0, 0) 0 gl0 (by decide)
      (make_chunk_heights_lt (exampleEnv 2 stepNoise) (0, 0, 0) 0 gl0 (by decide)
        stepNoise_bounds)).2 1 2 1 (by decide) (by decide) (by decide)).2 (by decide)⟩

/-! ### C5 -/

/-- C5, as amended: when every interior column of the padded height grid is below
`chunk_size`, `make_chunk` runs without fault and, for every interior column `(x, y)`
of height `z`, the surface cell `tmp_data[z][y-1][x-1]` has the TOP bit, the cell
`tmp_data[0][y-1][x-1]` at the foot of the column has the BOTTOM bit, and the surface
cell has the BOTTOM bit exactly when `z = 0`. -/
theorem top_and_bottom_bits (env : ChunkEnv F M) (location : Int × Int × Int) (faces : Nat)
    (gl : GlState F) (hn : 1 < env.chunk_size)
    (hh : ∀ y x, 1 ≤ y ∧ y ≤ env.chunk_size → 1 ≤ x ∧ x ≤ env.chunk_size →
      (make_chunk env location faces gl).heights y x < env.chunk_size) :
    (make_chunk env location faces gl).fault = none ∧
    ∀ y x, 1 ≤ y ∧ y ≤ env.chunk_size → 1 ≤ x ∧ x ≤ env.chunk_size →
      IS_BIT_SET ((make_chunk env location faces gl).tmp_data
          ((make_chunk env location faces gl).heights y x) (y - 1) (x - 1)).faces TOP = true ∧
      IS_BIT_SET ((make_chunk env location faces gl).tmp_data 0 (y - 1) (x - 1)).faces BOTTOM
        = true ∧
      (IS_BIT_SET ((make_chunk env location faces gl).tmp_data
          ((make_chunk env location faces gl).heights y x) (y - 1) (x - 1)).faces BOTTOM = true ↔
        (make_chunk env location faces gl).heights y x = 0) := by
  obtain ⟨hf, ht⟩ := make_chunk_tmp env location faces gl hn hh
  refine ⟨hf, ?_⟩
  intro y x hy hx
  have hz := hh y x hy hx
  have h0 : 0 ≤ (make_chunk env location faces gl).heights y x := by
    rw [make_chunk_heights env location faces gl hn]
    exact sampled_heights_nonneg env location y x
  have hin : in_extent env.chunk_size ((make_chunk env location faces gl).heights y x) ∧
      in_extent env.chunk_size (y - 1) ∧ in_extent env.chunk_size (x - 1) := by
    unfold in_extent; omega
  have hin0 : in_extent env.chunk_size 0 ∧
      in_extent env.chunk_size (y - 1) ∧ in_extent env.chunk_size (x - 1) := by
    unfold in_extent; omega
  obtain ⟨b1, b2, -⟩ := surface_faces_bits (make_chunk env location faces gl).heights y x
  rw [ht]
  simp only [filled_tmp_data, if_pos hin, if_pos hin0, column_cell, sub_add_cancel, if_true]
  refine ⟨b1, ?_, b2⟩
  by_cases hz0 : (0 : Int) = (make_chunk env location faces gl).heights y x
  · rw [if_pos hz0]
    exact b2.mpr hz0.symm
  · rw [if_neg hz0]
    decide

/-- C5, witness of the amended statement on `flatRun 2 1`. -/
theorem top_and_bottom_bits_witness :
    (1 : Int) < 2 ∧
    (∀ y x : Int, 1 ≤ y ∧ y ≤ 2 → 1 ≤ x ∧ x ≤ 2 → (flatRun 2 1).heights y x < 2) ∧
    IS_BIT_SET ((flatRun 2 1).tmp_data ((flatRun 2 1).heights 1 1) (1 - 1) (1 - 1)).faces TOP
      = true ∧
    IS_BIT_SET ((flatRun 2 1).tmp_data 0 (1 - 1) (1 - 1)).faces BOTTOM = true :=
  ⟨by decide,
    make_chunk_heights_lt (exampleEnv 2 (fun _ _ => 1)) (0, 0, 0) 0 gl0 (by decide)
      (flat_bounds 2 1 (by decide) (by decide)),
    ((top_and_bottom_bits (exampleEnv 2 (fun _ _ => 1)) (0, 0, 0) 0 gl0 (by decide)
      (make_chunk_heights_lt (exampleEnv 2 (fun _ _ => 1)) (0, 0, 0) 0 gl0 (by decide)
        (flat_bounds 2 1 (by decide) (by decide)))).2 1 1 (by decide) (by decide)).1,
    ((top_and_bottom_bits (exampleEnv 2 (fun _ _ => 1)) (0, 0, 0) 0 gl0 (by decide)
      (make_chunk_heights_lt (exampleEnv 2 (fun _ _ => 1)) (0, 0, 0) 0 gl0 (by decide)
        (flat_bounds 2 1 (by decide) (by decide)))).2 1 1 (by decide) (by decide)).2.1⟩

/-- C5, counterexample: chunk size 2 over the flat height 1; the surface cell of the
first column is at index 1 and its mask has TOP but not BOTTOM. -/
theorem top_and_bottom_bits_counterexample :
    (flatRun 2 1).fault = none ∧ (flatRun 2 1).heights 1 1 = 1 ∧
    IS_BIT_SET ((flatRun 2 1).tmp_data ((flatRun 2 1).heights 1 1) 0 0).faces TOP = true ∧
    IS_BIT_SET ((flatRun 2 1).tmp_data ((flatRun 2 1).heights 1 1) 0 0).faces BOTTOM = false := by
  decide

/-! ### C6 -/

/-- C6, as amended: when every interior column of the padded height grid is below
`chunk_size`, `make_chunk` runs without fault and, for every interior column `(x, y)`
of height `z`, every cell of the column other than the surface cell (index `z`) and
the foot cell (index 0) has mask 0, and the foot cell, when it is not the surface
cell, has mask exactly `BOTTOM`. -/
theorem non_surface_masks (env : ChunkEnv F M) (location : Int × Int × Int) (faces : Nat)
    (gl : GlState F) (hn : 1 < env.chunk_size)
    (hh : ∀ y x, 1 ≤ y ∧ y ≤ env.chunk_size → 1 ≤ x ∧ x ≤ env.chunk_size →
      (make_chunk env location faces gl).heights y x < env.chunk_size) :
    (make_chunk env location faces gl).fault = none ∧
    ∀ y x i, 1 ≤ y ∧ y ≤ env.chunk_size → 1 ≤ x ∧ x ≤ env.chunk_size →
      0 ≤ i ∧ i < env.chunk_size →
      i ≠ (make_chunk env location faces gl).heights y x →
      (i ≠ 0 → ((make_chunk env location faces gl).tmp_data i (y - 1) (x - 1)).faces = 0) ∧
      (i = 0 → ((make_chunk env location faces gl).tmp_data i (y - 1) (x - 1)).faces = BOTTOM) := by
  obtain ⟨hf, ht⟩ := make_chunk_tmp env location faces gl hn hh
  refine ⟨hf, ?_⟩
  intro y x i hy hx hi hne
  have hin : in_extent env.chunk_size i ∧
      in_extent env.chunk_size (y - 1) ∧ in_extent env.chunk_size (x - 1) := by
    unfold in_extent; omega
  rw [ht]
  simp only [filled_tmp_data, if_pos hin, column_cell, sub_add_cancel, if_neg hne]
  constructor
  · intro h0
    rw [if_neg h0]
  · intro h0
    rw [if_pos h0]
    decide

/-- C6, witness of the amended statement on `flatRun 2 1`: the foot cell of the first
column, which is not its surface cell, has mask `BOTTOM`. -/
theorem non_surface_masks_witness :
    (1 : Int) < 2 ∧
    (∀ y x : Int, 1 ≤ y ∧ y ≤ 2 → 1 ≤ x ∧ x ≤ 2 → (flatRun 2 1).heights y x < 2) ∧
    (0 : Int) ≠ (flatRun 2 1).heights 1 1 ∧
    ((flatRun 2 1).tmp_data 0 (1 - 1) (1 - 1)).faces = BOTTOM :=
  ⟨by decide,
    make_chunk_heights_lt (exampleEnv 2 (fun _ _ => 1)) (0, 0, 0) 0 gl0 (by decide)
      (flat_bounds 2 1 (by decide) (by decide)),
    by decide,
    ((non_surface_masks (exampleEnv 2 (fun _ _ => 1)) (0, 0, 0) 0 gl0 (by decide)
      (make_chunk_heights_lt (exampleEnv 2 (fun _ _ => 1)) (0, 0, 0) 0 gl0 (by decide)
        (flat_bounds 2 1 (by decide) (by decide)))).2 1 1 0 (by decide) (by decide) (by decide) (by decide)).2 rfl⟩

/-- C6, counterexample: chunk size 2 over the flat height 1; the cell at index 0 of the
first column is not the surface cell (index 1), yet its mask is `BOTTOM`, not 0. -/
theorem non_surface_masks_counterexample :
    (flatRun 2 1).fault = none ∧ (flatRun 2 1).heights 1 1 = 1 ∧
    ((flatRun 2 1).tmp_data 0 0 0).faces = 16 ∧ ((flatRun 2 1).tmp_data 0 0 0).faces ≠ 0 := by
  decide

/-! ### C7 -/

/-- C7: with `chunk_size ≤ 1` the run of `make_chunk` stops at the `assert`, before any
call of `octave_perlin` and before any OpenGL call; with `chunk_size > 1` the run
does not stop at the `assert`. -/
theorem chunk_size_assert (env : ChunkEnv F M) (location : Int × Int × Int) (faces : Nat)
    (gl : GlState F) :
    (env.chunk_size ≤ 1 →
      (make_chunk env location faces gl).fault = some Fault.assertion ∧
      (make_chunk env location faces gl).samples = [] ∧
      (make_chunk env location faces gl).gl = gl) ∧
    (1 < env.chunk_size →
      (make_chunk env location faces gl).fault ≠ some Fault.assertion) := by
  constructor
  · intro h
    have hc : ¬ (env.chunk_size > 1) := by omega
    unfold make_chunk
    simp only [hc, not_false_eq_true, if_true, and_self]
  · intro hn
    rw [make_chunk_unfold env location faces gl hn]
    obtain ⟨g, B, e, -⟩ := build_blocks_spec env location (fill_tmp_data env.chunk_size
      (sample_heights env location
          { fault := none, samples := [], gl := gl,
            heights := fun _ _ => 0, tmp_data := fun _ _ _ => BlockData.init,
            location := location, faces := faces, blocks := fun _ _ _ => none })) (by omega)
    rw [e]
    show (fill_tmp_data env.chunk_size _).fault ≠ some Fault.assertion
    refine fill_tmp_data_preserves (fun t => t.fault ≠ some Fault.assertion) ?_
      (fun s T h => h) _ _ ?_
    · intro s hs
      unfold ChunkState.fail
      cases hf : s.fault with
      | none => simp
      | some f =>
        rw [hf] at hs
        simpa using hs
    · obtain ⟨l, e1⟩ := sample_heights_eq env location
        { fault := none, samples := [], gl := gl,
          heights := fun _ _ => 0, tmp_data := fun _ _ _ => BlockData.init,
          location := location, faces := faces, blocks := fun _ _ _ => none } (by omega)
      rw [e1]
      simp

/-- C7, witness: chunk size 1 stops at the `assert` with no sample taken; chunk size 2
does not stop there. -/
theorem chunk_size_assert_witness :
    (exampleEnv 1 stepNoise).chunk_size ≤ 1 ∧ 1 < (exampleEnv 2 stepNoise).chunk_size ∧
    (make_chunk (exampleEnv 1 stepNoise) (0, 0, 0) 0 gl0).fault = some Fault.assertion ∧
    (make_chunk (exampleEnv 1 stepNoise) (0, 0, 0) 0 gl0).samples = [] ∧
    (make_chunk (exampleEnv 2 stepNoise) (0, 0, 0) 0 gl0).fault ≠ some Fault.assertion :=
  ⟨by decide, by decide,
    ((chunk_size_assert (exampleEnv 1 stepNoise) (0, 0, 0) 0 gl0).1 (by decide)).1,
    ((chunk_size_assert (exampleEnv 1 stepNoise) (0, 0, 0) 0 gl0).1 (by decide)).2.1,
    (chunk_size_assert (exampleEnv 2 stepNoise) (0, 0, 0) 0 gl0).2 (by decide)⟩

/-! ### C8 -/

/-- C8: over a flat padded height grid (every sample equal to `h`, `0 ≤ h < chunk_size`)
`make_chunk` runs without fault and the blocks it builds hold
`chunk_size ^ 2 * 2 * 6` vertices in total (`mesh.vertices / 5` summed over all cells). -/
theorem flat_chunk_vertex_count (env : ChunkEnv F M) (location : Int × Int × Int)
    (faces : Nat) (gl : GlState F) (h : Int) (hn : 1 < env.chunk_size)
    (h0 : 0 ≤ h) (hlt : h < env.chunk_size)
    (hflat : ∀ k j, 0 ≤ k ∧ k < env.chunk_size + 2 → 0 ≤ j ∧ j < env.chunk_size + 2 →
      (make_chunk env location faces gl).heights k j = h) :
    (make_chunk env location faces gl).fault = none ∧
    chunk_vertex_count env.chunk_size (make_chunk env location faces gl)
      = env.chunk_size.toNat ^ 2 * 2 * 6 := by
  have hh : ∀ y x, 1 ≤ y ∧ y ≤ env.chunk_size → 1 ≤ x ∧ x ≤ env.chunk_size →
      (make_chunk env location faces gl).heights y x < env.chunk_size := by
    intro y x hy hx
    rw [hflat y x (by omega) (by omega)]
    exact hlt
  have hH := make_chunk_heights env location faces gl hn
  obtain ⟨l, g, B, e, hB⟩ := make_chunk_ok env location faces gl hn (by rw [← hH]; exact hh)
  rw [← hH] at e hB
  refine ⟨by rw [e], ?_⟩
  have cell : ∀ z y x : Nat, z < env.chunk_size.toNat → y < env.chunk_size.toNat →
      x < env.chunk_size.toNat →
      block_vertex_count ((make_chunk env location faces gl).blocks z y x) =
        if (z : Int) = h then (if h = 0 then 12 else 6) else if (z : Int) = 0 then 6 else 0 := by
    intro z y x hz hy hx
    have hin : in_extent env.chunk_size z ∧ in_extent env.chunk_size y ∧
        in_extent env.chunk_size x := by
      unfold in_extent; omega
    obtain ⟨g1, hg1⟩ := hB z y x (by
      unfold lex_before
      refine ⟨hin.1, hin.2.1, hin.2.2, ?_⟩
      left
      have := hin.1.2
      exact this)
    have eb : (make_chunk env location faces gl).blocks z y x = B z y x := by rw [e]
    rw [eb, hg1]
    unfold block_vertex_count
    simp only []
    rw [make_block_mesh_vertices]
    simp only [filled_tmp_data, if_pos hin, column_cell]
    have f0 := hflat (y + 1) (x + 1) (by omega) (by omega)
    have fs := surface_faces_flat (make_chunk env location faces gl).heights (y + 1) (x + 1) h f0
      (hflat _ _ (by omega) (by omega)) (hflat _ _ (by omega) (by omega))
      (hflat _ _ (by omega) (by omega)) (hflat _ _ (by omega) (by omega))
    rw [fs, f0]
    by_cases c1 : (z : Int) = h
    · have c2 : ¬ ((z : Int) > h) := by omega
      by_cases c3 : h = 0
      · simp only [c1, c3, if_true, gt_iff_lt, lt_self_iff_false, if_false]
        decide
      · simp only [c1, c3, if_true, gt_iff_lt, lt_self_iff_false, if_false]
        decide
    · by_cases c3 : (z : Int) = 0
      · have c1z : ¬ ((0 : Int) = h) := by omega
        have c4 : ¬ ((0 : Int) > h) := by omega
        rw [c3]
        simp only [c1z, c4, if_true, if_false]
        decide
      · simp only [c1, c3, if_false]
        simp
  unfold chunk_vertex_count
  rw [Finset.sum_congr rfl (fun z hz => Finset.sum_congr rfl (fun y hy =>
    Finset.sum_congr rfl (fun x hx => cell z y x (Finset.mem_range.mp hz)
      (Finset.mem_range.mp hy) (Finset.mem_range.mp hx))))]
  simp only [Finset.sum_const, Finset.card_range, smul_eq_mul]
  rw [← Finset.mul_sum, ← Finset.mul_sum,
    flat_column_sum env.chunk_size.toNat h h0 (by
      have : ((env.chunk_size.toNat : Nat) : Int) = env.chunk_size := Int.toNat_of_nonneg (by omega)
      omega)]
  ring

/-- C8, witness: chunk size 4 over the flat height 2 gives 192 vertices. -/
theorem flat_chunk_vertex_count_witness :
    (1 : Int) < 4 ∧ (0 : Int) ≤ 2 ∧ (2 : Int) < 4 ∧
    (∀ k j : Int, 0 ≤ k ∧ k < 4 + 2 → 0 ≤ j ∧ j < 4 + 2 → (flatRun 4 2).heights k j = 2) ∧
    chunk_vertex_count 4 (flatRun 4 2) = 4 ^ 2 * 2 * 6 ∧
    chunk_vertex_count 4 (flatRun 4 2) = 192 :=
  ⟨by decide, by decide, by decide,
    flatRun_heights 4 2 (by decide) (by decide) (by decide),
    (flat_chunk_vertex_count (exampleEnv 4 (fun _ _ => 2)) (0, 0, 0) 0 gl0 2 (by decide)
      (by decide) (by decide) (flatRun_heights 4 2 (by decide) (by decide) (by decide))).2,
    (flat_chunk_vertex_count (exampleEnv 4 (fun _ _ => 2)) (0, 0, 0) 0 gl0 2 (by decide)
      (by decide) (by decide) (flatRun_heights 4 2 (by decide) (by decide) (by decide))).2⟩

/-! ### C9 -/

/-- C9: when every interior column of the padded height grid is below `chunk_size`,
`make_chunk` runs without fault and, for an interior column A at `(x, y)` and its
FRONT neighbour B at `(x - 1, y)`: if A is strictly higher than B then A's surface
cell has the FRONT bit, and, B being interior too, B's surface cell does not have the
BACK bit; the FRONT bit of A and the BACK bit of B are never both set; and likewise
the LEFT bit of A and the RIGHT bit of its LEFT neighbour `(x, y - 1)` are never both
set. -/
theorem facing_sides_exclusive (env : ChunkEnv F M) (location : Int × Int × Int)
    (faces : Nat) (gl : GlState F) (hn : 1 < env.chunk_size)
    (hh : ∀ y x, 1 ≤ y ∧ y ≤ env.chunk_size → 1 ≤ x ∧ x ≤ env.chunk_size →
      (make_chunk env location faces gl).heights y x < env.chunk_size) :
    (make_chunk env location faces gl).fault = none ∧
    (∀ y x, 1 ≤ y ∧ y ≤ env.chunk_size → 1 ≤ x ∧ x ≤ env.chunk_size →
      (make_chunk env location faces gl).heights y x
        > (make_chunk env location faces gl).heights y (x - 1) →
      IS_BIT_SET ((make_chunk env location faces gl).tmp_data
        ((make_chunk env location faces gl).heights y x) (y - 1) (x - 1)).faces FRONT = true) ∧
    (∀ y x, 1 ≤ y ∧ y ≤ env.chunk_size → 2 ≤ x ∧ x ≤ env.chunk_size →
      ((make_chunk env location faces gl).heights y x
          > (make_chunk env location faces gl).heights y (x - 1) →
        IS_BIT_SET ((make_chunk env location faces gl).tmp_data
          ((make_chunk env location faces gl).heights y (x - 1)) (y - 1) (x - 1 - 1)).faces BACK
          = false) ∧
      ¬ (IS_BIT_SET ((make_chunk env location faces gl).tmp_data
          ((make_chunk env location faces gl).heights y x) (y - 1) (x - 1)).faces FRONT = true ∧
        IS_BIT_SET ((make_chunk env location faces gl).tmp_data
          ((make_chunk env location faces gl).heights y (x - 1)) (y - 1) (x - 1 - 1)).faces BACK
          = true)) ∧
    (∀ y x, 2 ≤ y ∧ y ≤ env.chunk_size → 1 ≤ x ∧ x ≤ env.chunk_size →
      ¬ (IS_BIT_SET ((make_chunk env location faces gl).tmp_data
          ((make_chunk env location faces gl).heights y x) (y - 1) (x - 1)).faces LEFT = true ∧
        IS_BIT_SET ((make_chunk env location faces gl).tmp_data
          ((make_chunk env location faces gl).heights (y - 1) x) (y - 1 - 1) (x - 1)).faces RIGHT
          = true)) := by
  obtain ⟨hf, -⟩ := make_chunk_tmp env location faces gl hn hh
  refine ⟨hf, ?_, ?_, ?_⟩
  · intro y x hy hx hgt
    rw [surface_cell_faces env location faces gl hn hh y x hy hx]
    exact (surface_faces_bits _ y x).2.2.1.mpr hgt
  · intro y x hy hx
    have eA := surface_cell_faces env location faces gl hn hh y x hy ⟨by omega, hx.2⟩
    have eB := surface_cell_faces env location faces gl hn hh y (x - 1) hy
      ⟨by omega, by omega⟩
    have bA := (surface_faces_bits (make_chunk env location faces gl).heights y x).2.2.1
    have bB := (surface_faces_bits (make_chunk env location faces gl).heights y (x - 1)).2.2.2.1
    rw [sub_add_cancel] at bB
    rw [eA, eB]
    constructor
    · intro hgt
      cases hb : IS_BIT_SET (surface_faces (make_chunk env location faces gl).heights y (x - 1)) BACK
      · rfl
      · have := bB.mp hb
        omega
    · rintro ⟨h1, h2⟩
      have := bA.mp h1
      have := bB.mp h2
      omega
  · intro y x hy hx
    have eA := surface_cell_faces env location faces gl hn hh y x ⟨by omega, hy.2⟩ hx
    have eB := surface_cell_faces env location faces gl hn hh (y - 1) x
      ⟨by omega, by omega⟩ hx
    have bA := (surface_faces_bits (make_chunk env location faces gl).heights y x).2.2.2.2.1
    have bB := (surface_faces_bits (make_chunk env location faces gl).heights (y - 1) x).2.2.2.2.2
    rw [sub_add_cancel] at bB
    rw [eA, eB]
    rintro ⟨h1, h2⟩
    have := bA.mp h1
    have := bB.mp h2
    omega

/-- C9, witness: in `stepRun` column `(2, 1)` (height 0) has the raised column
`(1, 1)` (height 1) as its FRONT neighbour; the raised column has its BACK bit and
column `(2, 1)` has no FRONT bit, so the two facing bits are not both set. -/
theorem facing_sides_exclusive_witness :
    (1 : Int) < 2 ∧
    (∀ y x : Int, 1 ≤ y ∧ y ≤ 2 → 1 ≤ x ∧ x ≤ 2 → stepRun.heights y x < 2) ∧
    ¬ (IS_BIT_SET (stepRun.tmp_data (stepRun.heights 1 2) (1 - 1) (2 - 1)).faces FRONT = true ∧
        IS_BIT_SET (stepRun.tmp_data (stepRun.heights 1 (2 - 1)) (1 - 1) (2 - 1 - 1)).faces BACK
          = true) ∧
    IS_BIT_SET (stepRun.tmp_data 1 0 0).faces BACK = true ∧
    IS_BIT_SET (stepRun.tmp_data 0 0 1).faces FRONT = false :=
  ⟨by decide,
    make_chunk_heights_lt (exampleEnv 2 stepNoise) (0, 0, 0) 0 gl0 (by decide) stepNoise_bounds,
    ((facing_sides_exclusive (exampleEnv 2 stepNoise) (0, 0, 0) 0 gl0 (by decide)
      (make_chunk_heights_lt (exampleEnv 2 stepNoise) (0, 0, 0) 0 gl0 (by decide)
        stepNoise_bounds)).2.2.1 1 2 (by decide) (by decide)).2,
    by decide, by decide⟩

/-! ### C10 -/

/-- C10, counterexample: chunk size 3 and the chunk locations `5592407` and `5592406`
in `x`, over `ridgeNoise`.  The product `5592407 * 3 = 16777221` is no `float` and
rounds to `16777220`; the sum `-16777220 + 3` rounds to `-16777216`.  So the padding
column `x = chunk_size` of chunk `5592407` is sampled at `-16777216`, while interior
column `x = 0` of chunk `5592406` is sampled at `-16777218`, and the two runs, both
free of faults, store the heights 2 and 0 there. -/
theorem padded_heights_agree_counterexample :
    (1 : Int) < (exampleEnv 3 ridgeNoise).chunk_size ∧
    float32_round 5592407 = 5592407 ∧ float32_round (5592407 - 1) = 5592407 - 1 ∧
    sample_x 3 (5592407, 0, 0) 3 = -16777216 ∧
    sample_x 3 (5592407 - 1, 0, 0) 0 = -16777218 ∧
    (make_chunk (exampleEnv 3 ridgeNoise) (5592407, 0, 0) 0 gl0).fault = none ∧
    (make_chunk (exampleEnv 3 ridgeNoise) (5592407 - 1, 0, 0) 0 gl0).fault = none ∧
    (make_chunk (exampleEnv 3 ridgeNoise) (5592407, 0, 0) 0 gl0).heights 1 (3 + 1) = 2 ∧
    (make_chunk (exampleEnv 3 ridgeNoise) (5592407 - 1, 0, 0) 0 gl0).heights 1 1 = 0 := by
  decide

/-- C10, as amended: for every height sampler, every `chunk_size > 1` and every chunk
location `(cx, cy)` with `(|cx| + 2) * chunk_size ≤ 2 ^ 24` and
`(|cy| + 2) * chunk_size ≤ 2 ^ 24` (so that the world coordinates of the chunk and of
its neighbours are computed without rounding), padded row by padded row `k`, the
height grid of chunk `(cx, cy)` agrees with the grids of its neighbours on the shared
columns: padding column `x = chunk_size` (index `chunk_size + 1`) with interior column
`x = 0` (index 1) of chunk `(cx - 1, cy)`, padding column `x = -1` (index 0) with
interior column `x = chunk_size - 1` (index `chunk_size`) of chunk `(cx + 1, cy)`,
padding row `y = chunk_size` with interior row 0 of chunk `(cx, cy + 1)`, and padding
row `y = -1` with interior row `chunk_size - 1` of chunk `(cx, cy - 1)`. -/
theorem padded_heights_agree (env : ChunkEnv F M) (cx cy cz cz1 : Int) (faces faces1 : Nat)
    (gl gl1 : GlState F) (hn : 1 < env.chunk_size)
    (hcx : (|cx| + 2) * env.chunk_size ≤ 2 ^ 24)
    (hcy : (|cy| + 2) * env.chunk_size ≤ 2 ^ 24)
    (k : Int) (hk : 0 ≤ k ∧ k < env.chunk_size + 2) :
    (make_chunk env (cx, cy, cz) faces gl).heights k (env.chunk_size + 1)
      = (make_chunk env (cx - 1, cy, cz1) faces1 gl1).heights k 1 ∧
    (make_chunk env (cx, cy, cz) faces gl).heights k 0
      = (make_chunk env (cx + 1, cy, cz1) faces1 gl1).heights k env.chunk_size ∧
    (make_chunk env (cx, cy, cz) faces gl).heights (env.chunk_size + 1) k
      = (make_chunk env (cx, cy + 1, cz1) faces1 gl1).heights 1 k ∧
    (make_chunk env (cx, cy, cz) faces gl).heights 0 k
      = (make_chunk env (cx, cy - 1, cz1) faces1 gl1).heights env.chunk_size k := by
  have hn0 : 0 ≤ env.chunk_size := by omega
  have bound : ∀ c d : Int, |d| ≤ |c| + 1 → (|c| + 2) * env.chunk_size ≤ 2 ^ 24 →
      (|d| + 1) * env.chunk_size ≤ 2 ^ 24 := by
    intro c d hd hc
    have h1 : (|d| + 1) * env.chunk_size ≤ (|c| + 2) * env.chunk_size :=
      mul_le_mul_of_nonneg_right (by omega) hn0
    omega
  have hx0 := bound cx cx (by omega) hcx
  have hy0 := bound cy cy (by omega) hcy
  have hxm := bound cx (cx - 1) (by have := abs_sub cx 1; simp at this; omega) hcx
  have hxp := bound cx (cx + 1) (by have := abs_add cx 1; simp at this; omega) hcx
  have hym := bound cy (cy - 1) (by have := abs_sub cy 1; simp at this; omega) hcy
  have hyp := bound cy (cy + 1) (by have := abs_add cy 1; simp at this; omega) hcy
  simp only [make_chunk_heights _ _ _ _ hn]
  have i0 : in_extent (env.chunk_size + 2) 0 := ⟨by omega, by omega⟩
  have i1 : in_extent (env.chunk_size + 2) 1 := ⟨by omega, by omega⟩
  have i2 : in_extent (env.chunk_size + 2) env.chunk_size := ⟨by omega, by omega⟩
  have i3 : in_extent (env.chunk_size + 2) (env.chunk_size + 1) := ⟨by omega, by omega⟩
  have ik : in_extent (env.chunk_size + 2) k := hk
  unfold sampled_heights
  simp only [i0, i1, i2, i3, ik, and_self, if_true]
  have ksame : ∀ a b c1 c2 : Int,
      world_y env.chunk_size (a, cy, c1) (k - 1) = world_y env.chunk_size (b, cy, c2) (k - 1) :=
    fun _ _ _ _ => rfl
  have xsame : ∀ b1 b2 c1 c2 : Int,
      sample_x env.chunk_size (cx, b1, c1) (k - 1) = sample_x env.chunk_size (cx, b2, c2) (k - 1) :=
    fun _ _ _ _ => rfl
  refine ⟨?_, ?_, ?_, ?_⟩
  · rw [ksame cx (cx - 1) cz cz1,
      sample_x_exact env.chunk_size (cx, cy, cz) _ hn ⟨by omega, by omega⟩ hx0,
      sample_x_exact env.chunk_size (cx - 1, cy, cz1) _ hn ⟨by omega, by omega⟩ hxm]
    congr 2
    ring
  · rw [ksame cx (cx + 1) cz cz1,
      sample_x_exact env.chunk_size (cx, cy, cz) _ hn ⟨by omega, by omega⟩ hx0,
      sample_x_exact env.chunk_size (cx + 1, cy, cz1) _ hn ⟨by omega, by omega⟩ hxp]
    congr 2
    ring
  · rw [xsame cy (cy + 1) cz cz1,
      world_y_exact env.chunk_size (cx, cy, cz) _ hn ⟨by omega, by omega⟩ hy0,
      world_y_exact env.chunk_size (cx, cy + 1, cz1) _ hn ⟨by omega, by omega⟩ hyp]
    congr 2
    ring
  · rw [xsame cy (cy - 1) cz cz1,
      world_y_exact env.chunk_size (cx, cy, cz) _ hn ⟨by omega, by omega⟩ hy0,
      world_y_exact env.chunk_size (cx, cy - 1, cz1) _ hn ⟨by omega, by omega⟩ hym]
    congr 2
    ring

/-- C10, witness: chunk `(1, 1)` of size 3 and its four neighbours over `ridgeNoise`,
padded row and column 2; the shared heights are 2, 1, 1 and 2. -/
theorem padded_heights_agree_witness :
    (1 : Int) < (exampleEnv 3 ridgeNoise).chunk_size ∧
    (|(1 : Int)| + 2) * (exampleEnv 3 ridgeNoise).chunk_size ≤ 2 ^ 24 ∧
    ((0 : Int) ≤ 2 ∧ (2 : Int) < (exampleEnv 3 ridgeNoise).chunk_size + 2) ∧
    ((make_chunk (exampleEnv 3 ridgeNoise) (1, 1, 0) 0 gl0).heights 2
        ((exampleEnv 3 ridgeNoise).chunk_size + 1)
      = (make_chunk (exampleEnv 3 ridgeNoise) (1 - 1, 1, 0) 0 gl0).heights 2 1 ∧
    (make_chunk (exampleEnv 3 ridgeNoise) (1, 1, 0) 0 gl0).heights 2 0
      = (make_chunk (exampleEnv 3 ridgeNoise) (1 + 1, 1, 0) 0 gl0).heights 2
          (exampleEnv 3 ridgeNoise).chunk_size ∧
    (make_chunk (exampleEnv 3 ridgeNoise) (1, 1, 0) 0 gl0).heights
        ((exampleEnv 3 ridgeNoise).chunk_size + 1) 2
      = (make_chunk (exampleEnv 3 ridgeNoise) (1, 1 + 1, 0) 0 gl0).heights 1 2 ∧
    (make_chunk (exampleEnv 3 ridgeNoise) (1, 1, 0) 0 gl0).heights 0 2
      = (make_chunk (exampleEnv 3 ridgeNoise) (1, 1 - 1, 0) 0 gl0).heights
          (exampleEnv 3 ridgeNoise).chunk_size 2) ∧
    (make_chunk (exampleEnv 3 ridgeNoise) (1, 1, 0) 0 gl0).heights 2 (3 + 1) = 2 ∧
    (make_chunk (exampleEnv 3 ridgeNoise) (1, 1, 0) 0 gl0).heights 2 0 = 1 ∧
    (make_chunk (exampleEnv 3 ridgeNoise) (1, 1, 0) 0 gl0).heights (3 + 1) 2 = 1 ∧
    (make_chunk (exampleEnv 3 ridgeNoise) (1, 1, 0) 0 gl0).heights 0 2 = 2 :=
  ⟨by decide, by decide, by decide,
    padded_heights_agree (exampleEnv 3 ridgeNoise) 1 1 0 0 0 0 gl0 gl0 (by decide) (by decide)
      (by decide) 2 (by decide),
    by decide, by decide, by decide, by decide⟩

end Claims

section UvTable

variable {F M : Type} [Div F] [OfScientific F] [NatCast F]

/-! ### C11 -/

/-- C11: `get_uv_coords` returns no mapping for `AIR`, `STONE`, `SAND` and `WATER`; for
`DIRT` it returns one origin three times; and for `GRASS`, over the rationals and for
any positive atlas size, it returns three pairwise distinct origins. -/
theorem get_uv_coords_table (env : BlockEnv F M) {MQ : Type} (envQ : BlockEnv ℚ MQ)
    (hN : 0 < envQ.ATLAS_TEX_SIZE) :
    get_uv_coords env BlockType.AIR = none ∧
    get_uv_coords env BlockType.STONE = none ∧
    get_uv_coords env BlockType.SAND = none ∧
    get_uv_coords env BlockType.WATER = none ∧
    (∃ u, get_uv_coords env BlockType.DIRT = some (u, u, u)) ∧
    (∃ t s b, get_uv_coords envQ BlockType.GRASS = some (t, s, b) ∧
      t ≠ s ∧ s ≠ b ∧ t ≠ b) := by
  refine ⟨rfl, rfl, rfl, rfl, ⟨_, rfl⟩, ⟨_, _, _, rfl, ?_, ?_, ?_⟩⟩
  all_goals
    intro h
    have h0 := congrFun h 0
    have hN0 : (envQ.ATLAS_TEX_SIZE : ℚ) ≠ 0 := by exact_mod_cast hN.ne.symm
    simp only [Matrix.cons_val_zero] at h0
    field_simp at h0
    norm_num at h0

/-- C11, witness: the 16-tile atlas of `exampleEnv`. -/
theorem get_uv_coords_table_witness :
    0 < (exampleEnv 2 stepNoise).toBlockEnv.ATLAS_TEX_SIZE ∧
    get_uv_coords (exampleEnv 2 stepNoise).toBlockEnv BlockType.STONE = none ∧
    (∃ t s b, get_uv_coords (exampleEnv 2 stepNoise).toBlockEnv BlockType.GRASS = some (t, s, b) ∧
      t ≠ s ∧ s ≠ b ∧ t ≠ b) :=
  ⟨by decide,
    (get_uv_coords_table (exampleEnv 2 stepNoise).toBlockEnv (exampleEnv 2 stepNoise).toBlockEnv
      (by decide)).2.1,
    (get_uv_coords_table (exampleEnv 2 stepNoise).toBlockEnv (exampleEnv 2 stepNoise).toBlockEnv
      (by decide)).2.2.2.2.2⟩

end UvTable

section Claims2

variable {F M : Type} [Add F] [Sub F] [Neg F] [Div F] [OfScientific F] [NatCast F]

/-! ### C12 -/

/-- C12: for `STONE`, `SAND` and `WATER` (the block types `get_uv_coords` does not map
and `make_block` does not return early on) and every non-zero mask, `make_block`
returns a block of that type whose vertex array, stored size and uploaded data are
those built with the UV origin `(0, 0)` for the top, sides and bottom groups. -/
theorem unmapped_type_default_uv (env : BlockEnv F M) (type : BlockType) (m_block_trns : M)
    (sides : Nat) (gl : GlState F)
    (htype : type = BlockType.STONE ∨ type = BlockType.SAND ∨ type = BlockType.WATER)
    (hsides : sides ≠ 0) :
    get_uv_coords env type = none ∧
    (∀ f, (make_block_faces env type m_block_trns).get f
      = face_layout env (UvCoords.zero, UvCoords.zero, UvCoords.zero) m_block_trns f) ∧
    make_block_vertices env type m_block_trns sides
      = vertices_layout env (UvCoords.zero, UvCoords.zero, UvCoords.zero) m_block_trns sides ∧
    (make_block env type m_block_trns sides gl).1.type = type ∧
    (make_block env type m_block_trns sides gl).1.mesh.vertices
      = (vertices_layout env (UvCoords.zero, UvCoords.zero, UvCoords.zero)
          m_block_trns sides).length ∧
    GlCall.bufferData
        (4 * (vertices_layout env (UvCoords.zero, UvCoords.zero, UvCoords.zero)
          m_block_trns sides).length)
        (vertices_layout env (UvCoords.zero, UvCoords.zero, UvCoords.zero) m_block_trns sides)
      ∈ (make_block env type m_block_trns sides gl).2.calls := by
  have hnone : get_uv_coords env type = none := by
    rcases htype with h | h | h <;> subst h <;> rfl
  have huv : block_uv env type = (UvCoords.zero, UvCoords.zero, UvCoords.zero) := by
    unfold block_uv
    rw [hnone]
    rfl
  have hair : type ≠ BlockType.AIR := by
    rcases htype with h | h | h <;> subst h <;> decide
  have hc : ¬ (sides = 0 ∨ type = BlockType.AIR) := fun h => h.elim hsides hair
  have hv := make_block_vertices_layout env type m_block_trns sides
  rw [huv] at hv
  refine ⟨hnone, ?_, hv, ?_, ?_, ?_⟩
  · intro f
    rw [make_block_faces_layout, huv]
  · unfold make_block
    rw [if_neg hc]
    rfl
  · rw [← hv]
    unfold make_block
    rw [if_neg hc]
  · rw [← hv]
    unfold make_block
    rw [if_neg hc]
    simp [glCall, glGenVertexArrays, glGenBuffers]

/-- C12, witness: a `STONE` block with mask `RIGHT | TOP`. -/
theorem unmapped_type_default_uv_witness :
    (BlockType.STONE = BlockType.STONE ∨ BlockType.STONE = BlockType.SAND ∨
      BlockType.STONE = BlockType.WATER) ∧ (33 : Nat) ≠ 0 ∧
    make_block_vertices (exampleEnv 2 stepNoise).toBlockEnv BlockType.STONE (0, 0, 0) 33
      = vertices_layout (exampleEnv 2 stepNoise).toBlockEnv
          (UvCoords.zero, UvCoords.zero, UvCoords.zero) (0, 0, 0) 33 ∧
    (make_block (exampleEnv 2 stepNoise).toBlockEnv BlockType.STONE (0, 0, 0) 33 gl0).1.type
      = BlockType.STONE :=
  ⟨Or.inl rfl, by decide,
    (unmapped_type_default_uv (exampleEnv 2 stepNoise).toBlockEnv BlockType.STONE (0, 0, 0) 33
      gl0 (Or.inl rfl) (by decide)).2.2.1,
    (unmapped_type_default_uv (exampleEnv 2 stepNoise).toBlockEnv BlockType.STONE (0, 0, 0) 33
      gl0 (Or.inl rfl) (by decide)).2.2.2.1⟩

/-! ### C13 -/

/-- C13, counterexample: a `GRASS` block with mask `0x40`.  With the mask as given
`make_block` returns a `GRASS` block and generates a vertex array object and a buffer;
with `0x40 & 0x3F = 0` it returns an `AIR` block and generates nothing. -/
theorem high_mask_bits_counterexample :
    (64 : Nat) < 256 ∧ (64 : Nat) &&& 63 = 0 ∧
    (make_block (exampleEnv 2 stepNoise).toBlockEnv BlockType.GRASS (0, 0, 0) 64 gl0).1.type
      = BlockType.GRASS ∧
    (make_block (exampleEnv 2 stepNoise).toBlockEnv BlockType.GRASS (0, 0, 0) (64 &&& 63)
      gl0).1.type = BlockType.AIR ∧
    (make_block (exampleEnv 2 stepNoise).toBlockEnv BlockType.GRASS (0, 0, 0) 64 gl0).2.vaos = 1 ∧
    (make_block (exampleEnv 2 stepNoise).toBlockEnv BlockType.GRASS (0, 0, 0) 64 gl0).2.vbos = 1 ∧
    (make_block (exampleEnv 2 stepNoise).toBlockEnv BlockType.GRASS (0, 0, 0) (64 &&& 63)
      gl0).2.vaos = 0 ∧
    (make_block (exampleEnv 2 stepNoise).toBlockEnv BlockType.GRASS (0, 0, 0) (64 &&& 63)
      gl0).2.vbos = 0 := by
  decide

/-- C13, as amended: bits outside the six face bits never select a face, so the vertex
array `make_block` builds past its early return is the same for mask `m` and for
`m & 0x3F`; and whenever `m = 0`, the type is `AIR`, or `m & 0x3F ≠ 0`, `make_block`
with mask `m` returns the same block and leaves the same OpenGL state as with
`m & 0x3F`. -/
theorem high_mask_bits (env : BlockEnv F M) (type : BlockType) (m_block_trns : M)
    (sides : Nat) (gl : GlState F) :
    make_block_vertices env type m_block_trns sides
      = make_block_vertices env type m_block_trns (sides &&& 63) ∧
    (sides = 0 ∨ type = BlockType.AIR ∨ sides &&& 63 ≠ 0 →
      make_block env type m_block_trns sides gl
        = make_block env type m_block_trns (sides &&& 63) gl) := by
  refine ⟨(make_block_vertices_low env type m_block_trns sides).symm, ?_⟩
  intro h
  by_cases hty : type = BlockType.AIR
  · unfold make_block
    rw [if_pos (Or.inr hty), if_pos (Or.inr hty)]
  · by_cases h0 : sides = 0
    · subst h0
      rfl
    · have hlow : sides &&& 63 ≠ 0 := by
        rcases h with h | h | h
        · exact absurd h h0
        · exact absurd h hty
        · exact h
      have c1 : ¬ (sides = 0 ∨ type = BlockType.AIR) := fun e => e.elim h0 hty
      have c2 : ¬ (sides &&& 63 = 0 ∨ type = BlockType.AIR) := fun e => e.elim hlow hty
      unfold make_block
      rw [if_neg c1, if_neg c2, make_block_vertices_low]

/-- C13, witness of the amended statement: a `GRASS` block with mask `0x61`, whose low
six bits are `RIGHT | TOP`. -/
theorem high_mask_bits_witness :
    ((97 : Nat) = 0 ∨ BlockType.GRASS = BlockType.AIR ∨ (97 : Nat) &&& 63 ≠ 0) ∧
    make_block (exampleEnv 2 stepNoise).toBlockEnv BlockType.GRASS (0, 0, 0) 97 gl0
      = make_block (exampleEnv 2 stepNoise).toBlockEnv BlockType.GRASS (0, 0, 0) (97 &&& 63)
          gl0 :=
  ⟨Or.inr (Or.inr (by decide)),
    (high_mask_bits (exampleEnv 2 stepNoise).toBlockEnv BlockType.GRASS (0, 0, 0) 97 gl0).2
      (Or.inr (Or.inr (by decide)))⟩

/-! ### C14 -/

/-- C14: over the rationals, with a transform that translates every point by `t`, the
six vertices of every face array of `make_block` lie in the plane of the unit cube
around `t` that the face looks out of (at distance 1/2 from `t` along the face's
axis direction), every corner of the cube in that plane is among them, and both
triangles (vertices 0, 1, 2 and vertices 3, 4, 5) have the normal `(b - a) x (c - a)`
equal to that axis direction, which points away from the centre `t`. -/
theorem face_winding (env : BlockEnv ℚ M) (type : BlockType) (m_block_trns : M) (t : Vec3Q)
    (htr : ∀ v : Vec4 ℚ, v 3 = 1 →
      env.lac_multiply_vec4_mat4 v m_block_trns = ![v 0 + t.1, v 1 + t.2.1, v 2 + t.2.2, 1])
    (f : FaceId) :
    ∃ p : Fin 6 → Vec3Q,
      (∀ k : Fin 6,
        vertex_pos ((make_block_faces env type m_block_trns).get f) k = some (p k)) ∧
      (∀ k : Fin 6, dot (outward_normal f) (vsub (p k) t) = 1 / 2) ∧
      (∀ i : Fin 8, dot (outward_normal f) (vsub (cube_point t i) t) = 1 / 2 →
        ∃ k, p k = cube_point t i) ∧
      triangle_normal (p 0) (p 1) (p 2) = outward_normal f ∧
      triangle_normal (p 3) (p 4) (p 5) = outward_normal f ∧
      0 < dot (triangle_normal (p 0) (p 1) (p 2)) (vsub (p 0) t) ∧
      0 < dot (triangle_normal (p 3) (p 4) (p 5)) (vsub (p 3) t) := by
  refine ⟨fun k => cube_point t (face_corner f k), ?_, ?_, ?_, ?_, ?_, ?_, ?_⟩
  · intro k
    rw [face_vertex_pos, corner_pos_translation env m_block_trns t htr]
  · exact face_points_plane t f
  · intro i hi
    obtain ⟨k, hk⟩ := face_points_cover t f i hi
    exact ⟨k, congrArg (cube_point t) hk⟩
  · exact face_first_triangle t f
  · exact face_second_triangle t f
  · show 0 < dot (triangle_normal (cube_point t (face_corner f 0))
      (cube_point t (face_corner f 1)) (cube_point t (face_corner f 2)))
      (vsub (cube_point t (face_corner f 0)) t)
    rw [face_first_triangle, face_points_plane]
    norm_num
  · show 0 < dot (triangle_normal (cube_point t (face_corner f 3))
      (cube_point t (face_corner f 4)) (cube_point t (face_corner f 5)))
      (vsub (cube_point t (face_corner f 3)) t)
    rw [face_second_triangle, face_points_plane]
    norm_num

/-- C14, witness: the top face of a block translated by `(1, 2, 3)`. -/
theorem face_winding_witness :
    (∀ v : Vec4 ℚ, v 3 = 1 →
      (exampleEnv 2 stepNoise).toBlockEnv.lac_multiply_vec4_mat4 v (1, 2, 3)
        = ![v 0 + (((1 : Int) : ℚ), ((2 : Int) : ℚ), ((3 : Int) : ℚ)).1,
            v 1 + (((1 : Int) : ℚ), ((2 : Int) : ℚ), ((3 : Int) : ℚ)).2.1,
            v 2 + (((1 : Int) : ℚ), ((2 : Int) : ℚ), ((3 : Int) : ℚ)).2.2, 1]) ∧
    ∃ p : Fin 6 → Vec3Q,
      (∀ k : Fin 6, vertex_pos ((make_block_faces (exampleEnv 2 stepNoise).toBlockEnv
        BlockType.GRASS (1, 2, 3)).get FaceId.top) k = some (p k)) ∧
      triangle_normal (p 0) (p 1) (p 2) = outward_normal FaceId.top ∧
      triangle_normal (p 3) (p 4) (p 5) = outward_normal FaceId.top :=
  ⟨exampleEnv_translation 2 stepNoise 1 2 3,
    (face_winding (exampleEnv 2 stepNoise).toBlockEnv BlockType.GRASS (1, 2, 3)
      (((1 : Int) : ℚ), ((2 : Int) : ℚ), ((3 : Int) : ℚ))
      (exampleEnv_translation 2 stepNoise 1 2 3) FaceId.top).imp
      (fun _ h => ⟨h.1, h.2.2.2.1, h.2.2.2.2.1⟩)⟩

/-! ### C15 -/

/-- C15: in every face array of `make_block`, vertex `k` has `u = u0 + a` and
`v = v0 + b`, where `(u0, v0)` is the UV origin of the group of the face (top for the
top face, bottom for the bottom face, sides for the other four), and each of `a`, `b`
is either the constant `0.005` or `1.0 / ATLAS_TEX_SIZE - 0.005`. -/
theorem uv_inset (env : BlockEnv F M) (type : BlockType) (m_block_trns : M) (f : FaceId)
    (k : Fin 6) :
    ∃ a b : F,
      (a = 0.005 ∨ a = (1.0 / (env.ATLAS_TEX_SIZE : F)) - 0.005) ∧
      (b = 0.005 ∨ b = (1.0 / (env.ATLAS_TEX_SIZE : F)) - 0.005) ∧
      vertex_uv ((make_block_faces env type m_block_trns).get f) k
        = some (uv_origin (block_uv env type) f.group 0 + a,
                uv_origin (block_uv env type) f.group 1 + b) := by
  cases f <;> fin_cases k <;>
    first
    | exact ⟨_, _, Or.inl rfl, Or.inl rfl, rfl⟩
    | exact ⟨_, _, Or.inl rfl, Or.inr rfl, rfl⟩
    | exact ⟨_, _, Or.inr rfl, Or.inl rfl, rfl⟩
    | exact ⟨_, _, Or.inr rfl, Or.inr rfl, rfl⟩

/-! ### C16 -/

/-- C17: for each side face `f` (FRONT, BACK, LEFT, RIGHT) with neighbour offset
`(dx, dy)` (FRONT `(-1, 0)`, BACK `(1, 0)`, LEFT `(0, -1)`, RIGHT `(0, 1)`).
Generator: in a run of `make_chunk` with every interior column below `chunk_size`, the
bit of `f` on the surface cell of column `(x, y)` is set exactly when the column is
higher than the column at `(x + dx, y + dy)`; the cells `(z, y, x)` and
`(z, y + dy, x + dx)` get the blocks `make_block` builds at their positions, and within
the exact range of `float` the second position is the first moved by `(dx, dy, 0)`.
Mesh builder: whenever the bit of `f` is set in a mask, the vertex array of
`make_block` is the array for the mask without that bit with the array for the bit
alone put in; `make_block` called with the bit alone uploads that array; it holds 30
floats, six vertices, and, over the rationals with a transform that translates by `t`,
both of its triangles have the normal `(dx, dy, 0)`. -/
theorem face_identity (env : ChunkEnv ℚ M) (location : Int × Int × Int) (faces : Nat)
    (gl : GlState ℚ) (hn : 1 < env.chunk_size)
    (hh : ∀ y x, 1 ≤ y ∧ y ≤ env.chunk_size → 1 ≤ x ∧ x ≤ env.chunk_size →
      (make_chunk env location faces gl).heights y x < env.chunk_size)
    (type : BlockType) (m_block_trns : M) (t : Vec3Q)
    (htr : ∀ v : Vec4 ℚ, v 3 = 1 →
      env.lac_multiply_vec4_mat4 v m_block_trns = ![v 0 + t.1, v 1 + t.2.1, v 2 + t.2.2, 1])
    (f : FaceId) (hside : f.group = UvGroup.sides) :
    (∀ y x, 1 ≤ y ∧ y ≤ env.chunk_size → 1 ≤ x ∧ x ≤ env.chunk_size →
      (IS_BIT_SET ((make_chunk env location faces gl).tmp_data
          ((make_chunk env location faces gl).heights y x) (y - 1) (x - 1)).faces f.bit = true ↔
        (make_chunk env location faces gl).heights y x
          > (make_chunk env location faces gl).heights (y + (neighbour_offset f).2)
              (x + (neighbour_offset f).1))) ∧
    (∀ z y x, in_extent env.chunk_size z → in_extent env.chunk_size y →
      in_extent env.chunk_size x → in_extent env.chunk_size (y + (neighbour_offset f).2) →
      in_extent env.chunk_size (x + (neighbour_offset f).1) →
      (∃ g1 g2 : GlState ℚ,
        (make_chunk env location faces gl).blocks z y x
          = some (make_block env.toBlockEnv
              ((make_chunk env location faces gl).tmp_data z y x).type
              (env.transform_at (block_x env.chunk_size location x)
                (world_y env.chunk_size location y) (world_z env.chunk_size location z))
              ((make_chunk env location faces gl).tmp_data z y x).faces g1).1 ∧
        (make_chunk env location faces gl).blocks z (y + (neighbour_offset f).2)
            (x + (neighbour_offset f).1)
          = some (make_block env.toBlockEnv
              ((make_chunk env location faces gl).tmp_data z (y + (neighbour_offset f).2)
                (x + (neighbour_offset f).1)).type
              (env.transform_at
                (block_x env.chunk_size location (x + (neighbour_offset f).1))
                (world_y env.chunk_size location (y + (neighbour_offset f).2))
                (world_z env.chunk_size location z))
              ((make_chunk env location faces gl).tmp_data z (y + (neighbour_offset f).2)
                (x + (neighbour_offset f).1)).faces g2).1) ∧
      ((|location.1| + 1) * env.chunk_size ≤ 2 ^ 24 →
        block_x env.chunk_size location (x + (neighbour_offset f).1)
          = block_x env.chunk_size location x + (neighbour_offset f).1) ∧
      ((|location.2.1| + 1) * env.chunk_size ≤ 2 ^ 24 →
        world_y env.chunk_size location (y + (neighbour_offset f).2)
          = world_y env.chunk_size location y + (neighbour_offset f).2)) ∧
    (∀ sides : Nat, IS_BIT_SET sides f.bit = true →
      ∃ before after : List ℚ,
        make_block_vertices env.toBlockEnv type m_block_trns sides
          = before ++ make_block_vertices env.toBlockEnv type m_block_trns f.bit ++ after ∧
        make_block_vertices env.toBlockEnv type m_block_trns (sides ^^^ f.bit)
          = before ++ after) ∧
    (type ≠ BlockType.AIR →
      GlCall.bufferData (4 * 30) (make_block_vertices env.toBlockEnv type m_block_trns f.bit)
        ∈ (make_block env.toBlockEnv type m_block_trns f.bit gl).2.calls) ∧
    (make_block_vertices env.toBlockEnv type m_block_trns f.bit).length = 30 ∧
    (∃ p : Fin 6 → Vec3Q,
      (∀ k : Fin 6,
        vertex_pos (make_block_vertices env.toBlockEnv type m_block_trns f.bit) k
          = some (p k)) ∧
      triangle_normal (p 0) (p 1) (p 2)
        = (((neighbour_offset f).1 : ℚ), ((neighbour_offset f).2 : ℚ), 0) ∧
      triangle_normal (p 3) (p 4) (p 5)
        = (((neighbour_offset f).1 : ℚ), ((neighbour_offset f).2 : ℚ), 0)) := by
  have hsingle : make_block_vertices env.toBlockEnv type m_block_trns f.bit
      = (make_block_faces env.toBlockEnv type m_block_trns).get f := by
    cases f <;> rfl
  have hlen : (make_block_vertices env.toBlockEnv type m_block_trns f.bit).length = 30 := by
    rw [hsingle]
    cases f <;> rfl
  refine ⟨?_, ?_, ?_, ?_, hlen, ?_⟩
  · intro y x hy hx
    rw [surface_cell_faces env location faces gl hn hh y x hy hx]
    exact surface_side_bit _ y x f hside
  · intro z y x hz hy hx hy2 hx2
    obtain ⟨-, hb⟩ := make_chunk_blocks env location faces gl hn
    obtain ⟨g1, e1⟩ := hb z y x hz hy hx
    obtain ⟨g2, e2⟩ := hb z _ _ hz hy2 hx2
    have hx1 : -1 ≤ x ∧ x ≤ env.chunk_size := ⟨by have := hx.1; omega, by have := hx.2; omega⟩
    have hx3 : -1 ≤ x + (neighbour_offset f).1 ∧ x + (neighbour_offset f).1 ≤ env.chunk_size :=
      ⟨by have := hx2.1; omega, by have := hx2.2; omega⟩
    have hy1 : -1 ≤ y ∧ y ≤ env.chunk_size := ⟨by have := hy.1; omega, by have := hy.2; omega⟩
    have hy3 : -1 ≤ y + (neighbour_offset f).2 ∧ y + (neighbour_offset f).2 ≤ env.chunk_size :=
      ⟨by have := hy2.1; omega, by have := hy2.2; omega⟩
    refine ⟨⟨g1, g2, e1, e2⟩, ?_, ?_⟩
    · intro hc
      rw [block_x_eq_sample_x, block_x_eq_sample_x,
        sample_x_exact env.chunk_size location _ hn hx3 hc,
        sample_x_exact env.chunk_size location _ hn hx1 hc]
      ring
    · intro hc
      rw [world_y_exact env.chunk_size location _ hn hy3 hc,
        world_y_exact env.chunk_size location _ hn hy1 hc]
      ring
  · intro sides hbit
    exact make_block_vertices_split env.toBlockEnv type m_block_trns sides f hbit
  · intro hty
    have hne : f.bit ≠ 0 := by cases f <;> decide
    have h := make_block_uploads env.toBlockEnv type m_block_trns f.bit gl hne hty
    rw [hlen] at h
    exact h
  · refine ⟨fun k => cube_point t (face_corner f k), ?_, ?_, ?_⟩
    · intro k
      rw [hsingle, face_vertex_pos,
        corner_pos_translation env.toBlockEnv m_block_trns t htr]
    · rw [← outward_normal_side f hside]
      exact face_first_triangle t f
    · rw [← outward_normal_side f hside]
      exact face_second_triangle t f

/-- C17, witness: the FRONT face.  In chunk `(0, 0, 0)` of size 3 over `ridgeNoise` the
column `(x, y) = (1, 0)` has height 1, its FRONT neighbour at `x - 1` height 0 and its
BACK neighbour at `x + 1` height 2, so its surface cell has the FRONT bit and not the
BACK bit; and `make_block` called with the FRONT bit alone on a block translated by
`(1, 2, 3)` emits six vertices whose two triangles have the normal `(-1, 0, 0)`. -/
theorem face_identity_witness :
    (1 : Int) < (exampleEnv 3 ridgeNoise).chunk_size ∧
    (∀ y x : Int, 1 ≤ y ∧ y ≤ (exampleEnv 3 ridgeNoise).chunk_size →
      1 ≤ x ∧ x ≤ (exampleEnv 3 ridgeNoise).chunk_size →
      (make_chunk (exampleEnv 3 ridgeNoise) (0, 0, 0) 0 gl0).heights y x
        < (exampleEnv 3 ridgeNoise).chunk_size) ∧
    FaceId.front.group = UvGroup.sides ∧
    (IS_BIT_SET ((make_chunk (exampleEnv 3 ridgeNoise) (0, 0, 0) 0 gl0).tmp_data
        ((make_chunk (exampleEnv 3 ridgeNoise) (0, 0, 0) 0 gl0).heights 1 2) (1 - 1) (2 - 1)).faces
        FaceId.front.bit = true ↔
      (make_chunk (exampleEnv 3 ridgeNoise) (0, 0, 0) 0 gl0).heights 1 2
        > (make_chunk (exampleEnv 3 ridgeNoise) (0, 0, 0) 0 gl0).heights
            (1 + (neighbour_offset FaceId.front).2) (2 + (neighbour_offset FaceId.front).1)) ∧
    (make_chunk (exampleEnv 3 ridgeNoise) (0, 0, 0) 0 gl0).heights 1 2 = 1 ∧
    (make_chunk (exampleEnv 3 ridgeNoise) (0, 0, 0) 0 gl0).heights 1 1 = 0 ∧
    (make_chunk (exampleEnv 3 ridgeNoise) (0, 0, 0) 0 gl0).heights 1 3 = 2 ∧
    IS_BIT_SET ((make_chunk (exampleEnv 3 ridgeNoise) (0, 0, 0) 0 gl0).tmp_data 1 0 1).faces FRONT
      = true ∧
    IS_BIT_SET ((make_chunk (exampleEnv 3 ridgeNoise) (0, 0, 0) 0 gl0).tmp_data 1 0 1).faces BACK
      = false ∧
    (make_block_vertices (exampleEnv 3 ridgeNoise).toBlockEnv BlockType.GRASS (1, 2, 3)
      FaceId.front.bit).length = 30 ∧
    (∃ p : Fin 6 → Vec3Q,
      (∀ k : Fin 6, vertex_pos (make_block_vertices (exampleEnv 3 ridgeNoise).toBlockEnv
        BlockType.GRASS (1, 2, 3) FaceId.front.bit) k = some (p k)) ∧
      triangle_normal (p 0) (p 1) (p 2)
        = (((neighbour_offset FaceId.front).1 : ℚ), ((neighbour_offset FaceId.front).2 : ℚ), 0) ∧
      triangle_normal (p 3) (p 4) (p 5)
        = (((neighbour_offset FaceId.front).1 : ℚ), ((neighbour_offset FaceId.front).2 : ℚ), 0)) ∧
    FaceId.front.bit = FRONT ∧ neighbour_offset FaceId.front = (-1, 0) :=
  ⟨by decide,
    make_chunk_heights_lt (exampleEnv 3 ridgeNoise) (0, 0, 0) 0 gl0 (by decide) ridgeNoise_bounds,
    rfl,
    (face_identity (exampleEnv 3 ridgeNoise) (0, 0, 0) 0 gl0 (by decide)
      (make_chunk_heights_lt (exampleEnv 3 ridgeNoise) (0, 0, 0) 0 gl0 (by decide)
        ridgeNoise_bounds) BlockType.GRASS (1, 2, 3)
      (((1 : Int) : ℚ), ((2 : Int) : ℚ), ((3 : Int) : ℚ))
      (exampleEnv_translation 3 ridgeNoise 1 2 3) FaceId.front rfl).1 1 2 (by decide) (by decide),
    by decide, by decide, by decide, by decide, by decide,
    (face_identity (exampleEnv 3 ridgeNoise) (0, 0, 0) 0 gl0 (by decide)
      (make_chunk_heights_lt (exampleEnv 3 ridgeNoise) (0, 0, 0) 0 gl0 (by decide)
        ridgeNoise_bounds) BlockType.GRASS (1, 2, 3)
      (((1 : Int) : ℚ), ((2 : Int) : ℚ), ((3 : Int) : ℚ))
      (exampleEnv_translation 3 ridgeNoise 1 2 3) FaceId.front rfl).2.2.2.2.1,
    (face_identity (exampleEnv 3 ridgeNoise) (0, 0, 0) 0 gl0 (by decide)
      (make_chunk_heights_lt (exampleEnv 3 ridgeNoise) (0, 0, 0) 0 gl0 (by decide)
        ridgeNoise_bounds) BlockType.GRASS (1, 2, 3)
      (((1 : Int) : ℚ), ((2 : Int) : ℚ), ((3 : Int) : ℚ))
      (exampleEnv_translation 3 ridgeNoise 1 2 3) FaceId.front rfl).2.2.2.2.2,
    rfl, rfl⟩

/-! ### C18 -/

/-- C18: for `chunk_size > 1`, a run of `make_chunk` indexes `heights` and `tmp_data`
within their extents throughout exactly when every interior column of the padded
height grid is below `chunk_size`; nothing clamps the height, so with `chunk_size = 4`
and the flat height 15 the surface cell index 15 is outside `[0, 4)` and the run
indexes `tmp_data` out of range. -/
theorem unclamped_height (env : ChunkEnv F M) (location : Int × Int × Int) (faces : Nat)
    (gl : GlState F) (hn : 1 < env.chunk_size) :
    ((make_chunk env location faces gl).fault = none ↔
      ∀ y x, 1 ≤ y ∧ y ≤ env.chunk_size → 1 ≤ x ∧ x ≤ env.chunk_size →
        (make_chunk env location faces gl).heights y x < env.chunk_size) ∧
    ((1 : Int) < 4 ∧ (flatRun 4 15).heights 1 1 = 15 ∧
      ¬ in_extent 4 ((flatRun 4 15).heights 1 1) ∧
      (flatRun 4 15).fault = some Fault.outOfBounds) := by
  refine ⟨⟨?_, ?_⟩, flatRun_too_high⟩
  · intro hf y x hy hx
    by_contra hlt
    exact make_chunk_fault env location faces gl hn y x hy hx hlt hf
  · intro hh
    exact (make_chunk_tmp env location faces gl hn hh).1

/-- C18, witness: `stepRun`, where every interior column is below the chunk size 2. -/
theorem unclamped_height_witness :
    (1 : Int) < 2 ∧
    (stepRun.fault = none ↔
      ∀ y x : Int, 1 ≤ y ∧ y ≤ 2 → 1 ≤ x ∧ x ≤ 2 → stepRun.heights y x < 2) ∧
    stepRun.fault = none :=
  ⟨by decide,
    (unclamped_height (exampleEnv 2 stepNoise) (0, 0, 0) 0 gl0 (by decide)).1,
    by decide⟩

/-! ### C19 -/

/-- C19: when every interior column of the padded height grid is below `chunk_size`,
`make_chunk` runs without fault and, for every interior column `(x, y)` of height `z`
and every cell index `i` in `[0, chunk_size)`: the cell has the BOTTOM bit exactly
when `i = 0`, the TOP bit exactly when `i = z`, and a side bit (FRONT, BACK, LEFT,
RIGHT) only when `i = z`; so when `z > 0` the surface cell has TOP and not BOTTOM and
the cell at index 0 has mask exactly `BOTTOM`. -/
theorem bits_per_cell (env : ChunkEnv F M) (location : Int × Int × Int) (faces : Nat)
    (gl : GlState F) (hn : 1 < env.chunk_size)
    (hh : ∀ y x, 1 ≤ y ∧ y ≤ env.chunk_size → 1 ≤ x ∧ x ≤ env.chunk_size →
      (make_chunk env location faces gl).heights y x < env.chunk_size) :
    (make_chunk env location faces gl).fault = none ∧
    ∀ y x, 1 ≤ y ∧ y ≤ env.chunk_size → 1 ≤ x ∧ x ≤ env.chunk_size →
      (∀ i, 0 ≤ i ∧ i < env.chunk_size →
        (IS_BIT_SET ((make_chunk env location faces gl).tmp_data i (y - 1) (x - 1)).faces BOTTOM
            = true ↔ i = 0) ∧
        (IS_BIT_SET ((make_chunk env location faces gl).tmp_data i (y - 1) (x - 1)).faces TOP
            = true ↔ i = (make_chunk env location faces gl).heights y x) ∧
        (∀ f : FaceId, f.group = UvGroup.sides →
          IS_BIT_SET ((make_chunk env location faces gl).tmp_data i (y - 1) (x - 1)).faces f.bit
            = true → i = (make_chunk env location faces gl).heights y x)) ∧
      (0 < (make_chunk env location faces gl).heights y x →
        IS_BIT_SET ((make_chunk env location faces gl).tmp_data
          ((make_chunk env location faces gl).heights y x) (y - 1) (x - 1)).faces TOP = true ∧
        IS_BIT_SET ((make_chunk env location faces gl).tmp_data
          ((make_chunk env location faces gl).heights y x) (y - 1) (x - 1)).faces BOTTOM = false ∧
        ((make_chunk env location faces gl).tmp_data 0 (y - 1) (x - 1)).faces = BOTTOM) := by
  obtain ⟨hf, ht⟩ := make_chunk_tmp env location faces gl hn hh
  refine ⟨hf, ?_⟩
  intro y x hy hx
  have hz := hh y x hy hx
  have h0 : 0 ≤ (make_chunk env location faces gl).heights y x := by
    rw [make_chunk_heights env location faces gl hn]
    exact sampled_heights_nonneg env location y x
  obtain ⟨b1, b2, -⟩ := surface_faces_bits (make_chunk env location faces gl).heights y x
  have cell : ∀ i, 0 ≤ i ∧ i < env.chunk_size →
      ((make_chunk env location faces gl).tmp_data i (y - 1) (x - 1)).faces
        = if i = (make_chunk env location faces gl).heights y x then
            surface_faces (make_chunk env location faces gl).heights y x
          else if i = 0 then SET_BIT 0 BOTTOM else 0 := by
    intro i hi
    have hin : in_extent env.chunk_size i ∧
        in_extent env.chunk_size (y - 1) ∧ in_extent env.chunk_size (x - 1) := by
      unfold in_extent; omega
    rw [ht]
    simp only [filled_tmp_data, if_pos hin, column_cell, sub_add_cancel]
  constructor
  · intro i hi
    rw [cell i hi]
    by_cases hiz : i = (make_chunk env location faces gl).heights y x
    · rw [if_pos hiz]
      refine ⟨?_, ?_, fun _ _ _ => hiz⟩
      · rw [b2, hiz]
      · exact ⟨fun _ => hiz, fun _ => b1⟩
    · rw [if_neg hiz]
      by_cases hi0 : i = 0
      · rw [if_pos hi0]
        refine ⟨⟨fun _ => hi0, fun _ => by decide⟩, ⟨fun h => ?_, fun h => absurd h hiz⟩, ?_⟩
        · exact absurd h (by decide)
        · intro f hfg h
          cases f <;> first | exact absurd h (by decide) | exact absurd hfg (by decide)
      · rw [if_neg hi0]
        refine ⟨⟨fun h => ?_, fun h => absurd h hi0⟩, ⟨fun h => ?_, fun h => absurd h hiz⟩, ?_⟩
        · exact absurd h (by decide)
        · exact absurd h (by decide)
        · intro f _ h
          cases f <;> exact absurd h (by decide)
  · intro hpos
    have hne : (0 : Int) ≠ (make_chunk env location faces gl).heights y x := by omega
    rw [cell _ ⟨h0, hz⟩, if_pos rfl, cell 0 ⟨le_refl _, by omega⟩, if_neg hne, if_pos rfl]
    refine ⟨b1, ?_, by decide⟩
    cases hb : IS_BIT_SET (surface_faces (make_chunk env location faces gl).heights y x) BOTTOM
    · rfl
    · have := b2.mp hb
      omega

/-- C19, witness: the raised column of `stepRun` (height 1): TOP without BOTTOM on the
surface cell, exactly BOTTOM on the cell at index 0. -/
theorem bits_per_cell_witness :
    (1 : Int) < 2 ∧
    (∀ y x : Int, 1 ≤ y ∧ y ≤ 2 → 1 ≤ x ∧ x ≤ 2 → stepRun.heights y x < 2) ∧
    (0 : Int) < stepRun.heights 1 1 ∧
    IS_BIT_SET (stepRun.tmp_data (stepRun.heights 1 1) (1 - 1) (1 - 1)).faces TOP = true ∧
    IS_BIT_SET (stepRun.tmp_data (stepRun.heights 1 1) (1 - 1) (1 - 1)).faces BOTTOM = false ∧
    (stepRun.tmp_data 0 (1 - 1) (1 - 1)).faces = BOTTOM :=
  ⟨by decide,
    make_chunk_heights_lt (exampleEnv 2 stepNoise) (0, 0, 0) 0 gl0 (by decide) stepNoise_bounds,
    by decide,
    ((bits_per_cell (exampleEnv 2 stepNoise) (0, 0, 0) 0 gl0 (by decide)
      (make_chunk_heights_lt (exampleEnv 2 stepNoise) (0, 0, 0) 0 gl0 (by decide)
        stepNoise_bounds)).2 1 1 (by decide) (by decide)).2 (by decide)⟩

/-! ### C20 -/

/-- C20: over the rationals, for an atlas size other than 100 (where the inset
rectangle has its near and far edges apart), in every face array of `make_block`:
vertex `k` sits at the transformed cube corner `face_corner f k`; the six vertices use
four distinct cube corners; two vertices at the same corner carry the same `(u, v)`,
two vertices at different corners carry different `(u, v)`, and two vertices at the
two ends of a cube edge agree in exactly one of `u`, `v`; and every corner of the
inset rectangle (near or far edge in `u`, near or far edge in `v`) is the `(u, v)` of
some vertex. -/
theorem uv_corner_mapping (env : BlockEnv ℚ M) (type : BlockType) (m_block_trns : M)
    (hN : env.ATLAS_TEX_SIZE ≠ 100) (f : FaceId) :
    (∀ k : Fin 6, vertex_pos ((make_block_faces env type m_block_trns).get f) k
      = some (corner_pos env m_block_trns (face_corner f k))) ∧
    (Finset.image (face_corner f) Finset.univ).card = 4 ∧
    (∀ j k : Fin 6, ∃ uj vj uk vk : ℚ,
      vertex_uv ((make_block_faces env type m_block_trns).get f) j = some (uj, vj) ∧
      vertex_uv ((make_block_faces env type m_block_trns).get f) k = some (uk, vk) ∧
      (face_corner f j = face_corner f k → uj = uk ∧ vj = vk) ∧
      (face_corner f j ≠ face_corner f k → ¬ (uj = uk ∧ vj = vk)) ∧
      (cube_edge (face_corner f j) (face_corner f k) →
        (uj = uk ∧ vj ≠ vk) ∨ (uj ≠ uk ∧ vj = vk))) ∧
    (∀ a b : Bool, ∃ k : Fin 6,
      vertex_uv ((make_block_faces env type m_block_trns).get f) k
        = some (uv_origin (block_uv env type) f.group 0
                  + (if a then (1.0 / (env.ATLAS_TEX_SIZE : ℚ)) - 0.005 else 0.005),
                uv_origin (block_uv env type) f.group 1
                  + (if b then (1.0 / (env.ATLAS_TEX_SIZE : ℚ)) - 0.005 else 0.005))) := by
  refine ⟨face_vertex_pos env type m_block_trns f, face_corner_card f, ?_, ?_⟩
  · intro j k
    refine ⟨_, _, _, _, face_vertex_uv env type m_block_trns f j,
      face_vertex_uv env type m_block_trns f k, ?_, ?_, ?_⟩
    · intro h
      rw [face_corner_same_uv f j k h]
      exact ⟨rfl, rfl⟩
    · intro h hc
      have h1 := (inset_select_eq env.ATLAS_TEX_SIZE hN _ _ _).mp hc.1
      have h2 := (inset_select_eq env.ATLAS_TEX_SIZE hN _ _ _).mp hc.2
      exact face_corner_distinct_uv f j k h (Prod.ext h1 h2)
    · intro h
      have ht := face_edge_uv f j k ((cube_edge_iff _ _).mp h)
      rcases ht with ⟨h1, h2⟩ | ⟨h1, h2⟩
      · left
        exact ⟨(inset_select_eq env.ATLAS_TEX_SIZE hN _ _ _).mpr h1,
          fun e => h2 ((inset_select_eq env.ATLAS_TEX_SIZE hN _ _ _).mp e)⟩
      · right
        exact ⟨fun e => h1 ((inset_select_eq env.ATLAS_TEX_SIZE hN _ _ _).mp e),
          (inset_select_eq env.ATLAS_TEX_SIZE hN _ _ _).mpr h2⟩
  · intro a b
    obtain ⟨k, hk⟩ := face_uv_far_onto f a b
    refine ⟨k, ?_⟩
    rw [face_vertex_uv, hk]

/-- C20, witness: the bottom face with the 16-tile atlas of `exampleEnv`. -/
theorem uv_corner_mapping_witness :
    (exampleEnv 2 stepNoise).toBlockEnv.ATLAS_TEX_SIZE ≠ 100 ∧
    (Finset.image (face_corner FaceId.bottom) Finset.univ).card = 4 ∧
    (∀ a b : Bool, ∃ k : Fin 6,
      vertex_uv ((make_block_faces (exampleEnv 2 stepNoise).toBlockEnv BlockType.GRASS
          (0, 0, 0)).get FaceId.bottom) k
        = some (uv_origin (block_uv (exampleEnv 2 stepNoise).toBlockEnv BlockType.GRASS)
                  FaceId.bottom.group 0
                  + (if a then (1.0 / ((exampleEnv 2 stepNoise).toBlockEnv.ATLAS_TEX_SIZE : ℚ))
                      - 0.005 else 0.005),
                uv_origin (block_uv (exampleEnv 2 stepNoise).toBlockEnv BlockType.GRASS)
                  FaceId.bottom.group 1
                  + (if b then (1.0 / ((exampleEnv 2 stepNoise).toBlockEnv.ATLAS_TEX_SIZE : ℚ))
                      - 0.005 else 0.005))) :=
  ⟨by decide,
    (uv_corner_mapping (exampleEnv 2 stepNoise).toBlockEnv BlockType.GRASS (0, 0, 0)
      (by decide) FaceId.bottom).2.1,
    (uv_corner_mapping (exampleEnv 2 stepNoise).toBlockEnv BlockType.GRASS (0, 0, 0)
      (by decide) FaceId.bottom).2.2.2⟩

end Claims2


section ExtensionClaim

/-! ### C21 -/

/-- C21: with `extList = "GLX_ARB_create_contextGLX_ARB_create_context"` and
`extension = "GLX_ARB_create_context"` (not empty, no space), the only token of `extList`
is `extList` itself, so `extension` is none of its tokens, and yet
`isExtensionSupported` returns true: the second copy begins where the search was
resumed (`where == start`) and ends the string.  The same happens with
`extList = "abab"` and `extension = "ab"`, in two iterations of the loop. -/
theorem isExtensionSupported_repeated_name :
    (strchr create_context_name ' ' = none ∧ create_context_name ≠ [] ∧
      tokens (create_context_name ++ create_context_name)
        = [create_context_name ++ create_context_name] ∧
      create_context_name ∉ tokens (create_context_name ++ create_context_name) ∧
      isExtensionSupported 45 (create_context_name ++ create_context_name)
        create_context_name = some true) ∧
    (strchr "ab".toList ' ' = none ∧ "ab".toList ≠ [] ∧
      tokens "abab".toList = ["abab".toList] ∧
      "ab".toList ∉ tokens "abab".toList ∧
      strstr "abab".toList "ab".toList = some 0 ∧
      "abab".toList[2]? = some 'a' ∧
      strstr ("abab".toList.drop 2) "ab".toList = some 0 ∧
      "abab".toList[4]? = none ∧
      isExtensionSupported 5 "abab".toList "ab".toList = some true) := by
  decide

end ExtensionClaim

end KingCraft
